import Mathlib

/-! okxauto: strategies, range entry, retry policy and engine monitors.

A shallow embedding of the Go sources

* `internal/types/types.go` (Tick, Signal),
* `internal/trading/strategies/grid.go` (GridStrategy),
* `internal/trading/strategies/rsi.go` (RSIStrategy),
* `internal/trading/types.go` (Config),
* `internal/api/utils.go` and `internal/utils/retry.go` (the two
  `RetryOperation` functions, `IsTemporaryError`),
* `internal/api/okx.go` (`sendRequest`, `sendRequestWithRetry`, the throttle
  at the head of `doRequest`, `PlaceOrder`; the exported client methods are
  the boundary to the exchange),
* `internal/trading/engine.go` (`NewEngine`, `Stop`, `processSignals`, the
  range-entry part, the strategy loop and the profit-and-loss case of
  `updateMarketData`, `executeSignal`, `checkBalance`, `checkPositionPnL`, the
  two closing functions, `checkAndAdjustMargin`, `addMargin`, the margin timer
  of `Start`).

Conventions of the embedding.

* A Go `float64` is a rational number (`ℚ`).  The level computation of the
  grid strategy, whose results are stored and compared with prices, is carried
  out as float64 does it: every operation is rounded to the nearest float64,
  ties to even, each operation on its own (no fused multiply-add, as the Go
  compiler has it on amd64).  The other computations are carried out without
  rounding, and there the literal `0.1` is the rational `1/10`.  NaN and
  infinities are outside the model; in particular a division by a zero count
  (`GridNumber = 0`, or `Period = 0` with a non-empty buffer) and a result of
  magnitude `2^1024` or more are not represented, so the model follows the
  code wherever neither occurs.
* A Go `int` is an `Int`; integer quantities are taken to stay inside the
  machine range, so no wrap-around is modelled.  The conversion `int(x)` of a
  float64 outside the range of `int` gives the least `int`, as on amd64.
* A run-time panic (negative `make` length, index out of range) is the
  result `none` of a function returning `Option`.
* A method with a pointer receiver becomes a function of the receiver's
  state; when it mutates the receiver it also returns the new state.
* `ProcessTick` returns `(*Signal, error)` with an error that is always
  `nil`; the model returns an `Option Signal` (`none` for a `nil` pointer),
  for the RSI strategy together with the new state.
* `Signal.Timestamp` is filled from the wall clock (`time.Now().Unix()`);
  the field is not part of the model.  Logging, the mutexes and the API
  client handle are not modelled either.
* A Go `error` is its message: `Option String`, `none` being `nil`; a pair
  `(value, error)` is an `Except String` value.
* A closure passed to a retry function, an HTTP attempt and a method of the
  exchange client or of the trade store are transformers of a state `σ` of
  the outside world.  The engine functions run on a `World`, the outside
  state together with the record of the calls made, so that the order and
  the arguments of the calls can be stated.  Sleeping is not modelled.
* `strconv.ParseFloat`, the fixed-point rendering of a number and the clock
  are parameters (`GoLibrary`); `strings.ToLower` is modelled on ASCII
  letters.
* The tasks started by `Start` are modelled by the bodies of their `select`
  cases, run one after the other; the signal queue is a list, and a closed
  channel is a flag.  Which task makes a call is recorded; that two tasks run
  at the same instant is not represented.
* The throttle of `doRequest` runs on explicit instants, whole nanoseconds;
  the mutex is the instant from which it is free, and only `time.Sleep` takes
  time.
* `PlaceOrder` writes three fields into the request of its caller.  The
  model of `PlaceOrder` returns the request after the call; the engine
  functions, which see the client through its interface, pass the request they
  built on every call.
-/

namespace Okxauto

set_option linter.dupNamespace false

/-! ## internal/types/types.go -/

/-- Trade signal (types.go, `Signal`), without the wall-clock `Timestamp`. -/
structure Signal where
  Symbol : String
  Strategy : String
  Action : String
  Price : ℚ
  Amount : ℚ
deriving DecidableEq, Repr

/-- Market tick (types.go, `Tick`). -/
structure Tick where
  Symbol : String
  Price : ℚ
  Volume : ℚ
  Timestamp : Int
deriving DecidableEq, Repr

/-! ## float64 arithmetic -/

/-- The power `2^k` for a whole exponent `k`. -/
def pow2 (k : Int) : ℚ :=
  if 0 ≤ k then ((2 ^ k.toNat : Nat) : ℚ) else 1 / ((2 ^ (-k).toNat : Nat) : ℚ)

/-- The loop of `bitLog2`: halving until the number is below 2. -/
def bitLog2.loop : Nat → Nat → Nat
  | 0, _ => 0
  | fuel + 1, n => if n < 2 then 0 else bitLog2.loop fuel (n / 2) + 1

/-- The position of the leading binary digit of a natural number other than 0:
the `k` with `2^k ≤ n < 2^(k+1)`. -/
def bitLog2 (n : Nat) : Nat := bitLog2.loop n n

/-- The binary exponent of a number other than 0: the `k` with
`2^k ≤ |x| < 2^(k+1)`. -/
def Float64.binade (x : ℚ) : Int :=
  let k : Int := (bitLog2 x.num.natAbs : Int) - (bitLog2 x.den : Int)
  if pow2 k ≤ |x| then k else k - 1

/-- Rounding to the nearest whole number, a tie going to the even one. -/
def roundHalfEven (q : ℚ) : Int :=
  let f : Int := q.num / (q.den : Int)
  let r : ℚ := q - (f : ℚ)
  if r < 1 / 2 then f else if 1 / 2 < r then f + 1 else if f % 2 = 0 then f else f + 1

/-- The float64 nearest to a number (IEEE 754 binary64, round to nearest, ties
to even): the number is rounded to a multiple of `2^e`, where `e` is its binary
exponent less 52, and at least -1074 (the spacing of the subnormal numbers).
A result of magnitude `2^1024` or more, an infinity in Go, is not
represented. -/
def roundFloat64 (x : ℚ) : ℚ :=
  if x = 0 then 0
  else
    let e : Int := max (Float64.binade x - 52) (-1074)
    (roundHalfEven (x / pow2 e) : ℚ) * pow2 e

/-- The number is a finite float64: rounding leaves it as it is and its
magnitude is below `2^1024`. -/
def Float64.representable (x : ℚ) : Bool :=
  decide (roundFloat64 x = x) && decide (|x| < pow2 1024)

/-- The float64 sum `a + b`. -/
def Float64.add (a b : ℚ) : ℚ := roundFloat64 (a + b)

/-- The float64 difference `a - b`. -/
def Float64.sub (a b : ℚ) : ℚ := roundFloat64 (a - b)

/-- The float64 product `a * b`. -/
def Float64.mul (a b : ℚ) : ℚ := roundFloat64 (a * b)

/-- The float64 quotient `a / b`, for a divisor other than 0. -/
def Float64.div (a b : ℚ) : ℚ := roundFloat64 (a / b)

/-- The conversion `float64(n)` of an `int`. -/
def Float64.ofInt (n : Int) : ℚ := roundFloat64 (n : ℚ)

/-! ## internal/trading/strategies/grid.go -/

/-- Grid configuration (grid.go, `GridConfig`). -/
structure GridConfig where
  Enabled : Bool
  UpperPrice : ℚ
  LowerPrice : ℚ
  GridNumber : Int
  TotalAmount : ℚ
deriving DecidableEq, Repr

/-- Grid strategy state (grid.go, `GridStrategy`): the symbol, the
configuration and the computed levels. -/
structure GridStrategy where
  symbol : String
  config : GridConfig
  gridLevels : List ℚ
deriving DecidableEq, Repr

/-- Constructor (grid.go, `NewGridStrategy`): the levels start out as the nil slice. -/
def NewGridStrategy (symbol : String) (config : GridConfig) : GridStrategy :=
  { symbol := symbol, config := config, gridLevels := [] }

/-- Strategy name (grid.go, `GridStrategy.Name`). -/
def GridStrategy.Name (_s : GridStrategy) : String := "Grid"

/-- Level computation (grid.go, `calculateGridLevels`).  `make` panics on a
negative length (`none`); otherwise slot `i` of the `GridNumber+1` slots is
`LowerPrice + float64(i)*interval` with
`interval = (UpperPrice - LowerPrice) / float64(GridNumber)`, every operation
in float64. -/
def GridStrategy.calculateGridLevels (s : GridStrategy) : Option (List ℚ) :=
  if s.config.GridNumber + 1 < 0 then none
  else
    let interval := Float64.div (Float64.sub s.config.UpperPrice s.config.LowerPrice)
      (Float64.ofInt s.config.GridNumber)
    some ((List.range (s.config.GridNumber + 1).toNat).map
      (fun (i : Nat) => Float64.add s.config.LowerPrice
        (Float64.mul (Float64.ofInt (i : Int)) interval)))

/-- Initialisation (grid.go, `Initialize`): stores the computed levels. -/
def GridStrategy.Initialize (s : GridStrategy) : Option GridStrategy :=
  match s.calculateGridLevels with
  | none => none
  | some levels => some { s with gridLevels := levels }

/-- Every float64 operation of `calculateGridLevels` is exact for the
configuration: the count, the difference of the bounds, the interval
`d = (UpperPrice - LowerPrice) / GridNumber` and, for every slot `i`, the
number `i`, the product `i*d` and the sum `LowerPrice + i*d` are finite float64
numbers. -/
def GridStrategy.levelsExact (s : GridStrategy) : Bool :=
  Float64.representable (s.config.GridNumber : ℚ) &&
  Float64.representable (s.config.UpperPrice - s.config.LowerPrice) &&
  Float64.representable
    ((s.config.UpperPrice - s.config.LowerPrice) / (s.config.GridNumber : ℚ)) &&
  (List.range (s.config.GridNumber + 1).toNat).all (fun (i : Nat) =>
    Float64.representable (i : ℚ) &&
    Float64.representable
      ((i : ℚ) * ((s.config.UpperPrice - s.config.LowerPrice) / (s.config.GridNumber : ℚ))) &&
    Float64.representable
      (s.config.LowerPrice
        + (i : ℚ) * ((s.config.UpperPrice - s.config.LowerPrice) / (s.config.GridNumber : ℚ))))

/-- A range of configurations in which no operation of `calculateGridLevels`
reaches the magnitude `2^1024`, so that every result is a finite float64: the
two bounds are at most `2^1000` in magnitude and the count is at most `2^20`. -/
def GridConfig.inRange (c : GridConfig) : Bool :=
  decide (|c.LowerPrice| ≤ pow2 1000) && decide (|c.UpperPrice| ≤ pow2 1000) &&
  decide (c.GridNumber ≤ 1048576)

/-- Test of the loops in `ProcessTick` and `checkGridSignal`: does bucket
`i`, that is `[levels[i], levels[i+1])`, contain the price? -/
def inBucket (levels : List ℚ) (price : ℚ) (i : Nat) : Bool :=
  decide (price ≥ levels.getD i 0) && decide (price < levels.getD (i + 1) 0)

/-- Body of the loop of `checkGridSignal` over the remaining indices: in a
bucket that contains the price, a buy near the lower edge, else a sell near
the upper edge, else the loop goes on with the next index. -/
def GridStrategy.checkGridSignalLoop (s : GridStrategy) (currentPrice : ℚ) :
    List Nat → Option Signal
  | [] => none
  | i :: rest =>
    let lower := s.gridLevels.getD i 0
    let upper := s.gridLevels.getD (i + 1) 0
    if inBucket s.gridLevels currentPrice i then
      let gridAmount : ℚ := 1
      let gridRange := upper - lower
      if currentPrice - lower < gridRange * (1 / 10) then
        some { Symbol := s.symbol, Strategy := s.Name, Action := "buy",
               Price := currentPrice, Amount := gridAmount }
      else if upper - currentPrice < gridRange * (1 / 10) then
        some { Symbol := s.symbol, Strategy := s.Name, Action := "sell",
               Price := currentPrice, Amount := gridAmount }
      else s.checkGridSignalLoop currentPrice rest
    else s.checkGridSignalLoop currentPrice rest

/-- Signal test (grid.go, `checkGridSignal`): the loop over `0 ≤ i < len-1`. -/
def GridStrategy.checkGridSignal (s : GridStrategy) (currentPrice : ℚ) : Option Signal :=
  s.checkGridSignalLoop currentPrice (List.range (s.gridLevels.length - 1))

/-- Tick handler (grid.go, `ProcessTick`): nothing outside the configured
band; `gridIndex` is the first bucket containing the price (`none` for `-1`);
nothing without a bucket; otherwise the result of `checkGridSignal`. -/
def GridStrategy.ProcessTick (s : GridStrategy) (tick : Tick) : Option Signal :=
  let currentPrice := tick.Price
  if currentPrice < s.config.LowerPrice then none
  else if currentPrice > s.config.UpperPrice then none
  else
    let gridIndex := (List.range (s.gridLevels.length - 1)).find?
      (fun i => inBucket s.gridLevels currentPrice i)
    match gridIndex with
    | none => none
    | some _ => s.checkGridSignal currentPrice

/-- The decision the specification describes for a price `p` in the bucket
with edges `l` and `u` and width `w = u - l`: a buy when `p - l < 0.1*w`,
else a sell when `u - p < 0.1*w`, else nothing; a signal carries the
strategy's symbol, the name "Grid", the price `p` and the amount 1. -/
def gridSignalSpec (s : GridStrategy) (p l u : ℚ) : Option Signal :=
  if p - l < (1 / 10) * (u - l) then
    some { Symbol := s.symbol, Strategy := "Grid", Action := "buy", Price := p, Amount := 1 }
  else if u - p < (1 / 10) * (u - l) then
    some { Symbol := s.symbol, Strategy := "Grid", Action := "sell", Price := p, Amount := 1 }
  else none

/-! ## internal/trading/strategies/rsi.go -/

/-- RSI configuration (rsi.go, `RSIConfig`). -/
structure RSIConfig where
  Enabled : Bool
  Period : Int
  OverboughtThreshold : ℚ
  OversoldThreshold : ℚ
  SignalConfirmation : Int
  MinChange : ℚ
deriving DecidableEq, Repr

/-- RSI strategy state (rsi.go, `RSIStrategy`): symbol, configuration, price
history, last computed RSI and the debounce counter. -/
structure RSIStrategy where
  symbol : String
  config : RSIConfig
  prices : List ℚ
  lastRSI : ℚ
  signalCount : Int
deriving DecidableEq, Repr

/-- Constructor (rsi.go, `NewRSIStrategy`): empty history, zero values elsewhere. -/
def NewRSIStrategy (symbol : String) (config : RSIConfig) : RSIStrategy :=
  { symbol := symbol, config := config, prices := [], lastRSI := 0, signalCount := 0 }

/-- Strategy name (rsi.go, `RSIStrategy.Name`). -/
def RSIStrategy.Name (_s : RSIStrategy) : String := "RSI"

/-- Slice access `prices[i]` with a Go `int` index: `none` is the
index-out-of-range panic. -/
def priceAt (prices : List ℚ) (i : Int) : Option ℚ :=
  if i < 0 then none else prices[i.toNat]?

/-- A counted loop `for ...; i++ { change := prices[i] - prices[i-1]; ... }`
of `calculateRSI`: `k` iterations from index `i`, the pair `(avgGain, avgLoss)`
being updated by `step` with the change of each iteration. -/
def deltaLoop (prices : List ℚ) (step : ℚ × ℚ → ℚ → ℚ × ℚ) :
    Nat → Int → ℚ × ℚ → Option (ℚ × ℚ)
  | 0, _, acc => some acc
  | k + 1, i, acc =>
    match priceAt prices i, priceAt prices (i - 1) with
    | some a, some b => deltaLoop prices step k (i + 1) (step acc (a - b))
    | _, _ => none

/-- Body of the first loop of `calculateRSI` (lines 173 to 178): gains and
losses are summed. -/
def seedStep (acc : ℚ × ℚ) (change : ℚ) : ℚ × ℚ :=
  if change ≥ 0 then (acc.1 + change, acc.2) else (acc.1, acc.2 - change)

/-- Body of the second loop of `calculateRSI` (lines 186 to 193): Wilder
smoothing of the two averages. -/
def smoothStep (period : Int) (acc : ℚ × ℚ) (change : ℚ) : ℚ × ℚ :=
  if change ≥ 0 then
    ((acc.1 * ((period - 1 : Int) : ℚ) + change) / (period : ℚ),
     (acc.2 * ((period - 1 : Int) : ℚ)) / (period : ℚ))
  else
    ((acc.1 * ((period - 1 : Int) : ℚ)) / (period : ℚ),
     (acc.2 * ((period - 1 : Int) : ℚ) - change) / (period : ℚ))

/-- Wilder RSI over the whole buffer (rsi.go, `calculateRSI`): 50 with fewer
than `Period+1` prices; the first loop runs over `1 ≤ i ≤ Period`, the second
over `Period+1 ≤ i < len`; 100 when the average loss is 0. -/
def RSIStrategy.calculateRSI (s : RSIStrategy) : Option ℚ :=
  if (s.prices.length : Int) < s.config.Period + 1 then some 50
  else
    match deltaLoop s.prices seedStep s.config.Period.toNat 1 (0, 0) with
    | none => none
    | some sums =>
      let avgGain := sums.1 / (s.config.Period : ℚ)
      let avgLoss := sums.2 / (s.config.Period : ℚ)
      match deltaLoop s.prices (smoothStep s.config.Period)
          ((s.prices.length : Int) - (s.config.Period + 1)).toNat (s.config.Period + 1)
          (avgGain, avgLoss) with
      | none => none
      | some avgs =>
        if avgs.2 = 0 then some 100
        else
          let rs := avgs.1 / avgs.2
          some (100 - 100 / (1 + rs))

/-- Buffer update at the head of `ProcessTick` (lines 95 to 98): the price is
appended and, when the length then exceeds `Period*3`, the first entry is
dropped (`prices[1:]`). -/
def RSIStrategy.pushPrice (s : RSIStrategy) (price : ℚ) : RSIStrategy :=
  let prices := s.prices ++ [price]
  if (prices.length : Int) > s.config.Period * 3 then { s with prices := prices.drop 1 }
  else { s with prices := prices }

/-- Signal built in the overbought branch of `ProcessTick`. -/
def RSIStrategy.sellSignal (s : RSIStrategy) (tick : Tick) : Signal :=
  { Symbol := s.symbol, Strategy := s.Name, Action := "sell", Price := tick.Price, Amount := 1 }

/-- Signal built in the oversold branch of `ProcessTick`. -/
def RSIStrategy.buySignal (s : RSIStrategy) (tick : Tick) : Signal :=
  { Symbol := s.symbol, Strategy := s.Name, Action := "buy", Price := tick.Price, Amount := 1 }

/-- Tick handler (rsi.go, `ProcessTick`): buffer update; nothing with fewer
than `Period` prices; otherwise the RSI is recomputed, `lastRSI` is replaced,
and the overbought, oversold and neutral branches drive the debounce counter.
The result is the returned signal and the new state. -/
def RSIStrategy.ProcessTick (s : RSIStrategy) (tick : Tick) :
    Option (Option Signal × RSIStrategy) :=
  let s1 := s.pushPrice tick.Price
  if (s1.prices.length : Int) < s1.config.Period then some (none, s1)
  else
    match s1.calculateRSI with
    | none => none
    | some currentRSI =>
      let rsiChange := currentRSI - s1.lastRSI
      let s2 := { s1 with lastRSI := currentRSI }
      if currentRSI ≥ s2.config.OverboughtThreshold then
        if |rsiChange| ≥ s2.config.MinChange then
          let s3 := { s2 with signalCount := s2.signalCount + 1 }
          if s3.signalCount ≥ s3.config.SignalConfirmation then
            some (some (s3.sellSignal tick), { s3 with signalCount := 0 })
          else some (none, s3)
        else some (none, s2)
      else if currentRSI ≤ s2.config.OversoldThreshold then
        if |rsiChange| ≥ s2.config.MinChange then
          let s3 := { s2 with signalCount := s2.signalCount + 1 }
          if s3.signalCount ≥ s3.config.SignalConfirmation then
            some (some (s3.buySignal tick), { s3 with signalCount := 0 })
          else some (none, s3)
        else some (none, s2)
      else some (none, { s2 with signalCount := 0 })

/-- Consecutive `ProcessTick` calls on one strategy: the signals returned, in
order, and the final state. -/
def RSIStrategy.runTicks : RSIStrategy → List Tick → Option (List (Option Signal) × RSIStrategy)
  | s, [] => some ([], s)
  | s, t :: ts =>
    match s.ProcessTick t with
    | none => none
    | some (sig, s1) =>
      match RSIStrategy.runTicks s1 ts with
      | none => none
      | some (sigs, s2) => some (sig :: sigs, s2)

/-- The RSI a `ProcessTick` call on `tick` computes, if it gets that far:
the buffer after the update holds at least `Period` prices and
`calculateRSI` returns. -/
def RSIStrategy.computedRSI (s : RSIStrategy) (tick : Tick) : Option ℚ :=
  let s1 := s.pushPrice tick.Price
  if (s1.prices.length : Int) < s1.config.Period then none else s1.calculateRSI

/-- A tick qualifies on the overbought side: the call computes an RSI that
is at least the overbought threshold and differs from the previous RSI by at
least `MinChange`. -/
def RSIStrategy.sellQualifies (s : RSIStrategy) (tick : Tick) : Bool :=
  match s.computedRSI tick with
  | none => false
  | some r => decide (r ≥ s.config.OverboughtThreshold) &&
      decide (|r - s.lastRSI| ≥ s.config.MinChange)

/-- A tick qualifies on the oversold side, as the specification words it: the
call computes an RSI that is at most the oversold threshold and differs from
the previous RSI by at least `MinChange`. -/
def RSIStrategy.buyQualifies (s : RSIStrategy) (tick : Tick) : Bool :=
  match s.computedRSI tick with
  | none => false
  | some r => decide (r ≤ s.config.OversoldThreshold) &&
      decide (|r - s.lastRSI| ≥ s.config.MinChange)

/-- The RSI computed by a call on `tick` is below the overbought threshold. -/
def RSIStrategy.belowOverbought (s : RSIStrategy) (tick : Tick) : Bool :=
  match s.computedRSI tick with
  | none => false
  | some r => decide (r < s.config.OverboughtThreshold)

/-- A tick is neutral: the call computes an RSI strictly between the
oversold and the overbought threshold. -/
def RSIStrategy.neutral (s : RSIStrategy) (tick : Tick) : Bool :=
  match s.computedRSI tick with
  | none => false
  | some r => decide (s.config.OversoldThreshold < r) &&
      decide (r < s.config.OverboughtThreshold)

/-- Every call of a run of consecutive `ProcessTick` calls satisfies `q` in
the state it is made in. -/
def RSIStrategy.allCalls (q : RSIStrategy → Tick → Bool) : RSIStrategy → List Tick → Bool
  | _, [] => true
  | s, t :: ts =>
    q s t && match s.ProcessTick t with
      | none => false
      | some (_, s1) => RSIStrategy.allCalls q s1 ts

/-! ## internal/trading/types.go and internal/trading/engine.go -/

/-- Entry band of a side (types.go, `Config.LongPosition.EntryRange`). -/
structure EntryRange where
  Min : ℚ
  Max : ℚ
deriving DecidableEq, Repr

/-- Settings of one side (types.go, the anonymous structs `Config.LongPosition`
and `Config.ShortPosition`, which have the same fields); the map of per-symbol
margin ratios is an association list. -/
structure PositionConfig where
  Enabled : Bool
  EntryRange : EntryRange
  TakeProfit : ℚ
  StopLoss : ℚ
  PositionSize : Int
  MarginRatio : ℚ
  AutoMargin : Bool
  MarginAmount : ℚ
  SymbolMarginRatios : List (String × ℚ)
deriving DecidableEq, Repr

/-- RSI section of the engine configuration (types.go, `Config.RSI`). -/
structure RSISection where
  Enabled : Bool
  Period : Int
  OverboughtThreshold : ℚ
  OversoldThreshold : ℚ
deriving DecidableEq, Repr

/-- Engine configuration (types.go, `Config`). -/
structure Config where
  Mode : String
  TradeType : String
  Leverage : Int
  MarginMode : String
  ReserveBalance : ℚ
  Symbols : List String
  LongPosition : PositionConfig
  ShortPosition : PositionConfig
  Grid : GridConfig
  RSI : RSISection
deriving DecidableEq, Repr

/-- The two local flags of `updateMarketData` (engine.go line 308), both
`false` when the polling loop starts. -/
structure EntryFlags where
  lastLongEntry : Bool
  lastShortEntry : Bool
deriving DecidableEq, Repr

/-- Band test of `updateMarketData` (lines 332 and 351): `Min ≤ price ≤ Max`. -/
def inEntryRange (r : EntryRange) (price : ℚ) : Bool :=
  decide (price ≥ r.Min) && decide (price ≤ r.Max)

/-- Range-entry part of one market tick of `updateMarketData` (engine.go lines
330 to 376) for the price just fetched: the long check, the short check and
the two resets.  The result is the list of signals sent to the queue, in
order, and the new flags.  The loop over the strategies that follows in the
source (lines 378 to 392) sends signals named "Grid" or "RSI" and is not part
of this function. -/
def rangeEntryTick (config : Config) (symbol : String) (flags : EntryFlags) (price : ℚ) :
    List Signal × EntryFlags :=
  let long : List Signal × Bool :=
    if config.LongPosition.Enabled && !flags.lastLongEntry then
      if inEntryRange config.LongPosition.EntryRange price then
        ([{ Symbol := symbol, Strategy := "LongPosition", Action := "buy", Price := price,
            Amount := (config.LongPosition.PositionSize : ℚ) }], true)
      else ([], flags.lastLongEntry)
    else ([], flags.lastLongEntry)
  let short : List Signal × Bool :=
    if config.ShortPosition.Enabled && !flags.lastShortEntry then
      if inEntryRange config.ShortPosition.EntryRange price then
        ([{ Symbol := symbol, Strategy := "ShortPosition", Action := "sell", Price := price,
            Amount := (config.ShortPosition.PositionSize : ℚ) }], true)
      else ([], flags.lastShortEntry)
    else ([], flags.lastShortEntry)
  let lastLongEntry :=
    if price < config.LongPosition.EntryRange.Min ∨ price > config.LongPosition.EntryRange.Max
    then false else long.2
  let lastShortEntry :=
    if price < config.ShortPosition.EntryRange.Min ∨ price > config.ShortPosition.EntryRange.Max
    then false else short.2
  (long.1 ++ short.1, { lastLongEntry := lastLongEntry, lastShortEntry := lastShortEntry })

/-- The range-entry signals of consecutive market ticks of one symbol's
polling loop: one list of signals per tick price. -/
def rangeEntryRun (config : Config) (symbol : String) : EntryFlags → List ℚ → List (List Signal)
  | _, [] => []
  | flags, price :: rest =>
    (rangeEntryTick config symbol flags price).1 ::
      rangeEntryRun config symbol (rangeEntryTick config symbol flags price).2 rest

/-- The signals of one tick that come from the rule named `name`. -/
def signalsOf (name : String) (sigs : List Signal) : List Signal :=
  sigs.filter (fun sig => sig.Strategy == name)

/-- The entry condition as the specification words it, for tick `k` of a
sequence of prices: the price lies in the band, and the tick is the first
one or the price of the tick before it lies outside the band. -/
def entersBand (band : ℚ → Bool) (prices : List ℚ) (k : Nat) : Bool :=
  match prices[k]? with
  | none => false
  | some p => band p && (k == 0 ||
      match prices[k - 1]? with
      | some q => !band q
      | none => false)

/-! ## internal/api/utils.go and internal/utils/retry.go -/

/-- Retry settings (`RetryConfig`, declared alike in api/utils.go and
utils/retry.go). -/
structure RetryConfig where
  MaxRetries : Int
  DelayMillis : Int
deriving DecidableEq, Repr

/-- Default of the api package (api/utils.go, `DefaultRetryConfig`). -/
def api.DefaultRetryConfig : RetryConfig := { MaxRetries := 3, DelayMillis := 1000 }

/-- Default of the utils package (utils/retry.go, `DefaultRetryConfig`). -/
def utils.DefaultRetryConfig : RetryConfig := { MaxRetries := 3, DelayMillis := 1000 }

/-- Lower-casing (`strings.ToLower` of the Go library) on the letters `A` to
`Z`; letters outside ASCII, which Go lower-cases too, are left alone. -/
def strings.ToLower (s : String) : String :=
  String.mk (s.data.map Char.toLower)

/-- Does the text start with the given characters? -/
def startsWithChars : List Char → List Char → Bool
  | _, [] => true
  | [], _ :: _ => false
  | c :: cs, p :: ps => c == p && startsWithChars cs ps

/-- Does the text contain the given characters as a contiguous run? -/
def containsChars : List Char → List Char → Bool
  | [], sub => startsWithChars [] sub
  | c :: cs, sub => startsWithChars (c :: cs) sub || containsChars cs sub

/-- Substring test (`strings.Contains` of the Go library). -/
def strings.Contains (s substr : String) : Bool :=
  containsChars s.data substr.data

/-- Classification of an error (api/utils.go, `IsTemporaryError`).  A Go
`error` is its message, `none` being `nil`. -/
def api.IsTemporaryError (err : Option String) : Bool :=
  match err with
  | none => false
  | some msg =>
    let errMsg := strings.ToLower msg
    strings.Contains errMsg "upgrading" ||
    strings.Contains errMsg "try again" ||
    strings.Contains errMsg "timeout" ||
    strings.Contains errMsg "too many requests"

/-- Rendering of an error by the verb `%v`. -/
def errorText (err : Option String) : String :=
  match err with
  | none => "<nil>"
  | some msg => msg

/-- The loop of `api.RetryOperation` with `fuel` iterations left: the
operation is a state transformer that returns its error; a success returns
`nil`, a failure that is not temporary returns that error, a temporary one goes
on; when the iterations are used up the last error is wrapped.  The sleep
between attempts is not modelled. -/
def api.RetryOperation.loop {σ : Type} (operation : σ → Option String × σ)
    (config : RetryConfig) : Nat → Option String → σ → Option String × σ
  | 0, lastErr, s =>
    (some ("达到最大重试次数 (" ++ toString config.MaxRetries ++ "): " ++ errorText lastErr), s)
  | fuel + 1, _, s =>
    match operation s with
    | (none, s1) => (none, s1)
    | (some msg, s1) =>
      if !api.IsTemporaryError (some msg) then (some msg, s1)
      else api.RetryOperation.loop operation config fuel (some msg) s1

/-- Retry with classification (api/utils.go, `RetryOperation`): the loop
`for i := 0; i < config.MaxRetries; i++`. -/
def api.RetryOperation {σ : Type} (operation : σ → Option String × σ)
    (config : RetryConfig) (s : σ) : Option String × σ :=
  api.RetryOperation.loop operation config config.MaxRetries.toNat none s

/-- The loop of `utils.RetryOperation` with `fuel` iterations left: a success
returns `nil`, every failure goes on; when the iterations are used up the last
error is returned. -/
def utils.RetryOperation.loop {σ : Type} (operation : σ → Option String × σ) :
    Nat → Option String → σ → Option String × σ
  | 0, lastErr, s => (lastErr, s)
  | fuel + 1, _, s =>
    match operation s with
    | (none, s1) => (none, s1)
    | (some msg, s1) => utils.RetryOperation.loop operation fuel (some msg) s1

/-- Retry without classification (utils/retry.go, `RetryOperation`). -/
def utils.RetryOperation {σ : Type} (operation : σ → Option String × σ)
    (config : RetryConfig) (s : σ) : Option String × σ :=
  utils.RetryOperation.loop operation config.MaxRetries.toNat none s

/-- An operation together with a count of its invocations. -/
def counting {σ α : Type} (operation : σ → α × σ) : σ × Nat → α × (σ × Nat) :=
  fun sc => ((operation sc.1).1, ((operation sc.1).2, sc.2 + 1))

/-- The state after `i` invocations of an operation. -/
def stateAfter {σ α : Type} (operation : σ → α × σ) (s : σ) : Nat → σ
  | 0 => s
  | i + 1 => (operation (stateAfter operation s i)).2

/-- The error returned by invocation number `i` (counted from 0). -/
def errorAt {σ : Type} (operation : σ → Option String × σ) (s : σ) (i : Nat) : Option String :=
  (operation (stateAfter operation s i)).1

/-- An operation that plays a script: invocation number `i` returns
`script i`; the state is the number of invocations so far. -/
def scripted (script : Nat → Option String) : Nat → Option String × Nat :=
  fun i => (script i, i + 1)

/-- One HTTP attempt (okx.go, `doRequest`) as seen by the retry wrapper: a
state transformer on the outside world that returns the response body or an
error. -/
abbrev Attempt (σ : Type) := σ → Except String String × σ

/-- Gateway call with retry (okx.go, `sendRequestWithRetry`): the closure
stores the response of each attempt in `resp` and returns its error to
`utils.RetryOperation`; the state of the retry is the world and `resp`. -/
def OKXClient.sendRequestWithRetry {σ : Type} (doRequest : Attempt σ)
    (retryConfig : RetryConfig) (s : σ) : (Option String × Option String) × σ :=
  let operation : σ × Option String → Option String × (σ × Option String) := fun st =>
    match doRequest st.1 with
    | (Except.ok body, s1) => (none, (s1, some body))
    | (Except.error msg, s1) => (some msg, (s1, none))
  let r := utils.RetryOperation operation retryConfig (s, none)
  ((r.2.2, r.1), r.2.1)

/-- Gateway call (okx.go, `sendRequest`): retry with the default of the utils
package.  The result is the response, the error and the new world. -/
def OKXClient.sendRequest {σ : Type} (doRequest : Attempt σ) (s : σ) :
    (Option String × Option String) × σ :=
  OKXClient.sendRequestWithRetry doRequest utils.DefaultRetryConfig s

/-! ## internal/models/position.go, internal/api/okx.go, internal/database/models/models.go -/

/-- Open position (models/position.go, `Position`). -/
structure Position where
  Symbol : String
  PosSide : String
  Position : ℚ
  AvgPrice : ℚ
  UnrealPnL : ℚ
  PnLRatio : ℚ
  MarginRatio : ℚ
deriving DecidableEq, Repr

/-- Balance of one currency (okx.go, `Balance`); the amounts are text. -/
structure Balance where
  Currency : String
  Balance : String
  Available : String
  Frozen : String
deriving DecidableEq, Repr

/-- Order request (okx.go, `PlaceOrderRequest`); `OrderSide` and `OrderType`
are strings. -/
structure PlaceOrderRequest where
  InstId : String
  TdMode : String
  Side : String
  PosSide : String
  OrdType : String
  Sz : String
  Px : String
  Lever : String
  ClOrdId : String
deriving DecidableEq, Repr

/-- Order response (api/types.go, `OrderResponse`). -/
structure OrderResponse where
  OrderId : String
  ClOrdId : String
  Tag : String
  SCode : String
  SMsg : String
deriving DecidableEq, Repr

/-- Trade record (database/models/models.go, `Trade`), without the
wall-clock `CreatedAt`. -/
structure Trade where
  ID : Int
  Symbol : String
  Side : String
  Price : ℚ
  Amount : ℚ
  Strategy : String
  Status : String
  OrderID : String
  TradeType : String
deriving DecidableEq, Repr

/-- A call that leaves the engine: a method of the exchange client or of the
trade store, with its arguments. -/
inductive Call where
  | GetPositions (instId : String)
  | GetBalances
  | SetLeverage (instId lever mgnMode posSide : String)
  | PlaceOrder (req : PlaceOrderRequest)
  | AddMargin (params : List (String × String))
  | SaveTrade (trade : Trade)
deriving DecidableEq, Repr

/-- The exchange client as the engine uses it (okx.go, the exported methods of
`OKXClient`): each method is a transformer of the state `σ` of the outside
world that returns a result or an error message.  `AddMargin` returns a map
that the engine discards. -/
structure OKXClient (σ : Type) where
  GetPositions : String → σ → Except String (List Position) × σ
  GetBalances : σ → Except String (List Balance) × σ
  SetLeverage : String → String → String → String → σ → Option String × σ
  PlaceOrder : PlaceOrderRequest → σ → Except String OrderResponse × σ
  AddMargin : List (String × String) → σ → Option String × σ

/-- The trade store as the engine uses it (database.go, `SaveTrade`). -/
structure Database (σ : Type) where
  SaveTrade : Trade → σ → Option String × σ

/-- Functions of the Go library that the engine calls: `strconv.ParseFloat`
(a value or the message of its error), the fixed-point rendering of a number
with a given count of decimals (`%.2f`, `strconv.FormatFloat(x, 'f', 4, 64)`),
and the clock `time.Now().UnixNano()` of the outside world. -/
structure GoLibrary (σ : Type) where
  ParseFloat : String → Except String ℚ
  FormatFloat : ℚ → Nat → String
  UnixNano : σ → Int

/-- The engine (engine.go, `Engine`): configuration, exchange client and trade
store; the strategies and the stop channel, which play no part in the
functions of this section, are kept in `EngineState`. -/
structure Engine (σ : Type) where
  config : Config
  api : OKXClient σ
  db : Database σ
  lib : GoLibrary σ

/-- The outside world together with the record of the calls made so far,
oldest first. -/
structure World (σ : Type) where
  state : σ
  calls : List Call
deriving DecidableEq, Repr

/-- The call `e.api.GetPositions(instId)`, recorded. -/
def Engine.callGetPositions {σ : Type} (e : Engine σ) (instId : String) (w : World σ) :
    Except String (List Position) × World σ :=
  ((e.api.GetPositions instId w.state).1,
   { state := (e.api.GetPositions instId w.state).2,
     calls := w.calls ++ [Call.GetPositions instId] })

/-- The call `e.api.GetBalances()`, recorded. -/
def Engine.callGetBalances {σ : Type} (e : Engine σ) (w : World σ) :
    Except String (List Balance) × World σ :=
  ((e.api.GetBalances w.state).1,
   { state := (e.api.GetBalances w.state).2, calls := w.calls ++ [Call.GetBalances] })

/-- The call `e.api.SetLeverage(instId, lever, mgnMode, posSide)`, recorded. -/
def Engine.callSetLeverage {σ : Type} (e : Engine σ) (instId lever mgnMode posSide : String)
    (w : World σ) : Option String × World σ :=
  ((e.api.SetLeverage instId lever mgnMode posSide w.state).1,
   { state := (e.api.SetLeverage instId lever mgnMode posSide w.state).2,
     calls := w.calls ++ [Call.SetLeverage instId lever mgnMode posSide] })

/-- The call `e.api.PlaceOrder(req)`, recorded. -/
def Engine.callPlaceOrder {σ : Type} (e : Engine σ) (req : PlaceOrderRequest) (w : World σ) :
    Except String OrderResponse × World σ :=
  ((e.api.PlaceOrder req w.state).1,
   { state := (e.api.PlaceOrder req w.state).2, calls := w.calls ++ [Call.PlaceOrder req] })

/-- The call `e.api.AddMargin(params)`, recorded. -/
def Engine.callAddMargin {σ : Type} (e : Engine σ) (params : List (String × String))
    (w : World σ) : Option String × World σ :=
  ((e.api.AddMargin params w.state).1,
   { state := (e.api.AddMargin params w.state).2, calls := w.calls ++ [Call.AddMargin params] })

/-- The call `e.db.SaveTrade(trade)`, recorded. -/
def Engine.callSaveTrade {σ : Type} (e : Engine σ) (trade : Trade) (w : World σ) :
    Option String × World σ :=
  ((e.db.SaveTrade trade w.state).1,
   { state := (e.db.SaveTrade trade w.state).2, calls := w.calls ++ [Call.SaveTrade trade] })

/-- The first entry of currency "USDT": the entry at which the loops over the
balances in `executeSignal` and `checkBalance` stop. -/
def firstUSDT (balances : List Balance) : Option Balance :=
  balances.find? (fun balance => balance.Currency == "USDT")

/-- Balance check (engine.go, `checkBalance`): fetch; the available amount of
the first USDT entry (0 without one; an error when it does not parse); the
reserve is subtracted; an error when the rest is below the required amount. -/
def Engine.checkBalance {σ : Type} (e : Engine σ) (requiredAmount : ℚ) (w : World σ) :
    Option String × World σ :=
  match e.callGetBalances w with
  | (Except.error err, w1) => (some ("获取余额失败: " ++ err), w1)
  | (Except.ok balances, w1) =>
    let parsed : Except String ℚ :=
      match firstUSDT balances with
      | none => Except.ok 0
      | some balance => e.lib.ParseFloat balance.Available
    match parsed with
    | Except.error err => (some ("解析USDT余额失败: " ++ err), w1)
    | Except.ok usdtBalance =>
      let availableBalance := usdtBalance - e.config.ReserveBalance
      if availableBalance < requiredAmount then
        (some ("可用USDT余额不足: 需要 " ++ e.lib.FormatFloat requiredAmount 2 ++
          " USDT, 实际可用 " ++ e.lib.FormatFloat availableBalance 2 ++
          " USDT (总余额: " ++ e.lib.FormatFloat usdtBalance 2 ++
          " USDT, 预留: " ++ e.lib.FormatFloat e.config.ReserveBalance 2 ++ " USDT)"), w1)
      else (none, w1)

/-- Margin top-up (engine.go, `addMargin`): balance check for the amount, then
the `AddMargin` call with the amount rendered with 4 decimals. -/
def Engine.addMargin {σ : Type} (e : Engine σ) (symbol posSide : String) (amount : ℚ)
    (w : World σ) : Option String × World σ :=
  match e.checkBalance amount w with
  | (some err, w1) => (some err, w1)
  | (none, w1) =>
    let params : List (String × String) :=
      [("instId", symbol), ("posSide", posSide), ("amt", e.lib.FormatFloat amount 4),
       ("type", "add")]
    e.callAddMargin params w1

/-- The settings that `checkAndAdjustMargin` uses for a position: those of the
long side for `PosSide == "long"`, those of the short side otherwise. -/
def Engine.sideConfig {σ : Type} (e : Engine σ) (pos : Position) : PositionConfig :=
  if pos.PosSide = "long" then e.config.LongPosition else e.config.ShortPosition

/-- The threshold `configRatio` of `checkAndAdjustMargin` (lines 609 to 633),
times 100: the entry of the side's `SymbolMarginRatios` for the symbol when
there is one, the side's `MarginRatio` otherwise. -/
def Engine.configRatio {σ : Type} (e : Engine σ) (symbol : String) (pos : Position) : ℚ :=
  match (e.sideConfig pos).SymbolMarginRatios.lookup symbol with
  | some ratio => ratio * 100
  | none => (e.sideConfig pos).MarginRatio * 100

/-- The loop of `checkAndAdjustMargin` over the remaining positions: a position
below its threshold is skipped with a warning when auto-margin is off, and is
topped up with the side's `MarginAmount` otherwise; a failed top-up returns
its error, wrapped, at once. -/
def Engine.checkAndAdjustMargin.loop {σ : Type} (e : Engine σ) (symbol : String) :
    List Position → World σ → Option String × World σ
  | [], w => (none, w)
  | pos :: rest, w =>
    let marginRatio := pos.MarginRatio * 100
    let configRatio := e.configRatio symbol pos
    let autoMargin := (e.sideConfig pos).AutoMargin
    let marginAmount := (e.sideConfig pos).MarginAmount
    if marginRatio < configRatio then
      if !autoMargin then Engine.checkAndAdjustMargin.loop e symbol rest w
      else
        let addAmount := marginAmount
        match e.addMargin symbol pos.PosSide addAmount w with
        | (some err, w1) => (some ("追加保证金失败: " ++ err), w1)
        | (none, w1) => Engine.checkAndAdjustMargin.loop e symbol rest w1
    else Engine.checkAndAdjustMargin.loop e symbol rest w

/-- Margin audit of one symbol (engine.go, `checkAndAdjustMargin`). -/
def Engine.checkAndAdjustMargin {σ : Type} (e : Engine σ) (symbol : String) (w : World σ) :
    Option String × World σ :=
  match e.callGetPositions symbol w with
  | (Except.error err, w1) => (some ("获取持仓失败: " ++ err), w1)
  | (Except.ok positions, w1) => Engine.checkAndAdjustMargin.loop e symbol positions w1

/-- One firing of the margin timer in `Start` (engine.go lines 115 to 120) over
the remaining symbols: every symbol is audited, an error is only logged.  The
result lists the error of each audit. -/
def Engine.marginMonitorTick {σ : Type} (e : Engine σ) :
    List String → World σ → List (Option String) × World σ
  | [], w => ([], w)
  | symbol :: rest, w =>
    ((e.checkAndAdjustMargin symbol w).1 ::
        (Engine.marginMonitorTick e rest (e.checkAndAdjustMargin symbol w).2).1,
      (Engine.marginMonitorTick e rest (e.checkAndAdjustMargin symbol w).2).2)

/-- The symbols whose positions were fetched, in the order of the calls. -/
def auditedSymbols (calls : List Call) : List String :=
  calls.filterMap (fun call =>
    match call with
    | Call.GetPositions instId => some instId
    | _ => none)

/-- Conversion `int(x)` of a float64 to an `int` of 64 bits: the fraction is
cut off.  For a value outside the range of `int` the Go specification leaves
the result to the implementation; the model takes the result on amd64, the
least `int`. -/
def floatToInt (x : ℚ) : Int :=
  let t := Int.tdiv x.num (x.den : Int)
  if -9223372036854775808 ≤ t ∧ t < 9223372036854775808 then t else -9223372036854775808

/-- The size of a closing order (engine.go lines 454 to 457 and 483 to 486):
`int(math.Abs(pos.Position))`, raised to 200 when below. -/
def closeSize (pos : Position) : Int :=
  let sz := floatToInt |pos.Position|
  if sz < 200 then 200 else sz

/-- Client order id of a closing order: "close" and the clock in milliseconds. -/
def Engine.closeOrderId {σ : Type} (e : Engine σ) (w : World σ) : String :=
  "close" ++ toString (Int.tdiv (e.lib.UnixNano w.state) 1000000)

/-- Closing of a long position (engine.go, `closeLongPosition`). -/
def Engine.closeLongPosition {σ : Type} (e : Engine σ) (symbol : String) (pos : Position)
    (w : World σ) : Option String × World σ :=
  let sz := closeSize pos
  let orderReq : PlaceOrderRequest :=
    { InstId := symbol, TdMode := e.config.MarginMode, Side := "sell", PosSide := "long",
      OrdType := "market", Sz := toString sz, Px := "", Lever := "",
      ClOrdId := e.closeOrderId w }
  match e.callPlaceOrder orderReq w with
  | (Except.error err, w1) => (some ("平多头仓位失败: " ++ err), w1)
  | (Except.ok _, w1) => (none, w1)

/-- Closing of a short position (engine.go, `closeShortPosition`). -/
def Engine.closeShortPosition {σ : Type} (e : Engine σ) (symbol : String) (pos : Position)
    (w : World σ) : Option String × World σ :=
  let sz := closeSize pos
  let orderReq : PlaceOrderRequest :=
    { InstId := symbol, TdMode := e.config.MarginMode, Side := "buy", PosSide := "short",
      OrdType := "market", Sz := toString sz, Px := "", Lever := "",
      ClOrdId := e.closeOrderId w }
  match e.callPlaceOrder orderReq w with
  | (Except.error err, w1) => (some ("平空头仓位失败: " ++ err), w1)
  | (Except.ok _, w1) => (none, w1)

/-- The loop of `checkPositionPnL` over the remaining positions (engine.go
lines 415 to 447): the long block, then the short block; the first breach
returns the result of the closing. -/
def Engine.checkPositionPnL.loop {σ : Type} (e : Engine σ) (symbol : String) :
    List Position → World σ → Option String × World σ
  | [], w => (none, w)
  | pos :: rest, w =>
    let shortBlock : Option String × World σ :=
      if pos.PosSide = "short" ∧ pos.Position > 0 then
        if pos.PnLRatio ≥ e.config.ShortPosition.TakeProfit then
          e.closeShortPosition symbol pos w
        else if pos.PnLRatio ≤ -e.config.ShortPosition.StopLoss then
          e.closeShortPosition symbol pos w
        else Engine.checkPositionPnL.loop e symbol rest w
      else Engine.checkPositionPnL.loop e symbol rest w
    if pos.PosSide = "long" ∧ pos.Position > 0 then
      if pos.PnLRatio ≥ e.config.LongPosition.TakeProfit then
        e.closeLongPosition symbol pos w
      else if pos.PnLRatio ≤ -e.config.LongPosition.StopLoss then
        e.closeLongPosition symbol pos w
      else shortBlock
    else shortBlock

/-- Profit and loss check of one symbol (engine.go, `checkPositionPnL`). -/
def Engine.checkPositionPnL {σ : Type} (e : Engine σ) (symbol : String) (w : World σ) :
    Option String × World σ :=
  match e.callGetPositions symbol w with
  | (Except.error err, w1) => (some ("获取持仓信息失败: " ++ err), w1)
  | (Except.ok positions, w1) =>
    if positions.length = 0 then (none, w1)
    else Engine.checkPositionPnL.loop e symbol positions w1

/-- The first balance check of `executeSignal` in futures mode (engine.go lines
157 to 203): positions are fetched for the log, balances are fetched, and the
available amount of the first USDT entry (0 when it does not parse) is
compared with `Amount*Price/Leverage`; the reserve plays no part here. -/
def Engine.executeSignal.precheck {σ : Type} (e : Engine σ) (signal : Signal) (w : World σ) :
    Option String × World σ :=
  if e.config.TradeType = "futures" then
    match e.callGetBalances (e.callGetPositions signal.Symbol w).2 with
    | (Except.error err, w2) => (some ("获取余额失败: " ++ err), w2)
    | (Except.ok balances, w2) =>
      match firstUSDT balances with
      | some balance =>
        let available : ℚ :=
          match e.lib.ParseFloat balance.Available with
          | Except.ok v => v
          | Except.error _ => 0
        let required := signal.Amount * signal.Price / (e.config.Leverage : ℚ)
        if available < required then (some "USDT余额不足", w2) else (none, w2)
      | none => (some "未找到USDT余额", w2)
  else (none, w)

/-- The closure passed to `api.RetryOperation` in `executeSignal`: one
`PlaceOrder` call whose response is kept in `resp`. -/
def Engine.placeOrderOperation {σ : Type} (e : Engine σ) (orderReq : PlaceOrderRequest) :
    World σ × Option OrderResponse → Option String × (World σ × Option OrderResponse) :=
  fun st =>
    match e.callPlaceOrder orderReq st.1 with
    | (Except.ok resp, w1) => (none, (w1, some resp))
    | (Except.error err, w1) => (some err, (w1, none))

/-- Execution of a signal (engine.go, `executeSignal`): the first balance check
in futures mode, `SetLeverage`, `checkBalance` for the margin, the order
through `api.RetryOperation` with 3 attempts, and the trade record, whose
saving error is only logged.  The outer `none` is the nil dereference of a
missing response. -/
def Engine.executeSignal {σ : Type} (e : Engine σ) (signal : Signal) (w : World σ) :
    Option (Option String × World σ) :=
  match Engine.executeSignal.precheck e signal w with
  | (some err, w2) => some (some err, w2)
  | (none, w2) =>
    let posSide := if signal.Action = "sell" then "short" else "long"
    match e.callSetLeverage signal.Symbol (toString e.config.Leverage) e.config.MarginMode
        posSide w2 with
    | (some err, w3) => some (some err, w3)
    | (none, w3) =>
      let margin := signal.Price * signal.Amount / (e.config.Leverage : ℚ)
      match e.checkBalance margin w3 with
      | (some err, w4) => some (some err, w4)
      | (none, w4) =>
        let orderReq : PlaceOrderRequest :=
          { InstId := signal.Symbol, TdMode := e.config.MarginMode, Side := signal.Action,
            PosSide := if e.config.TradeType = "futures" then posSide else "",
            OrdType := "market", Sz := "200", Px := "",
            Lever := if e.config.TradeType = "futures" then toString e.config.Leverage else "",
            ClOrdId := "" }
        match api.RetryOperation (e.placeOrderOperation orderReq)
            { MaxRetries := 3, DelayMillis := 1000 } (w4, none) with
        | (some err, st) => some (some err, st.1)
        | (none, (_, none)) => none
        | (none, (w5, some resp)) =>
          let trade : Trade :=
            { ID := 0, Symbol := signal.Symbol, Side := signal.Action, Price := signal.Price,
              Amount := signal.Amount, Strategy := signal.Strategy, Status := "filled",
              OrderID := resp.OrderId, TradeType := e.config.TradeType }
          some (none, (e.callSaveTrade trade w5).2)

/-- The guards of the loop of `checkPositionPnL` (engine.go lines 420 to 446)
under which a position is closed: side long with a positive quantity and a
profit ratio at or above the long take-profit or at or below minus the long
stop-loss, or side short with a positive quantity and the same test against
the short settings. -/
def Engine.breaches {σ : Type} (e : Engine σ) (pos : Position) : Bool :=
  (decide (pos.PosSide = "long" ∧ pos.Position > 0) &&
    (decide (pos.PnLRatio ≥ e.config.LongPosition.TakeProfit) ||
     decide (pos.PnLRatio ≤ -e.config.LongPosition.StopLoss))) ||
  (decide (pos.PosSide = "short" ∧ pos.Position > 0) &&
    (decide (pos.PnLRatio ≥ e.config.ShortPosition.TakeProfit) ||
     decide (pos.PnLRatio ≤ -e.config.ShortPosition.StopLoss)))

/-- The closing function the loop of `checkPositionPnL` returns through for a
position that meets a guard: `closeLongPosition` in the long block,
`closeShortPosition` in the short block. -/
def Engine.closePosition {σ : Type} (e : Engine σ) (symbol : String) (pos : Position)
    (w : World σ) : Option String × World σ :=
  if pos.PosSide = "long" then e.closeLongPosition symbol pos w
  else e.closeShortPosition symbol pos w

/-- The number of `PlaceOrder` calls in a record of calls. -/
def placeOrderCount (calls : List Call) : Nat :=
  (calls.filter (fun call =>
    match call with
    | Call.PlaceOrder _ => true
    | _ => false)).length

/-- A tick lies in the overbought or in the oversold zone without qualifying:
the call computes an RSI that is at least the overbought threshold or at most
the oversold threshold, and that differs from the previous RSI by less than
`MinChange`. -/
def RSIStrategy.quiet (s : RSIStrategy) (tick : Tick) : Bool :=
  match s.computedRSI tick with
  | none => false
  | some r => (decide (r ≥ s.config.OverboughtThreshold) ||
        decide (r ≤ s.config.OversoldThreshold)) &&
      decide (|r - s.lastRSI| < s.config.MinChange)

/-! ## Stop and Initialize of the strategies, the interface `Strategy` -/

/-- Stop (grid.go, `GridStrategy.Stop`): the body holds a comment only, so
the receiver is left as it is. -/
def GridStrategy.Stop (s : GridStrategy) : GridStrategy := s

/-- Stop (rsi.go, `RSIStrategy.Stop`): `prices = nil` and `signalCount = 0`;
`lastRSI` is not assigned. -/
def RSIStrategy.Stop (s : RSIStrategy) : RSIStrategy :=
  { s with prices := [], signalCount := 0 }

/-- Initialisation (rsi.go, `RSIStrategy.Initialize`).  `klines` is the result
of `GetKlines`, the closing prices of the candles as text, or its error.  On an
error the receiver is unchanged; otherwise the buffer is replaced by the closing
prices that parse, and with at least `Period` of them `lastRSI` is set to the
RSI of the buffer. -/
def RSIStrategy.Initialize (s : RSIStrategy) (klines : Except String (List String))
    (ParseFloat : String → Except String ℚ) : Option (Option String × RSIStrategy) :=
  match klines with
  | Except.error err => some (some ("获取K线数据失败: " ++ err), s)
  | Except.ok closes =>
    let prices := closes.filterMap (fun close =>
      match ParseFloat close with
      | Except.ok price => some price
      | Except.error _ => none)
    let s1 := { s with prices := prices }
    if (s1.prices.length : Int) ≥ s1.config.Period then
      match s1.calculateRSI with
      | none => none
      | some rsi => some (none, { s1 with lastRSI := rsi })
    else some (none, s1)

/-- A registered strategy (types.go, interface `Strategy`), which is a grid
strategy or an RSI strategy. -/
inductive Strategy where
  | grid (s : GridStrategy)
  | rsi (s : RSIStrategy)
deriving DecidableEq, Repr

/-- Method `Name` of the interface. -/
def Strategy.Name : Strategy → String
  | Strategy.grid s => s.Name
  | Strategy.rsi s => s.Name

/-- Method `ProcessTick` of the interface: the returned signal and the strategy
after the call. -/
def Strategy.ProcessTick : Strategy → Tick → Option (Option Signal × Strategy)
  | Strategy.grid s, tick => some (s.ProcessTick tick, Strategy.grid s)
  | Strategy.rsi s, tick =>
    match s.ProcessTick tick with
    | none => none
    | some (signal, s1) => some (signal, Strategy.rsi s1)

/-- The symbol a strategy was created for (the field `symbol` of either
implementation). -/
def Strategy.symbol : Strategy → String
  | Strategy.grid s => s.symbol
  | Strategy.rsi s => s.symbol

/-- Method `Stop` of the interface. -/
def Strategy.Stop : Strategy → Strategy
  | Strategy.grid s => Strategy.grid s.Stop
  | Strategy.rsi s => Strategy.rsi s.Stop

/-! ## internal/trading/engine.go: construction, shutdown and the tasks -/

/-- Suffix test (`strings.HasSuffix` of the Go library). -/
def strings.HasSuffix (s suffix : String) : Bool :=
  startsWithChars s.data.reverse suffix.data.reverse

/-- The part of the engine (engine.go, `Engine`) that `NewEngine` fills and
`Stop` changes: the registered strategies and the stop channel, of which the
model keeps whether it has been closed. -/
structure EngineState where
  strategies : List Strategy
  stopChanClosed : Bool
deriving DecidableEq, Repr

/-- The symbols `NewEngine` builds strategies for (engine.go lines 40 to 56):
in futures mode the configured symbols that end in "-SWAP", otherwise those
that do not. -/
def NewEngine.symbols (config : Config) : List String :=
  if config.TradeType = "futures" then
    config.Symbols.filter (fun symbol => strings.HasSuffix symbol "-SWAP")
  else
    config.Symbols.filter (fun symbol => !strings.HasSuffix symbol "-SWAP")

/-- Constructor (engine.go, `NewEngine`): with the grid enabled one grid
strategy per symbol, with all five settings copied; then, with the RSI enabled,
one RSI strategy per symbol whose configuration literal names `Enabled`,
`Period` and the two thresholds, the other two fields being the zero value. -/
def NewEngine (config : Config) : EngineState :=
  let symbols := NewEngine.symbols config
  let grids : List Strategy :=
    if config.Grid.Enabled then
      symbols.map (fun symbol => Strategy.grid (NewGridStrategy symbol
        { Enabled := config.Grid.Enabled, UpperPrice := config.Grid.UpperPrice,
          LowerPrice := config.Grid.LowerPrice, GridNumber := config.Grid.GridNumber,
          TotalAmount := config.Grid.TotalAmount }))
    else []
  let rsis : List Strategy :=
    if config.RSI.Enabled then
      symbols.map (fun symbol => Strategy.rsi (NewRSIStrategy symbol
        { Enabled := config.RSI.Enabled, Period := config.RSI.Period,
          OverboughtThreshold := config.RSI.OverboughtThreshold,
          OversoldThreshold := config.RSI.OversoldThreshold,
          SignalConfirmation := 0, MinChange := 0 }))
    else []
  { strategies := grids ++ rsis, stopChanClosed := false }

/-- Shutdown (engine.go, `Engine.Stop`): `close(e.stopChan)`, which panics on
a channel that is closed already (`none`); then `e.wg.Wait()`, which is taken
to return; then `Stop` of every strategy. -/
def Engine.Stop (st : EngineState) : Option EngineState :=
  if st.stopChanClosed then none
  else some { strategies := st.strategies.map Strategy.Stop, stopChanClosed := true }

/-- The loop over the strategies in the market case of `updateMarketData`
(engine.go lines 378 to 392), run by the polling task of `symbol` for the price
it has just fetched: every registered strategy processes the tick
`{Symbol: symbol, Price: price, Timestamp: now}`, and a signal it returns is
sent to the queue.  The result is the signals sent, in order, and the
strategies after the loop. -/
def Engine.updateMarketData.strategyLoop (symbol : String) (price : ℚ) (now : Int) :
    List Strategy → Option (List Signal × List Strategy)
  | [] => some ([], [])
  | strategy :: rest =>
    match strategy.ProcessTick { Symbol := symbol, Price := price, Volume := 0,
                                 Timestamp := now } with
    | none => none
    | some (signal, strategy1) =>
      match Engine.updateMarketData.strategyLoop symbol price now rest with
      | none => none
      | some (signals, rest1) => some (signal.toList ++ signals, strategy1 :: rest1)

/-- A task started by `Start` that can place an order (engine.go lines 96 to
104): the consumer of the signal queue, and one polling task per configured
symbol. -/
inductive Task where
  | processSignals
  | updateMarketData (symbol : String)
deriving DecidableEq, Repr

/-- The signal case of `processSignals` (engine.go lines 144 to 147): the
signal at the head of the queue is received and executed, an error is only
logged.  With an empty queue nothing is received. -/
def Engine.processSignals.signalCase {σ : Type} (e : Engine σ) :
    List Signal → World σ → Option (List Signal × World σ)
  | [], w => some ([], w)
  | signal :: rest, w =>
    match e.executeSignal signal w with
    | none => none
    | some (_, w1) => some (rest, w1)

/-- The profit-and-loss case of `updateMarketData` (engine.go lines 393 to
398): `checkPositionPnL(symbol)`, an error is only logged.  Nothing is sent to
the signal queue. -/
def Engine.updateMarketData.pnlCase {σ : Type} (e : Engine σ) (symbol : String)
    (signals : List Signal) (w : World σ) : List Signal × World σ :=
  (signals, (e.checkPositionPnL symbol w).2)

/-- One turn of a task on the signal queue and the world: the signal case for
the consumer, the profit-and-loss case for a polling task. -/
def Engine.runTask {σ : Type} (e : Engine σ) (task : Task) (signals : List Signal)
    (w : World σ) : Option (List Signal × World σ) :=
  match task with
  | Task.processSignals => Engine.processSignals.signalCase e signals w
  | Task.updateMarketData symbol => some (Engine.updateMarketData.pnlCase e symbol signals w)

/-- The orders among the calls, each with the task that made it. -/
def ordersOf (task : Task) (calls : List Call) : List (Task × PlaceOrderRequest) :=
  calls.filterMap (fun call =>
    match call with
    | Call.PlaceOrder req => some (task, req)
    | _ => none)

/-- Turns of tasks one after the other: the orders placed, each with the task
that placed it, and the queue and the world at the end. -/
def Engine.runTasks {σ : Type} (e : Engine σ) :
    List Task → List Signal → World σ →
      Option (List (Task × PlaceOrderRequest) × List Signal × World σ)
  | [], signals, w => some ([], signals, w)
  | task :: rest, signals, w =>
    match e.runTask task signals w with
    | none => none
    | some (signals1, w1) =>
      match Engine.runTasks e rest signals1 w1 with
      | none => none
      | some (orders, signals2, w2) =>
        some (ordersOf task (w1.calls.drop w.calls.length) ++ orders, signals2, w2)

/-! ## internal/api/okx.go: the throttle of `doRequest` and `PlaceOrder` -/

/-- The spacing `time.Second/6` of the throttle, in nanoseconds (the division
of a `Duration` is a division of integers). -/
def throttleInterval : Int := 1000000000 / 6

/-- The throttle state of the client (okx.go, `OKXClient`), with instants in
nanoseconds: the field `lastRequest` and, for the mutex `mu`, the instant from
which it is free. -/
structure Throttle where
  lastRequest : Int
  freeAt : Int
deriving DecidableEq, Repr

/-- Constructor (okx.go, `NewOKXClient`) at the instant `now`: `lastRequest` is
the clock, the mutex is free. -/
def NewOKXClient (now : Int) : Throttle :=
  { lastRequest := now, freeAt := now }

/-- The throttle at the head of `doRequest` (okx.go lines 88 to 94) for a call
that reaches `c.mu.Lock()` at the instant `arrival`.  The lock is taken when the
mutex is free; `now` is the clock at that instant; with
`diff = now - lastRequest` below the spacing the call sleeps for the spacing
minus `diff`; `lastRequest` is set to `now`; the mutex is released.  Only the
sleep takes time.  The result is the instant at which the call leaves the
throttle, and the new state. -/
def OKXClient.doRequest.throttle (t : Throttle) (arrival : Int) : Int × Throttle :=
  let now := max arrival t.freeAt
  let diff := now - t.lastRequest
  let release := if diff < throttleInterval then now + (throttleInterval - diff) else now
  (release, { lastRequest := now, freeAt := release })

/-- The instants at which consecutive `doRequest` calls leave the throttle,
given the instants at which they reach it. -/
def OKXClient.doRequest.releases : Throttle → List Int → List Int
  | _, [] => []
  | t, arrival :: rest =>
    (OKXClient.doRequest.throttle t arrival).1 ::
      OKXClient.doRequest.releases (OKXClient.doRequest.throttle t arrival).2 rest

/-- The number of instants of a list that lie in the second starting at `start`. -/
def releasedIn (releases : List Int) (start : Int) : Nat :=
  (releases.filter (fun r => decide (start ≤ r) && decide (r < start + 1000000000))).length

/-- The differences between consecutive entries of a list of instants. -/
def gaps : List Int → List Int
  | a :: b :: rest => (b - a) :: gaps (b :: rest)
  | _ => []

/-- The decoded body of an order response (okx.go, the local `result` of
`PlaceOrder`). -/
structure OrderResult where
  Code : String
  Msg : String
  Data : List OrderResponse
deriving DecidableEq, Repr

/-- What `PlaceOrder` is built on: the HTTP attempt `doRequest(method, path,
body)` for an order as body, and `json.Unmarshal` of a response into the
local `result`. -/
structure OrderTransport (σ : Type) where
  doRequest : String → String → PlaceOrderRequest → Attempt σ
  Unmarshal : String → Except String OrderResult

/-- The rendering `fmt.Sprintf("%012d", n)`: the decimal digits, padded with
zeros to the width 12, a minus sign first and counted in the width. -/
def sprintf012d (n : Int) : String :=
  if n < 0 then
    "-" ++ String.mk (List.replicate (11 - (toString n.natAbs).length) '0') ++ toString n.natAbs
  else
    String.mk (List.replicate (12 - (toString n.natAbs).length) '0') ++ toString n.natAbs

/-- Order placement (okx.go, `OKXClient.PlaceOrder`).  An empty client order id
is replaced by the last 12 digits of the clock in nanoseconds, an empty trade
mode by "isolated", and a size that parses by its rendering without decimals;
the request is sent through `sendRequest`; its error is returned as it is; the
response is decoded and yields the first entry of `data` when the code is "0".
The method writes the three fields into the caller's request, so the result
holds the request after the call next to the response or error. -/
def api.OKXClient.PlaceOrder {σ : Type} (t : OrderTransport σ) (lib : GoLibrary σ)
    (req : PlaceOrderRequest) (s : σ) : (Except String OrderResponse × PlaceOrderRequest) × σ :=
  let req1 : PlaceOrderRequest :=
    if req.ClOrdId = "" then
      { req with ClOrdId := sprintf012d (Int.tmod (lib.UnixNano s) 1000000000000) }
    else req
  let req2 : PlaceOrderRequest :=
    if req1.TdMode = "" then { req1 with TdMode := "isolated" } else req1
  let req3 : PlaceOrderRequest :=
    match lib.ParseFloat req2.Sz with
    | Except.ok sz => { req2 with Sz := lib.FormatFloat sz 0 }
    | Except.error _ => req2
  match OKXClient.sendRequest (t.doRequest "POST" "/api/v5/trade/order" req3) s with
  | ((_, some err), s1) => ((Except.error err, req3), s1)
  | ((resp, none), s1) =>
    match t.Unmarshal (resp.getD "") with
    | Except.error err =>
      ((Except.error ("解析响应失败: " ++ err ++ ", 响应内容: " ++ resp.getD ""), req3), s1)
    | Except.ok result =>
      if result.Code ≠ "0" then
        match result.Data with
        | first :: _ =>
          if first.SCode ≠ "" then
            ((Except.error ("下单失败: " ++ first.SMsg ++ " (错误码: " ++ first.SCode ++ ")"),
              req3), s1)
          else
            ((Except.error ("下单失败: " ++ result.Msg ++ " (code=" ++ result.Code ++ ")"),
              req3), s1)
        | [] =>
          ((Except.error ("下单失败: " ++ result.Msg ++ " (code=" ++ result.Code ++ ")"),
            req3), s1)
      else
        match result.Data with
        | [] => ((Except.error "下单响应数据为空", req3), s1)
        | first :: _ => ((Except.ok first, req3), s1)

/-- The exchange client whose `PlaceOrder` is the method of okx.go over the
given transport, the other methods being those of `base`.  The engine keeps the
response or error and the world; on a retry `executeSignal` passes the same
request again, which in the source holds the fields written by the first call. -/
def OrderTransport.client {σ : Type} (t : OrderTransport σ) (lib : GoLibrary σ)
    (base : OKXClient σ) : OKXClient σ :=
  { base with
    PlaceOrder := fun req s =>
      ((api.OKXClient.PlaceOrder t lib req s).1.1, (api.OKXClient.PlaceOrder t lib req s).2) }

/-- The closure a caller passes to a retry function around a gateway call with
the retry settings `inner`: it returns the error of `sendRequestWithRetry`. -/
def OKXClient.sendOperation {σ : Type} (doRequest : Attempt σ) (inner : RetryConfig) :
    σ → Option String × σ :=
  fun s => ((OKXClient.sendRequestWithRetry doRequest inner s).1.2,
            (OKXClient.sendRequestWithRetry doRequest inner s).2)

/-! ## Worked examples -/

/-- The strategy of the worked examples: band 100 to 110 with 5 buckets. -/
def gridExample : GridStrategy :=
  { symbol := "BTC-USDT-SWAP",
    config := { Enabled := true, UpperPrice := 110, LowerPrice := 100,
                GridNumber := 5, TotalAmount := 0 },
    gridLevels := [100, 102, 104, 106, 108, 110] }

/-- The strategy of the RSI seed example: period 14 over the 15 prices
100, 101, ..., 114. -/
def rsiSeedExample : RSIStrategy :=
  { symbol := "BTC-USDT-SWAP",
    config := { Enabled := true, Period := 14, OverboughtThreshold := 70,
                OversoldThreshold := 30, SignalConfirmation := 2, MinChange := 0 },
    prices := [100, 101, 102, 103, 104, 105, 106, 107, 108, 109, 110, 111, 112, 113, 114],
    lastRSI := 0, signalCount := 0 }

/-- A strategy whose buffer has gains and losses: period 2 over 1, 3, 2, 5. -/
def rsiMixedExample : RSIStrategy :=
  { symbol := "BTC-USDT-SWAP",
    config := { Enabled := true, Period := 2, OverboughtThreshold := 70,
                OversoldThreshold := 30, SignalConfirmation := 2, MinChange := 0 },
    prices := [1, 3, 2, 5], lastRSI := 0, signalCount := 0 }

/-- A strategy whose buffer is full: period 1 with the three prices 1, 2, 3. -/
def rsiFullExample : RSIStrategy :=
  { symbol := "BTC-USDT-SWAP",
    config := { Enabled := true, Period := 1, OverboughtThreshold := 70,
                OversoldThreshold := 30, SignalConfirmation := 2, MinChange := 0 },
    prices := [1, 2, 3], lastRSI := 0, signalCount := 0 }

/-- A fresh strategy with period 1, thresholds 70 and 30, confirmation 2 and
one buffered price, 99. -/
def rsiDebounceExample : RSIStrategy :=
  { symbol := "BTC-USDT-SWAP",
    config := { Enabled := true, Period := 1, OverboughtThreshold := 70,
                OversoldThreshold := 30, SignalConfirmation := 2, MinChange := 0 },
    prices := [99], lastRSI := 0, signalCount := 0 }

/-- A fresh strategy whose oversold threshold, 70, lies above its overbought
threshold, 30; period 1, confirmation 1, empty buffer. -/
def rsiOverlapExample : RSIStrategy :=
  { symbol := "BTC-USDT-SWAP",
    config := { Enabled := true, Period := 1, OverboughtThreshold := 30,
                OversoldThreshold := 70, SignalConfirmation := 1, MinChange := 0 },
    prices := [], lastRSI := 0, signalCount := 0 }

/-- A fresh strategy with period 1, thresholds 70 and 30, confirmation 2 and
an empty buffer. -/
def rsiFreshExample : RSIStrategy :=
  { symbol := "BTC-USDT-SWAP",
    config := { Enabled := true, Period := 1, OverboughtThreshold := 70,
                OversoldThreshold := 30, SignalConfirmation := 2, MinChange := 0 },
    prices := [], lastRSI := 0, signalCount := 0 }

/-- A strategy with period 2, thresholds 70 and 30, confirmation 2 and the
buffered prices 1, 2. -/
def rsiNeutralExample : RSIStrategy :=
  { symbol := "BTC-USDT-SWAP",
    config := { Enabled := true, Period := 2, OverboughtThreshold := 70,
                OversoldThreshold := 30, SignalConfirmation := 2, MinChange := 0 },
    prices := [1, 2], lastRSI := 0, signalCount := 0 }

/-- The configuration of the range-entry example: long side enabled with the
entry band 30000 to 30100 and size 1, short side disabled. -/
def rangeExampleConfig : Config :=
  { Mode := "simulation", TradeType := "futures", Leverage := 10, MarginMode := "cross",
    ReserveBalance := 0, Symbols := ["BTC-USDT-SWAP"],
    LongPosition := { Enabled := true, EntryRange := { Min := 30000, Max := 30100 },
                      TakeProfit := 0, StopLoss := 0, PositionSize := 1, MarginRatio := 0,
                      AutoMargin := false, MarginAmount := 0, SymbolMarginRatios := [] },
    ShortPosition := { Enabled := false, EntryRange := { Min := 0, Max := 0 },
                       TakeProfit := 0, StopLoss := 0, PositionSize := 1, MarginRatio := 0,
                       AutoMargin := false, MarginAmount := 0, SymbolMarginRatios := [] },
    Grid := { Enabled := false, UpperPrice := 0, LowerPrice := 0, GridNumber := 0,
              TotalAmount := 0 },
    RSI := { Enabled := false, Period := 14, OverboughtThreshold := 70,
             OversoldThreshold := 30 } }

/-- A tick of the given price; the other fields play no part in the strategies. -/
def tickAt (price : ℚ) : Tick :=
  { Symbol := "BTC-USDT-SWAP", Price := price, Volume := 0, Timestamp := 0 }

/-- An operation that fails twice with "timeout" and succeeds from the third
invocation on. -/
def timeoutTwice : Nat → Option String × Nat :=
  scripted (fun i => if i < 2 then some "timeout" else none)

/-- An HTTP attempt that always fails with a connection error, which
`IsTemporaryError` does not classify as temporary; the world is empty. -/
def refusedAttempt : Attempt Unit :=
  fun _ => (Except.error "dial tcp: connection refused", ())

/-- Reading of a run of decimal digits as a natural number; `none` on any
other character. -/
def digitsValue : List Char → Nat → Option Nat
  | [], acc => some acc
  | c :: cs, acc => if c.isDigit then digitsValue cs (acc * 10 + (c.toNat - 48)) else none

/-- The library of the examples: `ParseFloat` reads the whole numbers used in
them, `FormatFloat` renders a whole number with zeros as decimals, and the
clock stands at 0. -/
def exampleLibrary : GoLibrary Unit :=
  { ParseFloat := fun s =>
      match s.data with
      | [] => Except.error "invalid syntax"
      | c :: cs =>
        match digitsValue (c :: cs) 0 with
        | some n => Except.ok (n : ℚ)
        | none => Except.error "invalid syntax",
    FormatFloat := fun x decimals =>
      if decimals = 0 then toString (floatToInt x)
      else toString (floatToInt x) ++ "." ++ String.mk (List.replicate decimals '0'),
    UnixNano := fun _ => 0 }

/-- The exchange of the examples: it returns the given positions and
balances, accepts leverage settings and orders, and answers a margin top-up
with the given error; the world has no state. -/
def exampleClient (positions : List Position) (balances : List Balance)
    (addMarginError : Option String) : OKXClient Unit :=
  { GetPositions := fun _ _ => (Except.ok positions, ()),
    GetBalances := fun _ => (Except.ok balances, ()),
    SetLeverage := fun _ _ _ _ _ => (none, ()),
    PlaceOrder := fun req _ =>
      (Except.ok { OrderId := "1", ClOrdId := req.ClOrdId, Tag := "", SCode := "0", SMsg := "" },
       ()),
    AddMargin := fun _ _ => (addMarginError, ()) }

/-- The trade store of the examples: every record is saved. -/
def exampleDatabase : Database Unit :=
  { SaveTrade := fun _ _ => (none, ()) }

/-- The configuration of the engine examples: futures, leverage 10, reserve
100; both sides take profit at 0.1, stop the loss at 0.05, hold the margin
ratio 0.1 with automatic top-ups of 50. -/
def engineExampleConfig : Config :=
  { Mode := "simulation", TradeType := "futures", Leverage := 10, MarginMode := "cross",
    ReserveBalance := 100, Symbols := ["BTC-USDT-SWAP", "ETH-USDT-SWAP"],
    LongPosition := { Enabled := false, EntryRange := { Min := 0, Max := 0 },
                      TakeProfit := 1 / 10, StopLoss := 1 / 20, PositionSize := 1,
                      MarginRatio := 1 / 10, AutoMargin := true, MarginAmount := 50,
                      SymbolMarginRatios := [] },
    ShortPosition := { Enabled := false, EntryRange := { Min := 0, Max := 0 },
                       TakeProfit := 1 / 10, StopLoss := 1 / 20, PositionSize := 1,
                       MarginRatio := 1 / 10, AutoMargin := true, MarginAmount := 50,
                       SymbolMarginRatios := [] },
    Grid := { Enabled := false, UpperPrice := 0, LowerPrice := 0, GridNumber := 0,
              TotalAmount := 0 },
    RSI := { Enabled := false, Period := 14, OverboughtThreshold := 70,
             OversoldThreshold := 30 } }

/-- The engine of the examples over the given positions and balances. -/
def exampleEngine (positions : List Position) (balances : List Balance)
    (addMarginError : Option String) : Engine Unit :=
  { config := engineExampleConfig,
    api := exampleClient positions balances addMarginError,
    db := exampleDatabase,
    lib := exampleLibrary }

/-- The world before any call. -/
def emptyWorld : World Unit := { state := (), calls := [] }

/-- A USDT balance with the given available amount. -/
def usdtBalance (available : String) : Balance :=
  { Currency := "USDT", Balance := available, Available := available, Frozen := "0" }

/-- A position of the given side, quantity, profit ratio and margin ratio. -/
def examplePosition (posSide : String) (quantity pnlRatio marginRatio : ℚ) : Position :=
  { Symbol := "BTC-USDT-SWAP", PosSide := posSide, Position := quantity, AvgPrice := 30000,
    UnrealPnL := 0, PnLRatio := pnlRatio, MarginRatio := marginRatio }

/-- The engine of the examples with automatic top-ups of the long side
switched off. -/
def exampleEngineManual (positions : List Position) (balances : List Balance) : Engine Unit :=
  { config := { engineExampleConfig with
                LongPosition := { engineExampleConfig.LongPosition with AutoMargin := false } },
    api := exampleClient positions balances none,
    db := exampleDatabase,
    lib := exampleLibrary }

/-- A trade store that rejects every record with the given error. -/
def failingDatabase (err : String) : Database Unit :=
  { SaveTrade := fun _ _ => (some err, ()) }

/-- The engine of the examples with a trade store that rejects every record. -/
def exampleEngineFailingStore (balances : List Balance) : Engine Unit :=
  { config := engineExampleConfig,
    api := exampleClient [] balances none,
    db := failingDatabase "database is locked",
    lib := exampleLibrary }

/-- A buy of amount 1 at price 1000 from the long range-entry rule. -/
def exampleBuySignal : Signal :=
  { Symbol := "BTC-USDT-SWAP", Strategy := "LongPosition", Action := "buy",
    Price := 1000, Amount := 1 }

/-- A strategy with period 2, thresholds 70 and 30, confirmation 2, minimum
change 5 and the buffered prices 10, 20. -/
def rsiSharedCounterExample : RSIStrategy :=
  { symbol := "BTC-USDT-SWAP",
    config := { Enabled := true, Period := 2, OverboughtThreshold := 70,
                OversoldThreshold := 30, SignalConfirmation := 2, MinChange := 5 },
    prices := [10, 20], lastRSI := 0, signalCount := 0 }

/-- A configuration with both strategies enabled: futures mode over two swap
symbols and one spot symbol, the grid 100 to 110 with 5 buckets, the RSI with
period 1 and the thresholds 70 and 30. -/
def strategyExampleConfig : Config :=
  { engineExampleConfig with
    Symbols := ["BTC-USDT-SWAP", "ETH-USDT-SWAP", "BTC-USDT"],
    Grid := { Enabled := true, UpperPrice := 110, LowerPrice := 100, GridNumber := 5,
              TotalAmount := 0 },
    RSI := { Enabled := true, Period := 1, OverboughtThreshold := 70,
             OversoldThreshold := 30 } }

/-- The RSI strategy that `NewEngine` builds from `strategyExampleConfig` for
the first symbol. -/
def rsiEngineExample : RSIStrategy :=
  NewRSIStrategy "BTC-USDT-SWAP"
    { Enabled := true, Period := 1, OverboughtThreshold := 70, OversoldThreshold := 30,
      SignalConfirmation := 0, MinChange := 0 }

/-- Ten `doRequest` calls made one after the other on a client created at the
instant 0: the first reaches the throttle at 1 s, and every later one 50 ms
after the call before it has left the throttle (instants in nanoseconds). -/
def backToBackArrivals : List Int :=
  [1000000000, 1050000000, 1216666666, 1266666666, 1433333332, 1483333332, 1649999998,
   1699999998, 1866666664, 1916666664]

/-- A transport whose every order attempt fails with "request timeout", an
error that `IsTemporaryError` classifies as temporary; the attempts are
counted in the world. -/
def timeoutTransport : OrderTransport (Unit × Nat) :=
  { doRequest := fun _ _ _ => counting (fun (_ : Unit) => (Except.error "request timeout", ())),
    Unmarshal := fun _ => Except.error "unexpected end of JSON input" }

/-- The library of the examples over a world that counts attempts. -/
def countingLibrary : GoLibrary (Unit × Nat) :=
  { ParseFloat := exampleLibrary.ParseFloat,
    FormatFloat := exampleLibrary.FormatFloat,
    UnixNano := fun _ => 0 }

/-- The exchange of the examples over a world that counts attempts: the given
balances, no positions, every leverage setting accepted. -/
def countingClient (balances : List Balance) : OKXClient (Unit × Nat) :=
  { GetPositions := fun _ s => (Except.ok [], s),
    GetBalances := fun s => (Except.ok balances, s),
    SetLeverage := fun _ _ _ _ s => (none, s),
    PlaceOrder := fun req s =>
      (Except.ok { OrderId := "1", ClOrdId := req.ClOrdId, Tag := "", SCode := "0", SMsg := "" },
       s),
    AddMargin := fun _ s => (none, s) }

/-- The engine of the examples whose orders go through `PlaceOrder` of okx.go
over the transport that always times out. -/
def timeoutEngine (balances : List Balance) : Engine (Unit × Nat) :=
  { config := engineExampleConfig,
    api := timeoutTransport.client countingLibrary (countingClient balances),
    db := { SaveTrade := fun _ s => (none, s) },
    lib := countingLibrary }

/-- A grid strategy over 0 to 1 with the given count of buckets, not yet
initialised. -/
def gridUnitExample (n : Int) : GridStrategy :=
  NewGridStrategy "BTC-USDT-SWAP"
    { Enabled := true, UpperPrice := 1, LowerPrice := 0, GridNumber := n, TotalAmount := 0 }

/-- A grid strategy over `10^16` to `10^16 + 2` with 5 buckets, not yet
initialised; near `10^16` the float64 numbers are 2 apart. -/
def gridLargeExample : GridStrategy :=
  NewGridStrategy "BTC-USDT-SWAP"
    { Enabled := true, UpperPrice := 10000000000000002, LowerPrice := 10000000000000000,
      GridNumber := 5, TotalAmount := 0 }

/-- A grid strategy with 37 buckets whose bounds are the float64 numbers
nearest to 0.1 and 0.7, not yet initialised. -/
def gridRoundedExample : GridStrategy :=
  NewGridStrategy "BTC-USDT-SWAP"
    { Enabled := true, UpperPrice := roundFloat64 (7 / 10), LowerPrice := roundFloat64 (1 / 10),
      GridNumber := 37, TotalAmount := 0 }

/-! # Theorems -/

/-! ## float64 rounding -/

/-- `pow2` is the power of 2 with a whole exponent. -/
theorem pow2_eq_zpow (k : Int) : pow2 k = (2 : ℚ) ^ k := by
  unfold pow2
  split_ifs with h
  · obtain ⟨n, rfl⟩ := Int.eq_ofNat_of_zero_le h
    simp
  · obtain ⟨n, rfl⟩ : ∃ n : Nat, k = -(n : Int) := ⟨(-k).toNat, by omega⟩
    simp [zpow_neg]

/-- The loop of `bitLog2` finds the leading binary digit. -/
theorem bitLog2_loop_spec : ∀ (fuel n : Nat), n ≤ fuel → n ≠ 0 →
    2 ^ bitLog2.loop fuel n ≤ n ∧ n < 2 ^ (bitLog2.loop fuel n + 1)
  | 0, n, h, hn => absurd (Nat.le_zero.mp h) hn
  | fuel + 1, n, h, hn => by
    unfold bitLog2.loop
    split_ifs with h2
    · have h1 : n = 1 := by omega
      subst h1
      simp
    · have hlt : n / 2 ≤ fuel := by omega
      have hne : n / 2 ≠ 0 := by omega
      obtain ⟨h1, h3⟩ := bitLog2_loop_spec fuel (n / 2) hlt hne
      have e1 : 2 ^ (bitLog2.loop fuel (n / 2) + 1) = 2 * 2 ^ bitLog2.loop fuel (n / 2) := by
        ring
      have e2 : 2 ^ (bitLog2.loop fuel (n / 2) + 1 + 1)
          = 2 * (2 * 2 ^ bitLog2.loop fuel (n / 2)) := by ring
      rw [e1] at h3
      rw [e1, e2]
      generalize 2 ^ bitLog2.loop fuel (n / 2) = p at h1 h3 ⊢
      omega

/-- `bitLog2 n` is the `k` with `2^k ≤ n < 2^(k+1)`. -/
theorem bitLog2_spec (n : Nat) (hn : n ≠ 0) :
    2 ^ bitLog2 n ≤ n ∧ n < 2 ^ (bitLog2 n + 1) :=
  bitLog2_loop_spec n n le_rfl hn

/-- The binary exponent brackets the magnitude. -/
theorem binade_spec (x : ℚ) (hx : x ≠ 0) :
    (2 : ℚ) ^ Float64.binade x ≤ |x| ∧ |x| < (2 : ℚ) ^ (Float64.binade x + 1) := by
  have ha : x.num.natAbs ≠ 0 := by
    intro h
    exact hx (Rat.num_eq_zero.mp (Int.natAbs_eq_zero.mp h))
  have hb : x.den ≠ 0 := x.den_nz
  obtain ⟨ha1, ha2⟩ := bitLog2_spec _ ha
  obtain ⟨hb1, hb2⟩ := bitLog2_spec _ hb
  have hA1 : (2 : ℚ) ^ bitLog2 x.num.natAbs ≤ (x.num.natAbs : ℚ) := by exact_mod_cast ha1
  have hA2 : (x.num.natAbs : ℚ) < (2 : ℚ) ^ (bitLog2 x.num.natAbs + 1) := by exact_mod_cast ha2
  have hB1 : (2 : ℚ) ^ bitLog2 x.den ≤ (x.den : ℚ) := by exact_mod_cast hb1
  have hB2 : (x.den : ℚ) < (2 : ℚ) ^ (bitLog2 x.den + 1) := by exact_mod_cast hb2
  have habs : |x| = (x.num.natAbs : ℚ) / (x.den : ℚ) := by
    have h1 : x = (x.num : ℚ) / (x.den : ℚ) := (Rat.num_div_den x).symm
    have h2 : |(x.num : ℚ) / (x.den : ℚ)| = |(x.num : ℚ)| / (x.den : ℚ) := by
      rw [abs_div, abs_of_pos (by exact_mod_cast x.den_pos : (0 : ℚ) < (x.den : ℚ))]
    have h3 : |(x.num : ℚ)| = (x.num.natAbs : ℚ) := by
      rw [Int.cast_natAbs, Int.cast_abs]
    rw [← h3, ← h2, ← h1]
  have hBpos : (0 : ℚ) < (x.den : ℚ) := by exact_mod_cast x.den_pos
  have hPA : (0 : ℚ) < (2 : ℚ) ^ bitLog2 x.num.natAbs := by positivity
  have hPB : (0 : ℚ) < (2 : ℚ) ^ bitLog2 x.den := by positivity
  have hk0 : (2 : ℚ) ^ ((bitLog2 x.num.natAbs : Int) - (bitLog2 x.den : Int))
      = (2 : ℚ) ^ bitLog2 x.num.natAbs / (2 : ℚ) ^ bitLog2 x.den := by
    rw [zpow_sub₀ (by norm_num : (2 : ℚ) ≠ 0), zpow_natCast, zpow_natCast]
  have e1 : (2 : ℚ) ^ (bitLog2 x.num.natAbs + 1) = 2 * (2 : ℚ) ^ bitLog2 x.num.natAbs := by ring
  have e2 : (2 : ℚ) ^ (bitLog2 x.den + 1) = 2 * (2 : ℚ) ^ bitLog2 x.den := by ring
  rw [e1] at hA2
  rw [e2] at hB2
  unfold Float64.binade
  dsimp only
  rw [pow2_eq_zpow]
  split_ifs with h
  · refine ⟨h, ?_⟩
    rw [zpow_add₀ (by norm_num : (2 : ℚ) ≠ 0), hk0, habs, zpow_one, div_mul_eq_mul_div,
      div_lt_div_iff₀ hBpos hPB]
    nlinarith
  · rw [not_le] at h
    have hsub : ((bitLog2 x.num.natAbs : Int) - (bitLog2 x.den : Int) - 1 + 1)
        = (bitLog2 x.num.natAbs : Int) - (bitLog2 x.den : Int) := by ring
    rw [hsub]
    refine ⟨?_, h⟩
    rw [zpow_sub₀ (by norm_num : (2 : ℚ) ≠ 0), hk0, habs, zpow_one, div_div,
      div_le_div_iff₀ (by positivity) hBpos]
    nlinarith

/-- A larger magnitude has a binary exponent that is at least as large. -/
theorem binade_mono (x y : ℚ) (hx : x ≠ 0) (hy : y ≠ 0) (h : |x| ≤ |y|) :
    Float64.binade x ≤ Float64.binade y := by
  by_contra hcon
  rw [not_le] at hcon
  have h1 := (binade_spec x hx).1
  have h2 := (binade_spec y hy).2
  have h3 : (2 : ℚ) ^ (Float64.binade y + 1) ≤ (2 : ℚ) ^ Float64.binade x :=
    zpow_le_zpow_right₀ (by norm_num) (by omega)
  linarith

/-- `roundHalfEven` in terms of the floor. -/
theorem roundHalfEven_eq (q : ℚ) :
    roundHalfEven q =
      if q - (⌊q⌋ : ℚ) < 1 / 2 then ⌊q⌋
      else if 1 / 2 < q - (⌊q⌋ : ℚ) then ⌊q⌋ + 1
      else if ⌊q⌋ % 2 = 0 then ⌊q⌋ else ⌊q⌋ + 1 := by
  unfold roundHalfEven
  rw [← Rat.floor_def]

/-- A whole number is left as it is. -/
theorem roundHalfEven_intCast (z : Int) : roundHalfEven (z : ℚ) = z := by
  rw [roundHalfEven_eq, Int.floor_intCast]
  simp

/-- Rounding to the nearest whole number is monotone. -/
theorem roundHalfEven_mono (q1 q2 : ℚ) (h : q1 ≤ q2) : roundHalfEven q1 ≤ roundHalfEven q2 := by
  have hf : ⌊q1⌋ ≤ ⌊q2⌋ := Int.floor_mono h
  have hlo : ∀ q : ℚ, ⌊q⌋ ≤ roundHalfEven q := by
    intro q
    rw [roundHalfEven_eq]
    split_ifs <;> omega
  have hhi : ∀ q : ℚ, roundHalfEven q ≤ ⌊q⌋ + 1 := by
    intro q
    rw [roundHalfEven_eq]
    split_ifs <;> omega
  rcases lt_or_eq_of_le hf with hlt | heq
  · have := hhi q1
    have := hlo q2
    omega
  · rw [roundHalfEven_eq, roundHalfEven_eq, ← heq]
    have hr : q1 - (⌊q1⌋ : ℚ) ≤ q2 - (⌊q1⌋ : ℚ) := by linarith
    split_ifs <;> first | omega | (exfalso; linarith)

/-- The spacing exponent of `roundFloat64`. -/
theorem roundFloat64_of_ne (x : ℚ) (hx : x ≠ 0) :
    roundFloat64 x =
      (roundHalfEven (x / (2 : ℚ) ^ max (Float64.binade x - 52) (-1074)) : ℚ)
        * (2 : ℚ) ^ max (Float64.binade x - 52) (-1074) := by
  unfold roundFloat64
  rw [if_neg hx]
  dsimp only
  rw [pow2_eq_zpow]

/-- A whole multiple of the spacing that bounds the number bounds its rounding. -/
theorem roundFloat64_int_bounds (x : ℚ) (hx : x ≠ 0) (z : Int) :
    (x ≤ (z : ℚ) * (2 : ℚ) ^ max (Float64.binade x - 52) (-1074) →
      roundFloat64 x ≤ (z : ℚ) * (2 : ℚ) ^ max (Float64.binade x - 52) (-1074)) ∧
    ((z : ℚ) * (2 : ℚ) ^ max (Float64.binade x - 52) (-1074) ≤ x →
      (z : ℚ) * (2 : ℚ) ^ max (Float64.binade x - 52) (-1074) ≤ roundFloat64 x) := by
  have hpos : (0 : ℚ) < (2 : ℚ) ^ max (Float64.binade x - 52) (-1074) :=
    zpow_pos (by norm_num) _
  rw [roundFloat64_of_ne x hx]
  constructor
  · intro h
    have h1 : x / (2 : ℚ) ^ max (Float64.binade x - 52) (-1074) ≤ (z : ℚ) := by
      rw [div_le_iff₀ hpos]; exact h
    have h2 := roundHalfEven_mono _ _ h1
    rw [roundHalfEven_intCast] at h2
    have h3 : (roundHalfEven (x / (2 : ℚ) ^ max (Float64.binade x - 52) (-1074)) : ℚ)
        ≤ (z : ℚ) := by exact_mod_cast h2
    exact mul_le_mul_of_nonneg_right h3 hpos.le
  · intro h
    have h1 : (z : ℚ) ≤ x / (2 : ℚ) ^ max (Float64.binade x - 52) (-1074) := by
      rw [le_div_iff₀ hpos]; exact h
    have h2 := roundHalfEven_mono _ _ h1
    rw [roundHalfEven_intCast] at h2
    have h3 : (z : ℚ)
        ≤ (roundHalfEven (x / (2 : ℚ) ^ max (Float64.binade x - 52) (-1074)) : ℚ) := by
      exact_mod_cast h2
    exact mul_le_mul_of_nonneg_right h3 hpos.le

/-- Rounding keeps the sign. -/
theorem roundFloat64_sign (x : ℚ) :
    (x ≤ 0 → roundFloat64 x ≤ 0) ∧ (0 ≤ x → 0 ≤ roundFloat64 x) := by
  by_cases hx : x = 0
  · subst hx
    simp [roundFloat64]
  · have h := roundFloat64_int_bounds x hx 0
    simp only [Int.cast_zero, zero_mul] at h
    exact h

/-- A power of 2 that is a multiple of the spacing and bounds the number
bounds its rounding. -/
theorem roundFloat64_pow_bounds (x : ℚ) (hx : x ≠ 0) (m : Int)
    (hm : max (Float64.binade x - 52) (-1074) ≤ m) :
    (x ≤ (2 : ℚ) ^ m → roundFloat64 x ≤ (2 : ℚ) ^ m) ∧
    ((2 : ℚ) ^ m ≤ x → (2 : ℚ) ^ m ≤ roundFloat64 x) ∧
    (x ≤ -(2 : ℚ) ^ m → roundFloat64 x ≤ -(2 : ℚ) ^ m) ∧
    (-(2 : ℚ) ^ m ≤ x → -(2 : ℚ) ^ m ≤ roundFloat64 x) := by
  obtain ⟨n, hn⟩ : ∃ n : Nat, m = max (Float64.binade x - 52) (-1074) + (n : Int) :=
    ⟨(m - max (Float64.binade x - 52) (-1074)).toNat, by omega⟩
  have hsplit : (2 : ℚ) ^ m
      = ((2 ^ n : Int) : ℚ) * (2 : ℚ) ^ max (Float64.binade x - 52) (-1074) := by
    rw [hn, zpow_add₀ (by norm_num : (2 : ℚ) ≠ 0), zpow_natCast, mul_comm]
    push_cast
    ring
  have hsplitneg : -(2 : ℚ) ^ m
      = ((-(2 ^ n) : Int) : ℚ) * (2 : ℚ) ^ max (Float64.binade x - 52) (-1074) := by
    rw [hsplit]
    push_cast
    ring
  have hp := roundFloat64_int_bounds x hx (2 ^ n)
  have hq := roundFloat64_int_bounds x hx (-(2 ^ n))
  rw [← hsplit] at hp
  rw [← hsplitneg] at hq
  exact ⟨hp.1, hp.2, hq.1, hq.2⟩

/-- Rounding to float64 is monotone. -/
theorem roundFloat64_mono (x y : ℚ) (h : x ≤ y) : roundFloat64 x ≤ roundFloat64 y := by
  rcases le_or_lt x 0 with hx0 | hxpos
  · rcases le_or_lt 0 y with hy0 | hyneg
    · exact le_trans ((roundFloat64_sign x).1 hx0) ((roundFloat64_sign y).2 hy0)
    · -- both negative
      have hxneg : x < 0 := lt_of_le_of_lt h hyneg
      have hxne : x ≠ 0 := hxneg.ne
      have hyne : y ≠ 0 := hyneg.ne
      have habs : |y| ≤ |x| := by
        rw [abs_of_neg hxneg, abs_of_neg hyneg]; linarith
      have hk := binade_mono y x hyne hxne habs
      rcases lt_or_eq_of_le hk with hklt | hkeq
      · by_cases he : max (Float64.binade y - 52) (-1074) = max (Float64.binade x - 52) (-1074)
        · rw [roundFloat64_of_ne x hxne, roundFloat64_of_ne y hyne, he]
          have hpos : (0 : ℚ) < (2 : ℚ) ^ max (Float64.binade x - 52) (-1074) :=
            zpow_pos (by norm_num) _
          have h1 := roundHalfEven_mono _ _ (div_le_div_of_nonneg_right h hpos.le)
          exact mul_le_mul_of_nonneg_right (by exact_mod_cast h1) hpos.le
        · -- separator -2^(binade x)
          have hx1 := (binade_spec x hxne).1
          have hy2 := (binade_spec y hyne).2
          rw [abs_of_neg hxneg] at hx1
          rw [abs_of_neg hyneg] at hy2
          have hpw : (2 : ℚ) ^ (Float64.binade y + 1) ≤ (2 : ℚ) ^ Float64.binade x :=
            zpow_le_zpow_right₀ (by norm_num) (by omega)
          have hsx := (roundFloat64_pow_bounds x hxne (Float64.binade x) (by omega)).2.2.1
            (by linarith)
          have hsy := (roundFloat64_pow_bounds y hyne (Float64.binade x) (by omega)).2.2.2
            (by linarith)
          linarith
      · rw [roundFloat64_of_ne x hxne, roundFloat64_of_ne y hyne, hkeq]
        have hpos : (0 : ℚ) < (2 : ℚ) ^ max (Float64.binade x - 52) (-1074) :=
          zpow_pos (by norm_num) _
        have h1 := roundHalfEven_mono _ _ (div_le_div_of_nonneg_right h hpos.le)
        exact mul_le_mul_of_nonneg_right (by exact_mod_cast h1) hpos.le
  · -- both positive
    have hypos : 0 < y := lt_of_lt_of_le hxpos h
    have hxne : x ≠ 0 := hxpos.ne'
    have hyne : y ≠ 0 := hypos.ne'
    have habs : |x| ≤ |y| := by
      rw [abs_of_pos hxpos, abs_of_pos hypos]; exact h
    have hk := binade_mono x y hxne hyne habs
    by_cases he : max (Float64.binade x - 52) (-1074) = max (Float64.binade y - 52) (-1074)
    · rw [roundFloat64_of_ne x hxne, roundFloat64_of_ne y hyne, he]
      have hpos : (0 : ℚ) < (2 : ℚ) ^ max (Float64.binade y - 52) (-1074) :=
        zpow_pos (by norm_num) _
      have h1 := roundHalfEven_mono _ _ (div_le_div_of_nonneg_right h hpos.le)
      exact mul_le_mul_of_nonneg_right (by exact_mod_cast h1) hpos.le
    · have hx2 := (binade_spec x hxne).2
      have hy1 := (binade_spec y hyne).1
      rw [abs_of_pos hxpos] at hx2
      rw [abs_of_pos hypos] at hy1
      have hpw : (2 : ℚ) ^ (Float64.binade x + 1) ≤ (2 : ℚ) ^ Float64.binade y :=
        zpow_le_zpow_right₀ (by norm_num) (by omega)
      have hsx := (roundFloat64_pow_bounds x hxne (Float64.binade y) (by omega)).1
        (by linarith)
      have hsy := (roundFloat64_pow_bounds y hyne (Float64.binade y) (by omega)).2.1
        (by linarith)
      linarith

/-- A finite float64 is left as it is by the rounding. -/
theorem roundFloat64_of_representable (x : ℚ) (h : Float64.representable x = true) :
    roundFloat64 x = x := by
  unfold Float64.representable at h
  simp only [Bool.and_eq_true, decide_eq_true_eq] at h
  exact h.1

/-! ## Grid levels -/

/-- With `GridNumber = n` the computed slice is the map of `0..n` under
`i ↦ LowerPrice + float64(i)*interval`, every operation in float64. -/
theorem calculateGridLevels_eq_map (s : GridStrategy) (n : Nat)
    (hs : s.config.GridNumber = (n : Int)) :
    s.calculateGridLevels = some ((List.range (n + 1)).map
      (fun (i : Nat) => Float64.add s.config.LowerPrice
        (Float64.mul (Float64.ofInt (i : Int))
          (Float64.div (Float64.sub s.config.UpperPrice s.config.LowerPrice)
            (Float64.ofInt (n : Int)))))) := by
  unfold GridStrategy.calculateGridLevels
  have h1 : ¬ ((n : Int) + 1 < 0) := by omega
  have h2 : ((n : Int) + 1).toNat = n + 1 := by omega
  simp only [hs, h1, if_false, h2]

/-- Entry `i` of a mapped range. -/
theorem gridLevels_getElem? (f : Nat → ℚ) (n i : Nat) (hi : i ≤ n) :
    ((List.range (n + 1)).map f)[i]? = some (f i) := by
  have : i < n + 1 := by omega
  simp [List.getElem?_map, List.getElem?_range this]

/-- The interval of a grid with `lower < upper` is not negative. -/
theorem gridInterval_nonneg (lo up : ℚ) (n : Nat) (hlt : lo < up) :
    0 ≤ Float64.div (Float64.sub up lo) (Float64.ofInt (n : Int)) := by
  unfold Float64.div Float64.sub Float64.ofInt
  apply (roundFloat64_sign _).2
  apply div_nonneg
  · exact (roundFloat64_sign _).2 (by linarith)
  · exact (roundFloat64_sign _).2 (by positivity)

/-- With an interval that is not negative, a later slot holds a level that is
at least as large. -/
theorem gridLevel_mono (lo d : ℚ) (hd : 0 ≤ d) (a b : Nat) (hab : a ≤ b) :
    Float64.add lo (Float64.mul (Float64.ofInt (a : Int)) d)
      ≤ Float64.add lo (Float64.mul (Float64.ofInt (b : Int)) d) := by
  unfold Float64.add Float64.mul Float64.ofInt
  apply roundFloat64_mono
  apply add_le_add_left
  apply roundFloat64_mono
  apply mul_le_mul_of_nonneg_right _ hd
  apply roundFloat64_mono
  exact_mod_cast hab

/-- What `levelsExact` says for `GridNumber = n`. -/
theorem levelsExact_spec (s : GridStrategy) (n : Nat) (hs : s.config.GridNumber = (n : Int))
    (h : s.levelsExact = true) :
    roundFloat64 (n : ℚ) = (n : ℚ) ∧
    roundFloat64 (s.config.UpperPrice - s.config.LowerPrice)
      = s.config.UpperPrice - s.config.LowerPrice ∧
    roundFloat64 ((s.config.UpperPrice - s.config.LowerPrice) / (n : ℚ))
      = (s.config.UpperPrice - s.config.LowerPrice) / (n : ℚ) ∧
    ∀ i : Nat, i ≤ n →
      roundFloat64 (i : ℚ) = (i : ℚ) ∧
      roundFloat64 ((i : ℚ) * ((s.config.UpperPrice - s.config.LowerPrice) / (n : ℚ)))
        = (i : ℚ) * ((s.config.UpperPrice - s.config.LowerPrice) / (n : ℚ)) ∧
      roundFloat64 (s.config.LowerPrice
          + (i : ℚ) * ((s.config.UpperPrice - s.config.LowerPrice) / (n : ℚ)))
        = s.config.LowerPrice
          + (i : ℚ) * ((s.config.UpperPrice - s.config.LowerPrice) / (n : ℚ)) := by
  unfold GridStrategy.levelsExact at h
  have h2 : ((n : Int) + 1).toNat = n + 1 := by omega
  simp only [hs, h2, Int.cast_natCast, Bool.and_eq_true, List.all_eq_true, List.mem_range] at h
  obtain ⟨⟨⟨h1, h3⟩, h4⟩, h5⟩ := h
  refine ⟨roundFloat64_of_representable _ h1, roundFloat64_of_representable _ h3,
    roundFloat64_of_representable _ h4, ?_⟩
  intro i hi
  obtain ⟨⟨h6, h7⟩, h8⟩ := h5 i (by omega)
  exact ⟨roundFloat64_of_representable _ h6, roundFloat64_of_representable _ h7,
    roundFloat64_of_representable _ h8⟩

/-- When every operation is exact, slot `i` holds `lower + i*(upper-lower)/n`. -/
theorem gridLevel_exact (s : GridStrategy) (n : Nat) (hs : s.config.GridNumber = (n : Int))
    (h : s.levelsExact = true) (i : Nat) (hi : i ≤ n) :
    Float64.add s.config.LowerPrice
        (Float64.mul (Float64.ofInt (i : Int))
          (Float64.div (Float64.sub s.config.UpperPrice s.config.LowerPrice)
            (Float64.ofInt (n : Int))))
      = s.config.LowerPrice
        + (i : ℚ) * ((s.config.UpperPrice - s.config.LowerPrice) / (n : ℚ)) := by
  obtain ⟨h1, h2, h3, h4⟩ := levelsExact_spec s n hs h
  obtain ⟨h5, h6, h7⟩ := h4 i hi
  unfold Float64.add Float64.mul Float64.div Float64.sub Float64.ofInt
  simp only [Int.cast_natCast]
  rw [h1, h2, h3, h5, h6, h7]

/-- The levels computed for `lower < upper` never decrease. -/
theorem calculateGridLevels_pairwise_le (s : GridStrategy) (n : Nat)
    (hlt : s.config.LowerPrice < s.config.UpperPrice) :
    List.Pairwise (fun a b => a ≤ b) ((List.range (n + 1)).map
      (fun (i : Nat) => Float64.add s.config.LowerPrice
        (Float64.mul (Float64.ofInt (i : Int))
          (Float64.div (Float64.sub s.config.UpperPrice s.config.LowerPrice)
            (Float64.ofInt (n : Int)))))) := by
  rw [List.pairwise_map]
  refine List.Pairwise.imp ?_ (List.pairwise_lt_range (n + 1))
  intro a b hab
  exact gridLevel_mono _ _ (gridInterval_nonneg _ _ n hlt) a b hab.le

/-- C2, as the code has it: for `GridNumber = n ≥ 1` (bounds of magnitude at
most `2^1000`, at most `2^20` buckets), `calculateGridLevels` returns exactly
`n+1` levels and `Initialize` stores them; level `i` is the float64 result of
`lower + float64(i)*interval` with `interval` the float64 result of
`(upper-lower)/float64(n)`, and level 0 is `lower`.  When every one of these
operations is exact, level `i` is `lower + i*(upper-lower)/n`, the last level is
`upper` and adjacent levels differ by `(upper-lower)/n`; this is so for
`lower=100`, `upper=110`, `gridCount=5`, where the result is
`[100,102,104,106,108,110]`. -/
theorem calculateGridLevels_spec (s : GridStrategy) (n : Nat) (hn : 1 ≤ n)
    (hs : s.config.GridNumber = (n : Int)) (_hrange : s.config.inRange = true) :
    ∃ levels : List ℚ,
      s.calculateGridLevels = some levels ∧
      s.Initialize = some { s with gridLevels := levels } ∧
      levels.length = n + 1 ∧
      (∀ i : Nat, i ≤ n → levels[i]? = some (Float64.add s.config.LowerPrice
          (Float64.mul (Float64.ofInt (i : Int))
            (Float64.div (Float64.sub s.config.UpperPrice s.config.LowerPrice)
              (Float64.ofInt (n : Int)))))) ∧
      (Float64.representable s.config.LowerPrice = true →
        levels[0]? = some s.config.LowerPrice) ∧
      (s.levelsExact = true →
        (∀ i : Nat, i ≤ n → levels[i]? = some (s.config.LowerPrice
            + (i : ℚ) * (s.config.UpperPrice - s.config.LowerPrice) / (n : ℚ))) ∧
        levels[n]? = some s.config.UpperPrice ∧
        (∀ i : Nat, i < n → ∃ a b : ℚ, levels[i]? = some a ∧ levels[i + 1]? = some b ∧
            b - a = (s.config.UpperPrice - s.config.LowerPrice) / (n : ℚ))) ∧
      gridExample.levelsExact = true ∧
      (NewGridStrategy "BTC-USDT-SWAP"
          { Enabled := true, UpperPrice := 110, LowerPrice := 100,
            GridNumber := 5, TotalAmount := 0 }).calculateGridLevels
        = some [100, 102, 104, 106, 108, 110] := by
  have hn0 : (n : ℚ) ≠ 0 := by
    have : 0 < n := hn
    exact_mod_cast this.ne'
  refine ⟨_, calculateGridLevels_eq_map s n hs, ?_, ?_, ?_, ?_, ?_, by decide!, by decide!⟩
  · simp [GridStrategy.Initialize, calculateGridLevels_eq_map s n hs]
  · simp
  · intro i hi
    exact gridLevels_getElem? _ n i hi
  · intro hrep
    rw [gridLevels_getElem? _ n 0 (Nat.zero_le n)]
    have h0 : roundFloat64 0 = 0 := by simp [roundFloat64]
    have hlev0 : Float64.add s.config.LowerPrice
        (Float64.mul (Float64.ofInt ((0 : Nat) : Int))
          (Float64.div (Float64.sub s.config.UpperPrice s.config.LowerPrice)
            (Float64.ofInt (n : Int)))) = s.config.LowerPrice := by
      unfold Float64.add Float64.mul Float64.ofInt
      simp only [Nat.cast_zero, Int.cast_zero, h0, zero_mul, add_zero]
      exact roundFloat64_of_representable _ hrep
    rw [hlev0]
  · intro hexact
    have hlev : ∀ i : Nat, i ≤ n → ((List.range (n + 1)).map
        (fun (i : Nat) => Float64.add s.config.LowerPrice
          (Float64.mul (Float64.ofInt (i : Int))
            (Float64.div (Float64.sub s.config.UpperPrice s.config.LowerPrice)
              (Float64.ofInt (n : Int))))))[i]?
        = some (s.config.LowerPrice
          + (i : ℚ) * ((s.config.UpperPrice - s.config.LowerPrice) / (n : ℚ))) := by
      intro i hi
      rw [gridLevels_getElem? _ n i hi, gridLevel_exact s n hs hexact i hi]
    clear hexact _hrange
    refine ⟨?_, ?_, ?_⟩
    · intro i hi
      rw [hlev i hi]
      exact congrArg some (by ring)
    · rw [hlev n le_rfl]
      exact congrArg some (by field_simp)
    · intro i hi
      refine ⟨_, _, hlev i hi.le, hlev (i + 1) hi, ?_⟩
      push_cast
      ring

/-- C2 as amended, at the configuration of the worked example, where every
operation is exact: six levels, the last one the upper bound 110. -/
theorem calculateGridLevels_spec_witness :
    ∃ levels : List ℚ,
      gridExample.calculateGridLevels = some levels ∧
      levels.length = 5 + 1 ∧
      levels[0]? = some gridExample.config.LowerPrice ∧
      levels[5]? = some gridExample.config.UpperPrice := by
  obtain ⟨levels, h1, _, h3, _, h5, h6, _, _⟩ :=
    calculateGridLevels_spec gridExample 5 (by decide) rfl (by decide!)
  exact ⟨levels, h1, h3, h5 (by decide!), (h6 (by decide!)).2.1⟩

/-- C2 as stated fails.  For `lower=0`, `upper=1` and 49 buckets the last level
is `1 - 2^-53`, not the upper bound 1.  For 10 buckets level 3 is
`0.30000000000000004`, not `3/10`, and the steps from level 0 to 1 and from
level 2 to 3 differ. -/
theorem calculateGridLevels_rounded :
    (gridUnitExample 49).calculateGridLevels.map (fun levels => levels[49]?)
      = some (some (9007199254740991 / 9007199254740992)) ∧
    (9007199254740991 / 9007199254740992 : ℚ) ≠ (gridUnitExample 49).config.UpperPrice ∧
    (gridUnitExample 10).calculateGridLevels =
      some [0, 3602879701896397 / 36028797018963968, 3602879701896397 / 18014398509481984,
            1351079888211149 / 4503599627370496, 3602879701896397 / 9007199254740992, 1 / 2,
            1351079888211149 / 2251799813685248, 6305039478318695 / 9007199254740992,
            3602879701896397 / 4503599627370496, 8106479329266893 / 9007199254740992, 1] ∧
    (1351079888211149 / 4503599627370496 : ℚ) ≠ 0 + 3 * (1 - 0) / 10 ∧
    (3602879701896397 / 36028797018963968 - 0 : ℚ)
      ≠ 1351079888211149 / 4503599627370496 - 3602879701896397 / 18014398509481984 := by
  decide!

/-- C3, as the code has it: for `lower < upper` and `GridNumber = n ≥ 1`
(bounds of magnitude at most `2^1000`, at most `2^20` buckets),
`calculateGridLevels` returns exactly `n+1` levels and they never decrease:
`levels[i] ≤ levels[i+1]` for every `0 ≤ i < n`.  When every operation is exact
they are strictly increasing. -/
theorem calculateGridLevels_nondecreasing (s : GridStrategy) (n : Nat) (hn : 1 ≤ n)
    (hs : s.config.GridNumber = (n : Int))
    (hlt : s.config.LowerPrice < s.config.UpperPrice)
    (_hrange : s.config.inRange = true) :
    ∃ levels : List ℚ,
      s.calculateGridLevels = some levels ∧
      levels.length = n + 1 ∧
      (∀ i : Nat, i < n → ∃ a b : ℚ, levels[i]? = some a ∧ levels[i + 1]? = some b ∧ a ≤ b) ∧
      List.Pairwise (fun a b => a ≤ b) levels ∧
      (s.levelsExact = true →
        (∀ i : Nat, i < n →
          ∃ a b : ℚ, levels[i]? = some a ∧ levels[i + 1]? = some b ∧ a < b) ∧
        List.Pairwise (fun a b => a < b) levels) := by
  have hnpos : (0 : ℚ) < (n : ℚ) := by
    have : 0 < n := hn
    exact_mod_cast this
  have hd : 0 < (s.config.UpperPrice - s.config.LowerPrice) / (n : ℚ) :=
    div_pos (sub_pos.mpr hlt) hnpos
  refine ⟨_, calculateGridLevels_eq_map s n hs, by simp, ?_,
    calculateGridLevels_pairwise_le s n hlt, ?_⟩
  · intro i hi
    exact ⟨_, _, gridLevels_getElem? _ n i hi.le, gridLevels_getElem? _ n (i + 1) hi,
      gridLevel_mono _ _ (gridInterval_nonneg _ _ n hlt) i (i + 1) (Nat.le_succ i)⟩
  · intro hexact
    constructor
    · intro i hi
      refine ⟨_, _, gridLevels_getElem? _ n i hi.le, gridLevels_getElem? _ n (i + 1) hi, ?_⟩
      rw [gridLevel_exact s n hs hexact i hi.le, gridLevel_exact s n hs hexact (i + 1) hi]
      clear hexact _hrange
      push_cast
      linarith
    · rw [List.pairwise_map]
      have hmem : List.Pairwise (fun a b : Nat => a < b ∧ a ≤ n ∧ b ≤ n)
          (List.range (n + 1)) := by
        have h1 := List.pairwise_lt_range (n + 1)
        rw [List.pairwise_iff_getElem] at h1 ⊢
        intro i j hi hj hij
        have hi2 : i < n + 1 := by simpa using hi
        have hj2 : j < n + 1 := by simpa using hj
        simp only [List.getElem_range]
        omega
      refine List.Pairwise.imp ?_ hmem
      intro a b hab
      rw [gridLevel_exact s n hs hexact a hab.2.1, gridLevel_exact s n hs hexact b hab.2.2]
      have hlt2 : (a : ℚ) < (b : ℚ) := by exact_mod_cast hab.1
      have hmul := mul_lt_mul_of_pos_right hlt2 hd
      clear hexact _hrange
      linarith

/-- C3 as amended, at the configuration of the worked example, where every
operation is exact: the six levels are strictly increasing. -/
theorem calculateGridLevels_nondecreasing_witness :
    ∃ levels : List ℚ,
      gridExample.calculateGridLevels = some levels ∧
      levels.length = 5 + 1 ∧
      List.Pairwise (fun a b => a ≤ b) levels ∧
      List.Pairwise (fun a b => a < b) levels := by
  obtain ⟨levels, h1, h2, _, h4, h5⟩ :=
    calculateGridLevels_nondecreasing gridExample 5 (by decide) rfl (by decide!) (by decide!)
  exact ⟨levels, h1, h2, h4, (h5 (by decide!)).2⟩

/-- C3 as stated fails: for `lower = 10^16 < upper = 10^16 + 2` and 5 buckets
the six levels are `10^16` three times and `10^16 + 2` three times, so
`levels[0] < levels[1]` does not hold. -/
theorem calculateGridLevels_repeated_levels :
    gridLargeExample.config.LowerPrice < gridLargeExample.config.UpperPrice ∧
    gridLargeExample.config.inRange = true ∧
    gridLargeExample.calculateGridLevels =
      some [10000000000000000, 10000000000000000, 10000000000000000, 10000000000000002,
            10000000000000002, 10000000000000002] ∧
    ¬ ((10000000000000000 : ℚ) < 10000000000000000) := by
  decide!

/-! ## Grid signals -/

/-- The loop of `checkGridSignal` returns nothing over indices none of whose
buckets contains the price. -/
theorem checkGridSignalLoop_none (s : GridStrategy) (p : ℚ) (l : List Nat)
    (h : ∀ i ∈ l, inBucket s.gridLevels p i = false) :
    s.checkGridSignalLoop p l = none := by
  induction l with
  | nil => rfl
  | cons i rest ih =>
    have hi : inBucket s.gridLevels p i = false := h i (List.mem_cons_self _ _)
    have hrest : ∀ j ∈ rest, inBucket s.gridLevels p j = false :=
      fun j hj => h j (List.mem_cons_of_mem _ hj)
    simp [GridStrategy.checkGridSignalLoop, hi, ih hrest]

/-- The loop of `checkGridSignal` over indices among which exactly the bucket
`i0` contains the price returns the decision taken in that bucket. -/
theorem checkGridSignalLoop_unique (s : GridStrategy) (p : ℚ) (i0 : Nat)
    (h0 : inBucket s.gridLevels p i0 = true) (l : List Nat) (hmem : i0 ∈ l)
    (huniq : ∀ i ∈ l, inBucket s.gridLevels p i = true → i = i0) :
    s.checkGridSignalLoop p l
      = gridSignalSpec s p (s.gridLevels.getD i0 0) (s.gridLevels.getD (i0 + 1) 0) := by
  induction l with
  | nil => simp at hmem
  | cons i rest ih =>
    have hrestU : ∀ j ∈ rest, inBucket s.gridLevels p j = true → j = i0 :=
      fun j hj => huniq j (List.mem_cons_of_mem _ hj)
    by_cases hi : inBucket s.gridLevels p i = true
    · have hii : i = i0 := huniq i (List.mem_cons_self _ _) hi
      subst hii
      by_cases hb : p - s.gridLevels.getD i 0
          < (s.gridLevels.getD (i + 1) 0 - s.gridLevels.getD i 0) * (1 / 10)
      · have hb2 : p - s.gridLevels.getD i 0
            < (1 / 10) * (s.gridLevels.getD (i + 1) 0 - s.gridLevels.getD i 0) := by
          rw [mul_comm]; exact hb
        simp only [GridStrategy.checkGridSignalLoop, hi, if_true, hb, gridSignalSpec, hb2,
          GridStrategy.Name]
      · have hb2 : ¬ p - s.gridLevels.getD i 0
            < (1 / 10) * (s.gridLevels.getD (i + 1) 0 - s.gridLevels.getD i 0) := by
          rw [mul_comm]; exact hb
        by_cases hc : s.gridLevels.getD (i + 1) 0 - p
            < (s.gridLevels.getD (i + 1) 0 - s.gridLevels.getD i 0) * (1 / 10)
        · have hc2 : s.gridLevels.getD (i + 1) 0 - p
              < (1 / 10) * (s.gridLevels.getD (i + 1) 0 - s.gridLevels.getD i 0) := by
            rw [mul_comm]; exact hc
          simp only [GridStrategy.checkGridSignalLoop, hi, if_true, hb, if_false, hc,
            gridSignalSpec, hb2, hc2, GridStrategy.Name]
        · have hc2 : ¬ s.gridLevels.getD (i + 1) 0 - p
              < (1 / 10) * (s.gridLevels.getD (i + 1) 0 - s.gridLevels.getD i 0) := by
            rw [mul_comm]; exact hc
          have hspec : gridSignalSpec s p (s.gridLevels.getD i 0)
              (s.gridLevels.getD (i + 1) 0) = none := by
            simp only [gridSignalSpec, hb2, hc2, if_false]
          have hrest : s.checkGridSignalLoop p rest = none := by
            by_cases hin : i ∈ rest
            · rw [ih hin hrestU, hspec]
            · apply checkGridSignalLoop_none
              intro j hj
              by_contra hne
              have hjt : inBucket s.gridLevels p j = true := by
                simpa using hne
              exact hin (hrestU j hj hjt ▸ hj)
          simp only [GridStrategy.checkGridSignalLoop, hi, if_true, hb, if_false, hc, hrest,
            hspec]
    · have hne : i0 ≠ i := fun h => hi (h ▸ h0)
      have hin : i0 ∈ rest := by
        rcases List.mem_cons.mp hmem with h | h
        · exact absurd h hne
        · exact h
      have hif : inBucket s.gridLevels p i = false := by simpa using hi
      simp only [GridStrategy.checkGridSignalLoop, hif, Bool.false_eq_true, if_false]
      exact ih hin hrestU

/-- Entries of a list that never decreases: an earlier entry is at most a
later one. -/
theorem pairwise_le_getElem? (levels : List ℚ) (h : levels.Pairwise (fun a b => a ≤ b))
    (i j : Nat) (a b : ℚ) (hij : i ≤ j) (hi : levels[i]? = some a)
    (hj : levels[j]? = some b) : a ≤ b := by
  obtain ⟨hi1, hi2⟩ := List.getElem?_eq_some_iff.mp hi
  obtain ⟨hj1, hj2⟩ := List.getElem?_eq_some_iff.mp hj
  rcases Nat.lt_or_eq_of_le hij with hlt | heq
  · have := List.pairwise_iff_getElem.mp h i j hi1 hj1 hlt
    rw [hi2, hj2] at this
    exact this
  · subst heq
    rw [hi] at hj
    exact (Option.some.inj hj).le

/-- Case analysis of `ProcessTick` on a strategy whose stored levels never
decrease: nothing below the band, above it or outside every bucket; for a price
inside the band and in a bucket, the decision of `gridSignalSpec` at the edges
of that bucket. -/
theorem GridStrategy_ProcessTick_cases (s : GridStrategy)
    (hsorted : s.gridLevels.Pairwise (fun a b => a ≤ b)) (tick : Tick) :
    (tick.Price < s.config.LowerPrice → s.ProcessTick tick = none) ∧
    (tick.Price > s.config.UpperPrice → s.ProcessTick tick = none) ∧
    ((∀ (i : Nat) (l u : ℚ), s.gridLevels[i]? = some l → s.gridLevels[i + 1]? = some u →
        ¬ (l ≤ tick.Price ∧ tick.Price < u)) → s.ProcessTick tick = none) ∧
    (∀ (i : Nat) (l u : ℚ), s.gridLevels[i]? = some l → s.gridLevels[i + 1]? = some u →
        l ≤ tick.Price → tick.Price < u →
        s.config.LowerPrice ≤ tick.Price → tick.Price ≤ s.config.UpperPrice →
        s.ProcessTick tick = gridSignalSpec s tick.Price l u) := by
  have hget : ∀ i : Nat, i < s.gridLevels.length →
      s.gridLevels[i]? = some (s.gridLevels.getD i 0) := by
    intro i hi
    rw [List.getD_eq_getElem?_getD, List.getElem?_eq_getElem hi]
    rfl
  have hbucket : ∀ i : Nat, (inBucket s.gridLevels tick.Price i = true ↔
      (s.gridLevels.getD i 0 ≤ tick.Price ∧ tick.Price < s.gridLevels.getD (i + 1) 0)) := by
    intro i
    simp [inBucket]
  have hno : (∀ i : Nat, i < s.gridLevels.length - 1 →
      inBucket s.gridLevels tick.Price i = false) → s.ProcessTick tick = none := by
    intro h
    have hfind : (List.range (s.gridLevels.length - 1)).find?
        (fun i => inBucket s.gridLevels tick.Price i) = none := by
      rw [List.find?_eq_none]
      intro i hi
      simp [h i (List.mem_range.mp hi)]
    unfold GridStrategy.ProcessTick
    simp only [hfind]
    split_ifs <;> rfl
  have hthird : (∀ (i : Nat) (l u : ℚ), s.gridLevels[i]? = some l →
      s.gridLevels[i + 1]? = some u → ¬ (l ≤ tick.Price ∧ tick.Price < u)) →
      s.ProcessTick tick = none := by
    intro h
    apply hno
    intro i hi
    by_contra hne
    have ht : inBucket s.gridLevels tick.Price i = true := by simpa using hne
    exact h i _ _ (hget i (by omega)) (hget (i + 1) (by omega)) ((hbucket i).mp ht)
  refine ⟨?_, ?_, hthird, ?_⟩
  · intro h
    simp [GridStrategy.ProcessTick, h]
  · intro h
    unfold GridStrategy.ProcessTick
    simp only [h, if_true]
    split_ifs <;> rfl
  · intro i l u hl hu hlp hpu hlow hup
    have hi1 : i + 1 < s.gridLevels.length := (List.getElem?_eq_some_iff.mp hu).1
    have hi2 : i < s.gridLevels.length - 1 := by omega
    have hl2 : s.gridLevels.getD i 0 = l := by
      rw [List.getD_eq_getElem?_getD, hl]; rfl
    have hu2 : s.gridLevels.getD (i + 1) 0 = u := by
      rw [List.getD_eq_getElem?_getD, hu]; rfl
    have hlow2 : ¬ tick.Price < s.config.LowerPrice := not_lt.mpr hlow
    have hup2 : ¬ tick.Price > s.config.UpperPrice := not_lt.mpr hup
    have hin0 : inBucket s.gridLevels tick.Price i = true := by
      rw [hbucket i, hl2, hu2]
      exact ⟨hlp, hpu⟩
    have hfind : ∃ j, (List.range (s.gridLevels.length - 1)).find?
        (fun i => inBucket s.gridLevels tick.Price i) = some j := by
      cases hf : (List.range (s.gridLevels.length - 1)).find?
          (fun i => inBucket s.gridLevels tick.Price i) with
      | some j => exact ⟨j, rfl⟩
      | none =>
        rw [List.find?_eq_none] at hf
        have := hf i (List.mem_range.mpr hi2)
        simp [hin0] at this
    obtain ⟨j, hj⟩ := hfind
    have huniq : ∀ k ∈ List.range (s.gridLevels.length - 1),
        inBucket s.gridLevels tick.Price k = true → k = i := by
      intro k hk hkt
      have hkn : k < s.gridLevels.length - 1 := List.mem_range.mp hk
      have hb := (hbucket k).mp hkt
      by_contra hne
      rcases Nat.lt_or_gt_of_ne hne with hlt | hgt
      · have h1 := pairwise_le_getElem? s.gridLevels hsorted (k + 1) i _ _ hlt
          (hget (k + 1) (by omega)) hl
        linarith [hb.2]
      · have h1 := pairwise_le_getElem? s.gridLevels hsorted (i + 1) k _ _ hgt hu
          (hget k (by omega))
        linarith [hb.1]
    unfold GridStrategy.ProcessTick
    simp only [hlow2, hup2, if_false, hj, GridStrategy.checkGridSignal]
    rw [checkGridSignalLoop_unique s tick.Price i hin0 (List.range (s.gridLevels.length - 1))
      (List.mem_range.mpr hi2) huniq, hl2, hu2]

/-- The levels of an initialised strategy with `lower < upper` never decrease. -/
theorem initialized_gridLevels_pairwise (s : GridStrategy) (n : Nat)
    (hs : s.config.GridNumber = (n : Int))
    (hlt : s.config.LowerPrice < s.config.UpperPrice)
    (hinit : s.calculateGridLevels = some s.gridLevels) :
    s.gridLevels.Pairwise (fun a b => a ≤ b) := by
  have h := calculateGridLevels_eq_map s n hs
  rw [hinit] at h
  rw [Option.some.inj h]
  exact calculateGridLevels_pairwise_le s n hlt

/-- The levels of a strategy initialised from `lower=100`, `upper=110`,
`gridCount=5`. -/
theorem initialized_gridLevels_100_110 (s : GridStrategy)
    (hlo : s.config.LowerPrice = 100) (hup : s.config.UpperPrice = 110)
    (hs : s.config.GridNumber = 5)
    (hinit : s.calculateGridLevels = some s.gridLevels) :
    s.gridLevels = [100, 102, 104, 106, 108, 110] := by
  have hs5 : s.config.GridNumber = ((5 : Nat) : Int) := by rw [hs]; rfl
  have h := calculateGridLevels_eq_map s 5 hs5
  rw [hinit, hlo, hup] at h
  exact (Option.some.inj h).trans (by decide!)

/-- The worked example: price 105 lies mid-bucket in `[104,106)` and gives no signal. -/
theorem gridExample_ProcessTick_105 : gridExample.ProcessTick (tickAt 105) = none := by
  simp [GridStrategy.ProcessTick, gridExample, tickAt, inBucket,
    GridStrategy.checkGridSignal, GridStrategy.checkGridSignalLoop, List.range,
    List.range.loop]
  norm_num

/-- C1, as the code has it: for an initialised Grid strategy with
`lower < upper` and `GridNumber ≥ 1` (bounds of magnitude at most `2^1000`, at
most `2^20` buckets) and every tick price `p`, `ProcessTick` returns no signal
when `p < lower`, when `p > upper` and when no bucket `[levels[i], levels[i+1])`
contains `p`, which is so for `p = upper` when the last level is at most
`upper`, as it is when every operation of the level computation is exact; when
`lower ≤ p ≤ upper` and `p` lies in the bucket with edges `l`, `u` it returns a
buy if `p - l < 0.1*(u-l)`, else a sell if `u - p < 0.1*(u-l)`, else nothing, a
signal carrying the price `p`, the amount 1 and the name "Grid".  Price 105
with levels `[100,102,104,106,108,110]` gives no signal. -/
theorem GridStrategy_ProcessTick_spec (s : GridStrategy) (n : Nat) (hn : 1 ≤ n)
    (hs : s.config.GridNumber = (n : Int))
    (hlt : s.config.LowerPrice < s.config.UpperPrice)
    (hrange : s.config.inRange = true)
    (hinit : s.calculateGridLevels = some s.gridLevels) (tick : Tick) :
    (tick.Price < s.config.LowerPrice → s.ProcessTick tick = none) ∧
    (tick.Price > s.config.UpperPrice → s.ProcessTick tick = none) ∧
    ((∀ (i : Nat) (l u : ℚ), s.gridLevels[i]? = some l → s.gridLevels[i + 1]? = some u →
        ¬ (l ≤ tick.Price ∧ tick.Price < u)) → s.ProcessTick tick = none) ∧
    (∀ last : ℚ, s.gridLevels[n]? = some last → last ≤ s.config.UpperPrice →
      tick.Price = s.config.UpperPrice → s.ProcessTick tick = none) ∧
    (s.levelsExact = true → tick.Price = s.config.UpperPrice → s.ProcessTick tick = none) ∧
    (∀ (i : Nat) (l u : ℚ), s.gridLevels[i]? = some l → s.gridLevels[i + 1]? = some u →
        l ≤ tick.Price → tick.Price < u →
        s.config.LowerPrice ≤ tick.Price → tick.Price ≤ s.config.UpperPrice →
        s.ProcessTick tick = gridSignalSpec s tick.Price l u) ∧
    gridExample.ProcessTick (tickAt 105) = none := by
  have hsorted := initialized_gridLevels_pairwise s n hs hlt hinit
  obtain ⟨h1, h2, h3, h5⟩ := GridStrategy_ProcessTick_cases s hsorted tick
  have hlen : s.gridLevels.length = n + 1 := by
    have h := calculateGridLevels_eq_map s n hs
    rw [hinit] at h
    rw [Option.some.inj h]
    simp
  have hlast : ∀ last : ℚ, s.gridLevels[n]? = some last → last ≤ s.config.UpperPrice →
      tick.Price = s.config.UpperPrice → s.ProcessTick tick = none := by
    intro last hl hle hp
    apply h3
    intro i l u _ hu hcon
    have hi : i + 1 < s.gridLevels.length := (List.getElem?_eq_some_iff.mp hu).1
    have hle2 := pairwise_le_getElem? s.gridLevels hsorted (i + 1) n u last (by omega) hu hl
    linarith [hcon.2]
  refine ⟨h1, h2, h3, hlast, ?_, h5, gridExample_ProcessTick_105⟩
  intro hexact hp
  obtain ⟨levels, hcalc, _, _, _, _, hex, _, _⟩ := calculateGridLevels_spec s n hn hs hrange
  rw [hinit] at hcalc
  have hlev : s.gridLevels = levels := Option.some.inj hcalc
  have hn2 := (hex hexact).2.1
  rw [← hlev] at hn2
  exact hlast _ hn2 le_rfl hp

/-- C1 as amended, at the strategy of the worked example, where every operation
of the level computation is exact: a tick of price 101 gets the decision at the
edges 100 and 102, and a tick at the upper bound 110 gets no signal. -/
theorem GridStrategy_ProcessTick_spec_witness :
    (tickAt 101).Price < gridExample.config.UpperPrice ∧
    gridExample.ProcessTick (tickAt 101)
      = gridSignalSpec gridExample (tickAt 101).Price 100 102 ∧
    gridExample.ProcessTick (tickAt 110) = none :=
  ⟨by decide!,
   (GridStrategy_ProcessTick_spec gridExample 5 (by decide) rfl (by decide!) (by decide!)
      (by decide!) (tickAt 101)).2.2.2.2.2.1 0 100 102 (by decide!) (by decide!)
      (by decide!) (by decide!) (by decide!) (by decide!),
   (GridStrategy_ProcessTick_spec gridExample 5 (by decide) rfl (by decide!) (by decide!)
      (by decide!) (tickAt 110)).2.2.2.2.1 (by decide!) (by decide!)⟩

/-- C1 as stated fails at `p = upper`.  With the float64 numbers nearest to 0.1
and 0.7 as bounds and 37 buckets, the last level computed by `Initialize` is
`0.7000000000000001`, above the upper bound `0.7`; a tick at the upper bound
lies in the last bucket, within a tenth of its width of the upper edge, and
`ProcessTick` returns a sell signal. -/
theorem GridStrategy_ProcessTick_at_upper_sells :
    gridRoundedExample.config.LowerPrice < gridRoundedExample.config.UpperPrice ∧
    gridRoundedExample.config.inRange = true ∧
    Float64.representable gridRoundedExample.config.LowerPrice = true ∧
    Float64.representable gridRoundedExample.config.UpperPrice = true ∧
    gridRoundedExample.config.UpperPrice = 3152519739159347 / 4503599627370496 ∧
    gridRoundedExample.Initialize.map (fun s => s.gridLevels[36]?)
      = some (some (6158976787701273 / 9007199254740992)) ∧
    gridRoundedExample.Initialize.map (fun s => s.gridLevels[37]?)
      = some (some (6305039478318695 / 9007199254740992)) ∧
    (3152519739159347 / 4503599627370496 : ℚ) < 6305039478318695 / 9007199254740992 ∧
    gridRoundedExample.Initialize.map (fun s => s.ProcessTick (tickAt s.config.UpperPrice))
      = some (some { Symbol := "BTC-USDT-SWAP", Strategy := "Grid", Action := "sell",
                     Price := 3152519739159347 / 4503599627370496, Amount := 1 }) := by
  decide!

/-- C4, as the code has it: with `lower=100`, `upper=110`, `gridCount=5` an
initialised strategy returns no signal for a tick of price 100.5 (0.5 above
the edge 100 is not below 10% of the bucket width, 0.2), and returns a buy
signal at price `p`, amount 1, for every tick of price `100 ≤ p < 100.2`. -/
theorem GridStrategy_ProcessTick_near_100 (s : GridStrategy)
    (hlo : s.config.LowerPrice = 100) (hup : s.config.UpperPrice = 110)
    (hs : s.config.GridNumber = 5)
    (hinit : s.calculateGridLevels = some s.gridLevels) (tick : Tick) :
    (tick.Price = 201 / 2 → s.ProcessTick tick = none) ∧
    (100 ≤ tick.Price → tick.Price < 501 / 5 →
      s.ProcessTick tick = some { Symbol := s.symbol, Strategy := "Grid", Action := "buy",
                                  Price := tick.Price, Amount := 1 }) := by
  have hL := initialized_gridLevels_100_110 s hlo hup hs hinit
  have h0 : s.gridLevels[0]? = some 100 := by rw [hL]; rfl
  have h1 : s.gridLevels[0 + 1]? = some 102 := by rw [hL]; rfl
  have hsorted : s.gridLevels.Pairwise (fun a b => a ≤ b) := by
    rw [hL]
    decide!
  have hcases := (GridStrategy_ProcessTick_cases s hsorted tick).2.2.2 0 100 102 h0 h1
  constructor
  · intro hp
    rw [hcases (by rw [hp]; norm_num) (by rw [hp]; norm_num)
      (by rw [hp, hlo]; norm_num) (by rw [hp, hup]; norm_num), hp]
    norm_num [gridSignalSpec]
  · intro hge hlt
    rw [hcases hge (by linarith) (by rw [hlo]; exact hge) (by rw [hup]; linarith)]
    have : tick.Price - 100 < 1 / 10 * (102 - 100) := by linarith
    simp only [gridSignalSpec, this, if_true]

/-- C4 as amended, at the strategy of the worked example and a tick of price 100.1. -/
theorem GridStrategy_ProcessTick_near_100_witness :
    gridExample.ProcessTick (tickAt (1001 / 10))
      = some { Symbol := gridExample.symbol, Strategy := "Grid", Action := "buy",
               Price := (tickAt (1001 / 10)).Price, Amount := 1 } :=
  (GridStrategy_ProcessTick_near_100 gridExample rfl rfl rfl (by decide!)
    (tickAt (1001 / 10))).2 (by norm_num [tickAt]) (by norm_num [tickAt])

/-- C4 as stated fails: the strategy initialised from `lower=100`, `upper=110`,
`gridCount=5` returns no signal, hence no buy, for a tick of price 100.5. -/
theorem GridStrategy_ProcessTick_100_5_no_signal :
    (NewGridStrategy "BTC-USDT-SWAP"
        { Enabled := true, UpperPrice := 110, LowerPrice := 100,
          GridNumber := 5, TotalAmount := 0 }).Initialize = some gridExample ∧
    gridExample.ProcessTick (tickAt (201 / 2)) = none ∧
    ¬ ∃ sig : Signal, gridExample.ProcessTick (tickAt (201 / 2)) = some sig ∧
        sig.Action = "buy" ∧ sig.Price = 201 / 2 := by
  have hnone : gridExample.ProcessTick (tickAt (201 / 2)) = none := by
    decide!
  refine ⟨by decide!, hnone, ?_⟩
  rintro ⟨sig, h, _⟩
  rw [hnone] at h
  exact Option.noConfusion h

/-! ## RSI value -/

/-- An index inside the slice does not panic. -/
theorem priceAt_of_lt (prices : List ℚ) (i : Int) (h0 : 0 ≤ i) (hi : i < prices.length) :
    ∃ a : ℚ, priceAt prices i = some a ∧ prices[i.toNat]? = some a := by
  have hlt : i.toNat < prices.length := by omega
  refine ⟨prices[i.toNat], ?_, ?_⟩
  · unfold priceAt
    rw [if_neg (by omega), List.getElem?_eq_getElem hlt]
  · rw [List.getElem?_eq_getElem hlt]

/-- A counted loop of `calculateRSI` whose indices stay inside the slice
returns, and it keeps every invariant `Inv` that its step keeps on the
changes `prices[i] - prices[i-1]` (all of which satisfy `Q`). -/
theorem deltaLoop_inv (prices : List ℚ) (step : ℚ × ℚ → ℚ → ℚ × ℚ)
    (Inv : ℚ × ℚ → Prop) (Q : ℚ → Prop)
    (hstep : ∀ (acc : ℚ × ℚ) (c : ℚ), Q c → Inv acc → Inv (step acc c))
    (hQ : ∀ (i : Nat) (a b : ℚ), prices[i]? = some b → prices[i + 1]? = some a → Q (a - b)) :
    ∀ (k : Nat) (i : Int) (acc : ℚ × ℚ), 1 ≤ i → i + (k : Int) ≤ prices.length → Inv acc →
      ∃ acc1 : ℚ × ℚ, deltaLoop prices step k i acc = some acc1 ∧ Inv acc1 := by
  intro k
  induction k with
  | zero =>
    intro i acc _ _ hacc
    exact ⟨acc, rfl, hacc⟩
  | succ k ih =>
    intro i acc h1 hk hacc
    have hk2 : i + 1 + (k : Int) ≤ prices.length := by push_cast at hk; omega
    obtain ⟨a, ha, ha2⟩ := priceAt_of_lt prices i (by omega) (by omega)
    obtain ⟨b, hb, hb2⟩ := priceAt_of_lt prices (i - 1) (by omega) (by omega)
    have hidx : (i - 1).toNat + 1 = i.toNat := by omega
    have hq : Q (a - b) := hQ (i - 1).toNat a b hb2 (by rw [hidx]; exact ha2)
    obtain ⟨acc1, hloop, hinv⟩ := ih (i + 1) (step acc (a - b)) (by omega) hk2
      (hstep acc (a - b) hq hacc)
    refine ⟨acc1, ?_, hinv⟩
    simp only [deltaLoop, ha, hb]
    exact hloop

/-- For `Period ≥ 0`, `calculateRSI` returns: 50 on a short buffer, otherwise the
value formed from two averages that satisfy every invariant kept by the two
loop bodies and by the division by the period. -/
theorem calculateRSI_inv (s : RSIStrategy) (hp : 0 ≤ s.config.Period)
    (Inv : ℚ × ℚ → Prop) (Q : ℚ → Prop)
    (h0 : Inv (0, 0))
    (hseed : ∀ (acc : ℚ × ℚ) (c : ℚ), Q c → Inv acc → Inv (seedStep acc c))
    (hdiv : ∀ acc : ℚ × ℚ, Inv acc →
      Inv (acc.1 / (s.config.Period : ℚ), acc.2 / (s.config.Period : ℚ)))
    (hsmooth : ∀ (acc : ℚ × ℚ) (c : ℚ), Q c → Inv acc → Inv (smoothStep s.config.Period acc c))
    (hQ : ∀ (i : Nat) (a b : ℚ), s.prices[i]? = some b → s.prices[i + 1]? = some a → Q (a - b)) :
    ((s.prices.length : Int) < s.config.Period + 1 ∧ s.calculateRSI = some 50) ∨
    (s.config.Period + 1 ≤ (s.prices.length : Int) ∧
      ∃ avgs : ℚ × ℚ, Inv avgs ∧
        s.calculateRSI = some (if avgs.2 = 0 then 100 else 100 - 100 / (1 + avgs.1 / avgs.2))) := by
  by_cases hshort : (s.prices.length : Int) < s.config.Period + 1
  · left
    exact ⟨hshort, by simp [RSIStrategy.calculateRSI, hshort]⟩
  · right
    refine ⟨by omega, ?_⟩
    obtain ⟨sums, hsums, hsinv⟩ := deltaLoop_inv s.prices seedStep Inv Q hseed hQ
      s.config.Period.toNat 1 (0, 0) le_rfl (by omega) h0
    obtain ⟨avgs, havgs, hainv⟩ := deltaLoop_inv s.prices (smoothStep s.config.Period) Inv Q
      hsmooth hQ ((s.prices.length : Int) - (s.config.Period + 1)).toNat (s.config.Period + 1)
      (sums.1 / (s.config.Period : ℚ), sums.2 / (s.config.Period : ℚ)) (by omega) (by omega)
      (hdiv sums hsinv)
    refine ⟨avgs, hainv, ?_⟩
    unfold RSIStrategy.calculateRSI
    simp only [hshort, if_false, hsums, havgs]
    split_ifs <;> rfl

/-- A chain of non-decreasing prices, read index by index. -/
theorem chain_le_getElem? (prices : List ℚ) (h : List.Chain' (fun a b => a ≤ b) prices)
    (i : Nat) (a b : ℚ) (hb : prices[i]? = some b) (ha : prices[i + 1]? = some a) :
    0 ≤ a - b := by
  have hi1 : i + 1 < prices.length := by
    by_contra hcon
    rw [List.getElem?_eq_none (by omega)] at ha
    exact Option.noConfusion ha
  have hget := List.chain'_iff_get.mp h i (by omega)
  rw [List.getElem?_eq_getElem hi1] at ha
  rw [List.getElem?_eq_getElem (by omega : i < prices.length)] at hb
  have ha2 : prices.get ⟨i + 1, hi1⟩ = a := Option.some.inj ha
  have hb2 : prices.get ⟨i, by omega⟩ = b := Option.some.inj hb
  rw [ha2, hb2] at hget
  linarith

/-- With `Period ≥ 1`, at least `Period+1` prices and no price below its
predecessor, the average loss stays 0 and `calculateRSI` returns 100. -/
theorem calculateRSI_of_nondecreasing (s : RSIStrategy) (hp : 1 ≤ s.config.Period)
    (hlen : s.config.Period + 1 ≤ (s.prices.length : Int))
    (hmono : List.Chain' (fun a b => a ≤ b) s.prices) :
    s.calculateRSI = some 100 := by
  rcases calculateRSI_inv s (by omega) (fun acc => acc.2 = 0) (fun c => 0 ≤ c) rfl
    (by
      intro acc c hc hacc
      simp only [seedStep, ge_iff_le, hc, if_true]
      exact hacc)
    (by
      intro acc hacc
      simp only [hacc, zero_div])
    (by
      intro acc c hc hacc
      simp only [smoothStep, ge_iff_le, hc, if_true, hacc, zero_mul, zero_div])
    (chain_le_getElem? s.prices hmono) with ⟨hshort, _⟩ | ⟨_, avgs, hinv, hval⟩
  · omega
  · rw [hval, if_pos hinv]

/-- C8: for every period `≥ 1` and every price buffer, of any length and with
any prices, `calculateRSI` returns a value, computed in exact arithmetic, in
the closed interval `[0, 100]`. -/
theorem calculateRSI_bounded (s : RSIStrategy) (hp : 1 ≤ s.config.Period) :
    ∃ r : ℚ, s.calculateRSI = some r ∧ 0 ≤ r ∧ r ≤ 100 := by
  have hP : (0 : ℚ) < (s.config.Period : ℚ) := by exact_mod_cast (by omega : 0 < s.config.Period)
  have hP1 : (0 : ℚ) ≤ ((s.config.Period - 1 : Int) : ℚ) := by
    exact_mod_cast (by omega : 0 ≤ s.config.Period - 1)
  rcases calculateRSI_inv s (by omega) (fun acc => 0 ≤ acc.1 ∧ 0 ≤ acc.2) (fun _ => True)
    ⟨le_rfl, le_rfl⟩
    (by
      intro acc c _ hacc
      unfold seedStep
      split_ifs with hc
      · exact ⟨add_nonneg hacc.1 hc, hacc.2⟩
      · have hc2 : c < 0 := not_le.mp hc
        exact ⟨hacc.1, sub_nonneg.mpr (by linarith [hacc.2])⟩)
    (by
      intro acc hacc
      exact ⟨div_nonneg hacc.1 hP.le, div_nonneg hacc.2 hP.le⟩)
    (by
      intro acc c _ hacc
      unfold smoothStep
      split_ifs with hc
      · exact ⟨div_nonneg (add_nonneg (mul_nonneg hacc.1 hP1) hc) hP.le,
          div_nonneg (mul_nonneg hacc.2 hP1) hP.le⟩
      · have hc2 : c < 0 := not_le.mp hc
        exact ⟨div_nonneg (mul_nonneg hacc.1 hP1) hP.le,
          div_nonneg (sub_nonneg.mpr (by linarith [mul_nonneg hacc.2 hP1])) hP.le⟩)
    (fun _ _ _ _ _ => trivial) with ⟨_, h50⟩ | ⟨_, avgs, hinv, hval⟩
  · exact ⟨50, h50, by norm_num, by norm_num⟩
  · by_cases hz : avgs.2 = 0
    · exact ⟨100, by rw [hval, if_pos hz], by norm_num, le_rfl⟩
    · refine ⟨_, by rw [hval, if_neg hz], ?_, ?_⟩
      · have hl : 0 < avgs.2 := lt_of_le_of_ne hinv.2 (Ne.symm hz)
        have hrs : 0 ≤ avgs.1 / avgs.2 := div_nonneg hinv.1 hl.le
        have h1 : (1 : ℚ) ≤ 1 + avgs.1 / avgs.2 := by linarith
        have : 100 / (1 + avgs.1 / avgs.2) ≤ 100 := by
          rw [div_le_iff₀ (by linarith)]
          nlinarith
        linarith
      · have hl : 0 < avgs.2 := lt_of_le_of_ne hinv.2 (Ne.symm hz)
        have hrs : 0 ≤ avgs.1 / avgs.2 := div_nonneg hinv.1 hl.le
        have : 0 ≤ 100 / (1 + avgs.1 / avgs.2) := div_nonneg (by norm_num) (by linarith)
        linarith

/-- C7: for every period `≥ 1` and every buffer of at least `period+1`
prices in which no price is lower than its predecessor, `calculateRSI`
returns exactly 100; so it does for the 15 prices 100, 101, ..., 114 with
period 14. -/
theorem calculateRSI_nondecreasing_eq_100 (s : RSIStrategy) (hp : 1 ≤ s.config.Period)
    (hlen : s.config.Period + 1 ≤ (s.prices.length : Int))
    (hmono : List.Chain' (fun a b => a ≤ b) s.prices) :
    s.calculateRSI = some 100 ∧ rsiSeedExample.calculateRSI = some 100 := by
  refine ⟨calculateRSI_of_nondecreasing s hp hlen hmono, ?_⟩
  apply calculateRSI_of_nondecreasing
  · simp [rsiSeedExample]
  · simp [rsiSeedExample]
  · simp only [rsiSeedExample, List.chain'_cons, List.chain'_singleton, and_true]
    norm_num

/-- C7 at the 15 prices 100, 101, ..., 114 with period 14. -/
theorem calculateRSI_nondecreasing_eq_100_witness :
    rsiSeedExample.calculateRSI = some 100 :=
  (calculateRSI_nondecreasing_eq_100 rsiSeedExample (by simp [rsiSeedExample])
    (by simp [rsiSeedExample])
    (by
      simp only [rsiSeedExample, List.chain'_cons, List.chain'_singleton, and_true]
      norm_num)).1

/-- C8 at a buffer with gains and losses: period 2 over 1, 3, 2, 5. -/
theorem calculateRSI_bounded_witness :
    ∃ r : ℚ, rsiMixedExample.calculateRSI = some r ∧ 0 ≤ r ∧ r ≤ 100 :=
  calculateRSI_bounded rsiMixedExample (by decide)

/-! ## RSI price history -/

/-- The buffer update leaves the configuration alone. -/
theorem pushPrice_config (s : RSIStrategy) (p : ℚ) : (s.pushPrice p).config = s.config := by
  unfold RSIStrategy.pushPrice
  dsimp only
  split_ifs <;> rfl

/-- The buffer update leaves the symbol alone. -/
theorem pushPrice_symbol (s : RSIStrategy) (p : ℚ) : (s.pushPrice p).symbol = s.symbol := by
  unfold RSIStrategy.pushPrice
  dsimp only
  split_ifs <;> rfl

/-- The buffer update leaves the last RSI alone. -/
theorem pushPrice_lastRSI (s : RSIStrategy) (p : ℚ) : (s.pushPrice p).lastRSI = s.lastRSI := by
  unfold RSIStrategy.pushPrice
  dsimp only
  split_ifs <;> rfl

/-- The buffer update leaves the debounce counter alone. -/
theorem pushPrice_signalCount (s : RSIStrategy) (p : ℚ) :
    (s.pushPrice p).signalCount = s.signalCount := by
  unfold RSIStrategy.pushPrice
  dsimp only
  split_ifs <;> rfl

/-- The buffer after the update. -/
theorem pushPrice_prices (s : RSIStrategy) (p : ℚ) :
    (s.pushPrice p).prices =
      if ((s.prices ++ [p]).length : Int) > s.config.Period * 3 then (s.prices ++ [p]).drop 1
      else s.prices ++ [p] := by
  unfold RSIStrategy.pushPrice
  dsimp only
  split_ifs <;> rfl

/-- For `Period ≥ 0`, `calculateRSI` returns. -/
theorem calculateRSI_isSome (s : RSIStrategy) (hp : 0 ≤ s.config.Period) :
    ∃ r : ℚ, s.calculateRSI = some r := by
  rcases calculateRSI_inv s hp (fun _ => True) (fun _ => True) trivial
    (fun _ _ _ _ => trivial) (fun _ _ => trivial) (fun _ _ _ _ => trivial)
    (fun _ _ _ _ _ => trivial) with ⟨_, h⟩ | ⟨_, avgs, _, h⟩
  · exact ⟨_, h⟩
  · exact ⟨_, h⟩

/-- For `Period ≥ 0`, `ProcessTick` returns, and the state it returns has
the updated buffer and the same configuration and symbol. -/
theorem RSIStrategy_ProcessTick_isSome (s : RSIStrategy) (tick : Tick)
    (hp : 0 ≤ s.config.Period) :
    ∃ (sig : Option Signal) (s1 : RSIStrategy), s.ProcessTick tick = some (sig, s1) ∧
      s1.prices = (s.pushPrice tick.Price).prices ∧ s1.config = s.config ∧
      s1.symbol = s.symbol := by
  have hc := pushPrice_config s tick.Price
  have hsy := pushPrice_symbol s tick.Price
  obtain ⟨r, hr⟩ := calculateRSI_isSome (s.pushPrice tick.Price) (by rw [hc]; exact hp)
  unfold RSIStrategy.ProcessTick
  simp only [hr]
  split_ifs <;> exact ⟨_, _, rfl, rfl, hc, hsy⟩

/-- C9: for every RSI strategy with `Period ≥ 0` whose history has at most
`3*Period` entries, a `ProcessTick` call returns a state whose history is the
old one with the tick's price appended and, only when that is longer than
`3*Period`, without its first entry; it has at most `3*Period` entries again.
Hence every run of consecutive calls returns and ends within the bound. -/
theorem RSIStrategy_ProcessTick_history_bound (s : RSIStrategy)
    (hp : 0 ≤ s.config.Period) (hlen : (s.prices.length : Int) ≤ 3 * s.config.Period) :
    (∀ tick : Tick, ∃ (sig : Option Signal) (s1 : RSIStrategy),
      s.ProcessTick tick = some (sig, s1) ∧ s1.config = s.config ∧
      s1.prices = (if ((s.prices ++ [tick.Price]).length : Int) > 3 * s.config.Period
        then (s.prices ++ [tick.Price]).drop 1 else s.prices ++ [tick.Price]) ∧
      (s1.prices.length : Int) ≤ 3 * s.config.Period) ∧
    (∀ ticks : List Tick, ∃ (sigs : List (Option Signal)) (s2 : RSIStrategy),
      s.runTicks ticks = some (sigs, s2) ∧ sigs.length = ticks.length ∧
      s2.config = s.config ∧ (s2.prices.length : Int) ≤ 3 * s.config.Period) := by
  have hstep : ∀ (s : RSIStrategy), 0 ≤ s.config.Period →
      (s.prices.length : Int) ≤ 3 * s.config.Period →
      ∀ tick : Tick, ∃ (sig : Option Signal) (s1 : RSIStrategy),
      s.ProcessTick tick = some (sig, s1) ∧ s1.config = s.config ∧
      s1.prices = (if ((s.prices ++ [tick.Price]).length : Int) > 3 * s.config.Period
        then (s.prices ++ [tick.Price]).drop 1 else s.prices ++ [tick.Price]) ∧
      (s1.prices.length : Int) ≤ 3 * s.config.Period := by
    intro s hp hlen tick
    obtain ⟨sig, s1, hrun, hprices, hcfg, _⟩ := RSIStrategy_ProcessTick_isSome s tick hp
    have hpp : s1.prices = (if ((s.prices ++ [tick.Price]).length : Int) > 3 * s.config.Period
        then (s.prices ++ [tick.Price]).drop 1 else s.prices ++ [tick.Price]) := by
      rw [hprices, pushPrice_prices, mul_comm]
    refine ⟨sig, s1, hrun, hcfg, hpp, ?_⟩
    rw [hpp]
    split_ifs with h
    · simp only [List.length_drop, List.length_append, List.length_singleton]
      omega
    · omega
  refine ⟨hstep s hp hlen, ?_⟩
  intro ticks
  induction ticks generalizing s with
  | nil => exact ⟨[], s, rfl, rfl, rfl, hlen⟩
  | cons t ts ih =>
    obtain ⟨sig, s1, hrun, hcfg, _, hb⟩ := hstep s hp hlen t
    obtain ⟨sigs, s2, hrun2, hl2, hcfg2, hb2⟩ := ih s1 (by rw [hcfg]; exact hp)
      (by rw [hcfg]; exact hb)
    refine ⟨sig :: sigs, s2, ?_, by simp [hl2], by rw [hcfg2, hcfg], by rw [← hcfg]; exact hb2⟩
    simp only [RSIStrategy.runTicks, hrun, hrun2]

/-- C9 at a full buffer: period 1 with the three prices 1, 2, 3 and a tick of price 4. -/
theorem RSIStrategy_ProcessTick_history_bound_witness :
    ∃ (sig : Option Signal) (s1 : RSIStrategy),
      rsiFullExample.ProcessTick (tickAt 4) = some (sig, s1) ∧
      s1.config = rsiFullExample.config ∧
      s1.prices = (if ((rsiFullExample.prices ++ [(tickAt 4).Price]).length : Int)
          > 3 * rsiFullExample.config.Period
        then (rsiFullExample.prices ++ [(tickAt 4).Price]).drop 1
        else rsiFullExample.prices ++ [(tickAt 4).Price]) ∧
      (s1.prices.length : Int) ≤ 3 * rsiFullExample.config.Period :=
  (RSIStrategy_ProcessTick_history_bound rsiFullExample (by decide) (by decide)).1 (tickAt 4)

/-! ## RSI debounce -/

/-- What `computedRSI` returning `r` says about the call. -/
theorem computedRSI_eq_some (s : RSIStrategy) (tick : Tick) (r : ℚ)
    (h : s.computedRSI tick = some r) :
    ¬ (((s.pushPrice tick.Price).prices.length : Int) < (s.pushPrice tick.Price).config.Period) ∧
    (s.pushPrice tick.Price).calculateRSI = some r := by
  unfold RSIStrategy.computedRSI at h
  dsimp only at h
  split_ifs at h with hlt
  exact ⟨hlt, h⟩

/-- A call that qualifies on the overbought side counts up; it returns a sell
and resets the counter when the count reaches `SignalConfirmation`, and
returns nothing otherwise. -/
theorem ProcessTick_of_sellQualifies (s : RSIStrategy) (tick : Tick)
    (h : s.sellQualifies tick = true) :
    ∃ s1 : RSIStrategy, s1.config = s.config ∧ s1.symbol = s.symbol ∧
      ((s.config.SignalConfirmation ≤ s.signalCount + 1 ∧
          s.ProcessTick tick = some (some { Symbol := s.symbol, Strategy := "RSI",
                                            Action := "sell", Price := tick.Price,
                                            Amount := 1 }, s1) ∧
          s1.signalCount = 0) ∨
       (s.signalCount + 1 < s.config.SignalConfirmation ∧
          s.ProcessTick tick = some (none, s1) ∧ s1.signalCount = s.signalCount + 1)) := by
  unfold RSIStrategy.sellQualifies at h
  cases hr : s.computedRSI tick with
  | none => rw [hr] at h; exact absurd h (by simp)
  | some r =>
    rw [hr] at h
    simp only [Bool.and_eq_true, decide_eq_true_eq] at h
    obtain ⟨hlen, hcalc⟩ := computedRSI_eq_some s tick r hr
    have hc := pushPrice_config s tick.Price
    have hsy := pushPrice_symbol s tick.Price
    have hl := pushPrice_lastRSI s tick.Price
    have hn := pushPrice_signalCount s tick.Price
    have hob : r ≥ (s.pushPrice tick.Price).config.OverboughtThreshold := by rw [hc]; exact h.1
    have hmc : |r - (s.pushPrice tick.Price).lastRSI|
        ≥ (s.pushPrice tick.Price).config.MinChange := by rw [hc, hl]; exact h.2
    by_cases hconf : s.config.SignalConfirmation ≤ s.signalCount + 1
    · have hconf2 : (s.pushPrice tick.Price).signalCount + 1
          ≥ (s.pushPrice tick.Price).config.SignalConfirmation := by rw [hc, hn]; exact hconf
      refine ⟨{ s.pushPrice tick.Price with lastRSI := r, signalCount := 0 }, ?_, ?_,
        Or.inl ⟨hconf, ?_, ?_⟩⟩
      rotate_left 2
      · unfold RSIStrategy.ProcessTick
        simp only [hlen, if_false, hcalc, hob, if_true, hmc, hconf2, RSIStrategy.sellSignal,
          RSIStrategy.Name, hsy]
      · rfl
      · exact hc
      · exact hsy
    · have hconf2 : ¬ (s.pushPrice tick.Price).signalCount + 1
          ≥ (s.pushPrice tick.Price).config.SignalConfirmation := by rw [hc, hn]; exact hconf
      refine ⟨{ s.pushPrice tick.Price with
          lastRSI := r, signalCount := (s.pushPrice tick.Price).signalCount + 1 }, ?_, ?_,
        Or.inr ⟨by omega, ?_, ?_⟩⟩
      rotate_left 2
      · unfold RSIStrategy.ProcessTick
        simp only [hlen, if_false, hcalc, hob, if_true, hmc, hconf2]
      · exact congrArg (· + 1) hn
      · exact hc
      · exact hsy

/-- A call that qualifies on the oversold side with an RSI below the
overbought threshold counts up; it returns a buy and resets the counter when
the count reaches `SignalConfirmation`, and returns nothing otherwise. -/
theorem ProcessTick_of_buyQualifies (s : RSIStrategy) (tick : Tick)
    (h : s.buyQualifies tick = true) (hbelow : s.belowOverbought tick = true) :
    ∃ s1 : RSIStrategy, s1.config = s.config ∧ s1.symbol = s.symbol ∧
      ((s.config.SignalConfirmation ≤ s.signalCount + 1 ∧
          s.ProcessTick tick = some (some { Symbol := s.symbol, Strategy := "RSI",
                                            Action := "buy", Price := tick.Price,
                                            Amount := 1 }, s1) ∧
          s1.signalCount = 0) ∨
       (s.signalCount + 1 < s.config.SignalConfirmation ∧
          s.ProcessTick tick = some (none, s1) ∧ s1.signalCount = s.signalCount + 1)) := by
  unfold RSIStrategy.buyQualifies at h
  unfold RSIStrategy.belowOverbought at hbelow
  cases hr : s.computedRSI tick with
  | none => rw [hr] at h; exact absurd h (by simp)
  | some r =>
    rw [hr] at h hbelow
    simp only [Bool.and_eq_true, decide_eq_true_eq] at h hbelow
    obtain ⟨hlen, hcalc⟩ := computedRSI_eq_some s tick r hr
    have hc := pushPrice_config s tick.Price
    have hsy := pushPrice_symbol s tick.Price
    have hl := pushPrice_lastRSI s tick.Price
    have hn := pushPrice_signalCount s tick.Price
    have hob : ¬ r ≥ (s.pushPrice tick.Price).config.OverboughtThreshold := by
      rw [hc]; exact not_le.mpr hbelow
    have hos : r ≤ (s.pushPrice tick.Price).config.OversoldThreshold := by rw [hc]; exact h.1
    have hmc : |r - (s.pushPrice tick.Price).lastRSI|
        ≥ (s.pushPrice tick.Price).config.MinChange := by rw [hc, hl]; exact h.2
    by_cases hconf : s.config.SignalConfirmation ≤ s.signalCount + 1
    · have hconf2 : (s.pushPrice tick.Price).signalCount + 1
          ≥ (s.pushPrice tick.Price).config.SignalConfirmation := by rw [hc, hn]; exact hconf
      refine ⟨{ s.pushPrice tick.Price with lastRSI := r, signalCount := 0 }, ?_, ?_,
        Or.inl ⟨hconf, ?_, ?_⟩⟩
      rotate_left 2
      · unfold RSIStrategy.ProcessTick
        simp only [hlen, if_false, hcalc, hob, hos, if_true, hmc, hconf2, RSIStrategy.buySignal,
          RSIStrategy.Name, hsy]
      · rfl
      · exact hc
      · exact hsy
    · have hconf2 : ¬ (s.pushPrice tick.Price).signalCount + 1
          ≥ (s.pushPrice tick.Price).config.SignalConfirmation := by rw [hc, hn]; exact hconf
      refine ⟨{ s.pushPrice tick.Price with
          lastRSI := r, signalCount := (s.pushPrice tick.Price).signalCount + 1 }, ?_, ?_,
        Or.inr ⟨by omega, ?_, ?_⟩⟩
      rotate_left 2
      · unfold RSIStrategy.ProcessTick
        simp only [hlen, if_false, hcalc, hob, hos, if_true, hmc, hconf2]
      · exact congrArg (· + 1) hn
      · exact hc
      · exact hsy

/-- A call whose RSI lies strictly between the thresholds returns
nothing and resets the counter. -/
theorem ProcessTick_of_neutral (s : RSIStrategy) (tick : Tick)
    (h : s.neutral tick = true) :
    ∃ s1 : RSIStrategy, s.ProcessTick tick = some (none, s1) ∧ s1.signalCount = 0 ∧
      s1.config = s.config := by
  unfold RSIStrategy.neutral at h
  cases hr : s.computedRSI tick with
  | none => rw [hr] at h; exact absurd h (by simp)
  | some r =>
    rw [hr] at h
    simp only [Bool.and_eq_true, decide_eq_true_eq] at h
    obtain ⟨hlen, hcalc⟩ := computedRSI_eq_some s tick r hr
    have hc := pushPrice_config s tick.Price
    have hob : ¬ r ≥ (s.pushPrice tick.Price).config.OverboughtThreshold := by
      rw [hc]; exact not_le.mpr h.2
    have hos : ¬ r ≤ (s.pushPrice tick.Price).config.OversoldThreshold := by
      rw [hc]; exact not_le.mpr h.1
    refine ⟨{ s.pushPrice tick.Price with lastRSI := r, signalCount := 0 }, ?_, ?_, ?_⟩
    rotate_left 1
    · rfl
    · exact hc
    · unfold RSIStrategy.ProcessTick
      simp only [hlen, if_false, hcalc, hob, hos]

/-- Debounce over a run: when every call satisfies a test `q` under which
`ProcessTick` counts up and emits the `action` signal once the count reaches
`SignalConfirmation`, a run of `init.length + 1` calls that ends exactly at the
confirmation count returns nothing on the calls of `init` and the signal, at
the last tick's price, on the last call; the counter is then 0. -/
theorem runTicks_debounce (q : RSIStrategy → Tick → Bool) (action : String)
    (hq : ∀ (s : RSIStrategy) (tick : Tick), q s tick = true →
      ∃ s1 : RSIStrategy, s1.config = s.config ∧ s1.symbol = s.symbol ∧
        ((s.config.SignalConfirmation ≤ s.signalCount + 1 ∧
            s.ProcessTick tick = some (some { Symbol := s.symbol, Strategy := "RSI",
                                              Action := action, Price := tick.Price,
                                              Amount := 1 }, s1) ∧
            s1.signalCount = 0) ∨
         (s.signalCount + 1 < s.config.SignalConfirmation ∧
            s.ProcessTick tick = some (none, s1) ∧ s1.signalCount = s.signalCount + 1)))
    (last : Tick) :
    ∀ (init : List Tick) (s : RSIStrategy),
      s.signalCount + (init.length : Int) + 1 = s.config.SignalConfirmation →
      s.allCalls q (init ++ [last]) = true →
      ∃ s1 : RSIStrategy,
        s.runTicks (init ++ [last]) =
          some (List.replicate init.length none ++
            [some { Symbol := s.symbol, Strategy := "RSI", Action := action,
                    Price := last.Price, Amount := 1 }], s1) ∧
        s1.signalCount = 0 := by
  intro init
  induction init with
  | nil =>
    intro s hcnt hall
    simp only [List.nil_append, RSIStrategy.allCalls, Bool.and_eq_true] at hall
    simp only [List.length_nil, Nat.cast_zero, add_zero] at hcnt
    obtain ⟨s1, _, _, hcase | hcase⟩ := hq s last hall.1
    · refine ⟨s1, ?_, hcase.2.2⟩
      simp only [List.nil_append, RSIStrategy.runTicks, hcase.2.1, List.length_nil,
        List.replicate_zero]
    · omega
  | cons t rest ih =>
    intro s hcnt hall
    simp only [List.cons_append, RSIStrategy.allCalls, Bool.and_eq_true] at hall
    simp only [List.length_cons, Nat.cast_add, Nat.cast_one] at hcnt
    obtain ⟨s1, hcfg, hsym, hcase | hcase⟩ := hq s t hall.1
    · omega
    · obtain ⟨_, hrun, hcount⟩ := hcase
      have hall2 := hall.2
      rw [hrun] at hall2
      obtain ⟨s2, hrun2, hzero⟩ := ih s1 (by rw [hcfg, hcount]; omega) hall2
      refine ⟨s2, ?_, hzero⟩
      rw [hsym] at hrun2
      have happ : rest.append [last] = rest ++ [last] := rfl
      simp only [List.cons_append, RSIStrategy.runTicks, hrun, happ, hrun2, List.length_cons,
        List.replicate_succ]

/-- C5, as the code has it: from a debounce counter 0 and with confirmation
count `n = init.length + 1 ≥ 1`, `n` consecutive `ProcessTick` calls each of
which computes an RSI `≥ overbought` with `|RSI - previous RSI| ≥ minChange`
return no signal on the first `n-1` calls and a sell at the tick's price on the
`n`-th, and the counter is 0 afterwards.  The same holds with a buy for calls
each of which computes an RSI `≤ oversold` that is also below the overbought
threshold. -/
theorem RSIStrategy_debounce (s : RSIStrategy) (init : List Tick) (last : Tick)
    (hcount : s.signalCount = 0)
    (hconf : s.config.SignalConfirmation = (init.length : Int) + 1) :
    (s.allCalls RSIStrategy.sellQualifies (init ++ [last]) = true →
      ∃ s1 : RSIStrategy,
        s.runTicks (init ++ [last]) =
          some (List.replicate init.length none ++
            [some { Symbol := s.symbol, Strategy := "RSI", Action := "sell",
                    Price := last.Price, Amount := 1 }], s1) ∧
        s1.signalCount = 0) ∧
    (s.allCalls (fun st t => st.buyQualifies t && st.belowOverbought t) (init ++ [last]) = true →
      ∃ s1 : RSIStrategy,
        s.runTicks (init ++ [last]) =
          some (List.replicate init.length none ++
            [some { Symbol := s.symbol, Strategy := "RSI", Action := "buy",
                    Price := last.Price, Amount := 1 }], s1) ∧
        s1.signalCount = 0) := by
  constructor
  · intro hall
    exact runTicks_debounce RSIStrategy.sellQualifies "sell" ProcessTick_of_sellQualifies last
      init s (by rw [hcount, hconf]; omega) hall
  · intro hall
    refine runTicks_debounce (fun st t => st.buyQualifies t && st.belowOverbought t) "buy" ?_
      last init s (by rw [hcount, hconf]; omega) hall
    intro st t hq
    simp only [Bool.and_eq_true] at hq
    exact ProcessTick_of_buyQualifies st t hq.1 hq.2

/-- C5 as amended, with confirmation 2: the ticks 100 and 101 after the price
99 both compute RSI 100; the first returns nothing, the second a sell at 101. -/
theorem RSIStrategy_debounce_witness :
    ∃ s1 : RSIStrategy,
      rsiDebounceExample.runTicks ([tickAt 100] ++ [tickAt 101]) =
        some (List.replicate [tickAt 100].length none ++
          [some { Symbol := rsiDebounceExample.symbol, Strategy := "RSI", Action := "sell",
                  Price := (tickAt 101).Price, Amount := 1 }], s1) ∧
      s1.signalCount = 0 :=
  (RSIStrategy_debounce rsiDebounceExample [tickAt 100] (tickAt 101) rfl rfl).1 (by decide!)

/-- C5 as stated fails on the oversold side: with overbought threshold 30,
oversold threshold 70 and confirmation 1, a call from counter 0 that computes
RSI 50 (at most the oversold threshold, change 50 at least `MinChange` 0)
returns a sell, not a buy. -/
theorem RSIStrategy_debounce_buy_counterexample :
    rsiOverlapExample.signalCount = 0 ∧
    rsiOverlapExample.config.SignalConfirmation = 1 ∧
    rsiOverlapExample.computedRSI (tickAt 100) = some 50 ∧
    rsiOverlapExample.allCalls RSIStrategy.buyQualifies [tickAt 100] = true ∧
    (∃ s1 : RSIStrategy, rsiOverlapExample.runTicks [tickAt 100] =
      some ([some { Symbol := "BTC-USDT-SWAP", Strategy := "RSI", Action := "sell",
                    Price := 100, Amount := 1 }], s1)) ∧
    ¬ (∃ s1 : RSIStrategy, rsiOverlapExample.runTicks [tickAt 100] =
      some ([some { Symbol := "BTC-USDT-SWAP", Strategy := "RSI", Action := "buy",
                    Price := 100, Amount := 1 }], s1)) := by
  have hrun : rsiOverlapExample.runTicks [tickAt 100] =
      some ([some { Symbol := "BTC-USDT-SWAP", Strategy := "RSI", Action := "sell",
                    Price := 100, Amount := 1 }],
            { rsiOverlapExample with prices := [100], lastRSI := 50 }) := by decide!
  refine ⟨rfl, rfl, by decide!, by decide!, ⟨_, hrun⟩, ?_⟩
  rintro ⟨s1, h⟩
  rw [hrun] at h
  have h2 : ("sell" : String) = "buy" :=
    congrArg Signal.Action (Option.some.inj (List.cons.inj (Prod.mk.inj (Option.some.inj h)).1).1)
  exact absurd h2 (by decide)

/-- A call that qualifies on the oversold side with an RSI that is not
below the overbought threshold qualifies on the overbought side. -/
theorem sellQualifies_of_buyQualifies (s : RSIStrategy) (tick : Tick)
    (h : s.buyQualifies tick = true) (hb : s.belowOverbought tick = false) :
    s.sellQualifies tick = true := by
  unfold RSIStrategy.buyQualifies at h
  unfold RSIStrategy.belowOverbought at hb
  unfold RSIStrategy.sellQualifies
  cases hr : s.computedRSI tick with
  | none => rw [hr] at h; exact absurd h (by simp)
  | some r =>
    rw [hr] at h hb
    simp only [Bool.and_eq_true, decide_eq_true_eq, decide_eq_false_iff_not, not_lt] at h hb ⊢
    exact ⟨hb, h.2⟩

/-- C6: whatever the debounce counter, a `ProcessTick` call whose computed
RSI lies strictly between the oversold and the overbought threshold returns no
signal and sets the counter to 0; hence with confirmation 2 and counter 0, a
single qualifying tick (on either side) returns nothing, and when the next
tick is neutral the two calls return nothing and leave the counter at 0. -/
theorem RSIStrategy_neutral_resets (s : RSIStrategy) (tick : Tick) :
    (s.neutral tick = true →
      ∃ s1 : RSIStrategy, s.ProcessTick tick = some (none, s1) ∧ s1.signalCount = 0) ∧
    (s.config.SignalConfirmation = 2 → s.signalCount = 0 →
      (s.sellQualifies tick = true ∨ s.buyQualifies tick = true) →
      ∃ s1 : RSIStrategy, s.ProcessTick tick = some (none, s1) ∧
        ∀ next : Tick, s1.neutral next = true →
          ∃ s2 : RSIStrategy, s.runTicks [tick, next] = some ([none, none], s2) ∧
            s2.signalCount = 0) := by
  constructor
  · intro h
    obtain ⟨s1, hrun, hzero, _⟩ := ProcessTick_of_neutral s tick h
    exact ⟨s1, hrun, hzero⟩
  · intro hconf hcount hq
    have hstep : ∃ s1 : RSIStrategy, s1.config = s.config ∧ s1.symbol = s.symbol ∧
        ((s.config.SignalConfirmation ≤ s.signalCount + 1 ∧
            (∃ sig : Signal, s.ProcessTick tick = some (some sig, s1)) ∧
            s1.signalCount = 0) ∨
         (s.signalCount + 1 < s.config.SignalConfirmation ∧
            s.ProcessTick tick = some (none, s1) ∧ s1.signalCount = s.signalCount + 1)) := by
      have hsell : s.sellQualifies tick = true →
          ∃ s1 : RSIStrategy, s1.config = s.config ∧ s1.symbol = s.symbol ∧
            ((s.config.SignalConfirmation ≤ s.signalCount + 1 ∧
                (∃ sig : Signal, s.ProcessTick tick = some (some sig, s1)) ∧
                s1.signalCount = 0) ∨
             (s.signalCount + 1 < s.config.SignalConfirmation ∧
                s.ProcessTick tick = some (none, s1) ∧
                s1.signalCount = s.signalCount + 1)) := fun h => by
        obtain ⟨s1, h1, h2, h3 | h3⟩ := ProcessTick_of_sellQualifies s tick h
        · exact ⟨s1, h1, h2, Or.inl ⟨h3.1, ⟨_, h3.2.1⟩, h3.2.2⟩⟩
        · exact ⟨s1, h1, h2, Or.inr h3⟩
      rcases hq with h | h
      · exact hsell h
      · cases hb : s.belowOverbought tick with
        | false => exact hsell (sellQualifies_of_buyQualifies s tick h hb)
        | true =>
          obtain ⟨s1, h1, h2, h3 | h3⟩ := ProcessTick_of_buyQualifies s tick h hb
          · exact ⟨s1, h1, h2, Or.inl ⟨h3.1, ⟨_, h3.2.1⟩, h3.2.2⟩⟩
          · exact ⟨s1, h1, h2, Or.inr h3⟩
    obtain ⟨s1, _, _, hcase | hcase⟩ := hstep
    · omega
    · refine ⟨s1, hcase.2.1, ?_⟩
      intro next hn
      obtain ⟨s2, hrun2, hzero, _⟩ := ProcessTick_of_neutral s1 next hn
      refine ⟨s2, ?_, hzero⟩
      simp only [RSIStrategy.runTicks, hcase.2.1, hrun2]

/-- C6 at period 2 over the prices 1, 2: the tick 3 computes RSI 100 and
qualifies, the tick 2 after it computes RSI 50 and is neutral; nothing is
returned and the counter ends at 0. -/
theorem RSIStrategy_neutral_resets_witness :
    ∃ s2 : RSIStrategy, rsiNeutralExample.runTicks [tickAt 3, tickAt 2]
      = some ([none, none], s2) ∧ s2.signalCount = 0 := by
  obtain ⟨s1, h1, h2⟩ := (RSIStrategy_neutral_resets rsiNeutralExample (tickAt 3)).2 rfl rfl
    (Or.inl (by decide!))
  have hstep : rsiNeutralExample.ProcessTick (tickAt 3) = some (none,
      { rsiNeutralExample with prices := [1, 2, 3], lastRSI := 100, signalCount := 1 }) := by
    decide!
  rw [hstep] at h1
  have hs1 := (Prod.mk.inj (Option.some.inj h1)).2
  exact h2 (tickAt 2) (by rw [← hs1]; decide!)

/-! ## Range-entry hysteresis -/

/-- The reset test of `updateMarketData` is the negation of its band test. -/
theorem reset_iff_not_inEntryRange (r : EntryRange) (p : ℚ) :
    (p < r.Min ∨ p > r.Max) ↔ inEntryRange r p = false := by
  unfold inEntryRange
  rw [Bool.and_eq_false_iff, decide_eq_false_iff_not, decide_eq_false_iff_not, not_le, not_le]

/-- One tick, long side enabled: a long signal is sent exactly when the
price is in the band and the flag was clear, and the flag afterwards tells
whether the price is in the band. -/
theorem rangeEntryTick_long (config : Config) (symbol : String) (flags : EntryFlags) (p : ℚ)
    (hen : config.LongPosition.Enabled = true) :
    signalsOf "LongPosition" (rangeEntryTick config symbol flags p).1 =
      (if inEntryRange config.LongPosition.EntryRange p = true ∧ flags.lastLongEntry = false
       then [{ Symbol := symbol, Strategy := "LongPosition", Action := "buy", Price := p,
               Amount := (config.LongPosition.PositionSize : ℚ) }]
       else []) ∧
    (rangeEntryTick config symbol flags p).2.lastLongEntry
      = inEntryRange config.LongPosition.EntryRange p := by
  have hr := reset_iff_not_inEntryRange config.LongPosition.EntryRange p
  unfold rangeEntryTick signalsOf
  cases hin : inEntryRange config.LongPosition.EntryRange p <;>
    cases hfl : flags.lastLongEntry <;>
    cases hsen : config.ShortPosition.Enabled <;>
    cases hsfl : flags.lastShortEntry <;>
    cases hsin : inEntryRange config.ShortPosition.EntryRange p <;>
    simp [hen, hin, hr, List.filter]

/-- One tick, short side enabled: a short signal is sent exactly when the
price is in the band and the flag was clear, and the flag afterwards tells
whether the price is in the band. -/
theorem rangeEntryTick_short (config : Config) (symbol : String) (flags : EntryFlags) (p : ℚ)
    (hen : config.ShortPosition.Enabled = true) :
    signalsOf "ShortPosition" (rangeEntryTick config symbol flags p).1 =
      (if inEntryRange config.ShortPosition.EntryRange p = true ∧ flags.lastShortEntry = false
       then [{ Symbol := symbol, Strategy := "ShortPosition", Action := "sell", Price := p,
               Amount := (config.ShortPosition.PositionSize : ℚ) }]
       else []) ∧
    (rangeEntryTick config symbol flags p).2.lastShortEntry
      = inEntryRange config.ShortPosition.EntryRange p := by
  have hr := reset_iff_not_inEntryRange config.ShortPosition.EntryRange p
  unfold rangeEntryTick signalsOf
  cases hin : inEntryRange config.ShortPosition.EntryRange p <;>
    cases hfl : flags.lastShortEntry <;>
    cases hlen : config.LongPosition.Enabled <;>
    cases hlfl : flags.lastLongEntry <;>
    cases hlin : inEntryRange config.LongPosition.EntryRange p <;>
    simp [hen, hin, hr, List.filter]

/-- One list of signals per tick. -/
theorem rangeEntryRun_length (config : Config) (symbol : String) (prices : List ℚ) :
    ∀ flags : EntryFlags, (rangeEntryRun config symbol flags prices).length = prices.length := by
  induction prices with
  | nil => intro _; rfl
  | cons p ps ih =>
    intro flags
    simp only [rangeEntryRun, List.length_cons, ih]

/-- Hysteresis of one side over a run of ticks, from any flags: given the
one-tick behaviour of the side (a signal exactly when the price is in the band
and the flag is clear; the flag then tells whether the price is in the band),
the signal of the side is sent at tick `k` exactly when the price is in the
band and the flag was clear at the start (`k = 0`) or the previous price was
outside the band (`k > 0`). -/
theorem rangeEntryRun_side (config : Config) (symbol : String) (name : String)
    (band : ℚ → Bool) (flagOf : EntryFlags → Bool) (sigOf : ℚ → Signal)
    (hstep : ∀ (flags : EntryFlags) (p : ℚ),
      signalsOf name (rangeEntryTick config symbol flags p).1 =
        (if band p = true ∧ flagOf flags = false then [sigOf p] else []) ∧
      flagOf (rangeEntryTick config symbol flags p).2 = band p) :
    ∀ (prices : List ℚ) (flags : EntryFlags) (k : Nat) (p : ℚ), prices[k]? = some p →
      ∃ sigs : List Signal, (rangeEntryRun config symbol flags prices)[k]? = some sigs ∧
        signalsOf name sigs =
          if (band p && (if k = 0 then !flagOf flags else
                match prices[k - 1]? with
                | some q => !band q
                | none => false)) = true
          then [sigOf p] else [] := by
  intro prices
  induction prices with
  | nil =>
    intro flags k p hk
    simp at hk
  | cons p0 ps ih =>
    intro flags k p hk
    cases k with
    | zero =>
      simp only [List.getElem?_cons_zero, Option.some.injEq] at hk
      subst hk
      refine ⟨(rangeEntryTick config symbol flags p0).1, by simp [rangeEntryRun], ?_⟩
      rw [(hstep flags p0).1]
      cases band p0 <;> cases flagOf flags <;> simp
    | succ k1 =>
      simp only [List.getElem?_cons_succ] at hk
      obtain ⟨sigs, hrun, hsig⟩ := ih (rangeEntryTick config symbol flags p0).2 k1 p hk
      refine ⟨sigs, by simpa [rangeEntryRun] using hrun, ?_⟩
      rw [hsig, (hstep flags p0).2]
      cases k1 with
      | zero => simp
      | succ k2 => simp

/-- C10: in one symbol's polling loop with the long side enabled and the long
flag clear at the start, the long-entry buy signal (price of the tick, size
`PositionSize`) is sent at tick `k` if and only if the price lies in
`[min, max]` and `k` is the first tick or the previous price was outside the
band; two ticks that both send it are separated by a tick outside the band, so
a maximal run of in-band ticks sends at most one.  The short side does the
same with its band and sell signals.  With band `[30000,30100]` the prices
30050, 30050, 29900, 30050 give a buy at ticks 1 and 4 and nothing else. -/
theorem rangeEntry_hysteresis (config : Config) (symbol : String) (flags : EntryFlags)
    (prices : List ℚ) (hen : config.LongPosition.Enabled = true)
    (hfl : flags.lastLongEntry = false) :
    (∀ (k : Nat) (p : ℚ), prices[k]? = some p →
      ∃ sigs : List Signal, (rangeEntryRun config symbol flags prices)[k]? = some sigs ∧
        signalsOf "LongPosition" sigs =
          if entersBand (inEntryRange config.LongPosition.EntryRange) prices k = true
          then [{ Symbol := symbol, Strategy := "LongPosition", Action := "buy", Price := p,
                  Amount := (config.LongPosition.PositionSize : ℚ) }]
          else []) ∧
    (∀ (i j : Nat) (si sj : List Signal), i < j →
      (rangeEntryRun config symbol flags prices)[i]? = some si →
      (rangeEntryRun config symbol flags prices)[j]? = some sj →
      signalsOf "LongPosition" si ≠ [] → signalsOf "LongPosition" sj ≠ [] →
      ∃ (k : Nat) (q : ℚ), i < k ∧ k < j ∧ prices[k]? = some q ∧
        inEntryRange config.LongPosition.EntryRange q = false) ∧
    (config.ShortPosition.Enabled = true → flags.lastShortEntry = false →
      ∀ (k : Nat) (p : ℚ), prices[k]? = some p →
      ∃ sigs : List Signal, (rangeEntryRun config symbol flags prices)[k]? = some sigs ∧
        signalsOf "ShortPosition" sigs =
          if entersBand (inEntryRange config.ShortPosition.EntryRange) prices k = true
          then [{ Symbol := symbol, Strategy := "ShortPosition", Action := "sell", Price := p,
                  Amount := (config.ShortPosition.PositionSize : ℚ) }]
          else []) ∧
    rangeEntryRun rangeExampleConfig "BTC-USDT-SWAP"
        { lastLongEntry := false, lastShortEntry := false } [30050, 30050, 29900, 30050] =
      [[{ Symbol := "BTC-USDT-SWAP", Strategy := "LongPosition", Action := "buy",
          Price := 30050, Amount := 1 }], [], [],
       [{ Symbol := "BTC-USDT-SWAP", Strategy := "LongPosition", Action := "buy",
          Price := 30050, Amount := 1 }]] := by
  -- the condition of the run lemma, from clear flags, is the specification's condition
  have hcond : ∀ (band : ℚ → Bool) (fl : Bool) (k : Nat) (p : ℚ), fl = false →
      prices[k]? = some p →
      (band p && (if k = 0 then !fl else
        match prices[k - 1]? with
        | some q => !band q
        | none => false)) = entersBand band prices k := by
    intro band fl k p hz hk
    unfold entersBand
    rw [hk, hz]
    cases k with
    | zero => simp
    | succ k1 => simp
  have hlong : ∀ (k : Nat) (p : ℚ), prices[k]? = some p →
      ∃ sigs : List Signal, (rangeEntryRun config symbol flags prices)[k]? = some sigs ∧
        signalsOf "LongPosition" sigs =
          if entersBand (inEntryRange config.LongPosition.EntryRange) prices k = true
          then [{ Symbol := symbol, Strategy := "LongPosition", Action := "buy", Price := p,
                  Amount := (config.LongPosition.PositionSize : ℚ) }]
          else [] := by
    intro k p hk
    obtain ⟨sigs, hrun, hsig⟩ := rangeEntryRun_side config symbol "LongPosition"
      (inEntryRange config.LongPosition.EntryRange) EntryFlags.lastLongEntry
      (fun p => { Symbol := symbol, Strategy := "LongPosition", Action := "buy", Price := p,
                  Amount := (config.LongPosition.PositionSize : ℚ) })
      (fun fl p => rangeEntryTick_long config symbol fl p hen) prices flags k p hk
    rw [hcond _ _ k p hfl hk] at hsig
    exact ⟨sigs, hrun, hsig⟩
  refine ⟨hlong, ?_, ?_, by decide!⟩
  · intro i j si sj hij hi hj hsi hsj
    have hlen := rangeEntryRun_length config symbol prices flags
    have hjlt : j < prices.length := by
      rw [← hlen]
      by_contra hcon
      rw [List.getElem?_eq_none (by omega)] at hj
      exact Option.noConfusion hj
    have hilt : i < prices.length := by omega
    obtain ⟨s1, hr1, hs1⟩ := hlong i prices[i] (List.getElem?_eq_getElem hilt)
    obtain ⟨s2, hr2, hs2⟩ := hlong j prices[j] (List.getElem?_eq_getElem hjlt)
    rw [hi] at hr1
    rw [hj] at hr2
    rw [← Option.some.inj hr1] at hs1
    rw [← Option.some.inj hr2] at hs2
    have hei : entersBand (inEntryRange config.LongPosition.EntryRange) prices i = true := by
      by_contra hcon
      rw [if_neg hcon] at hs1
      exact hsi hs1
    have hej : entersBand (inEntryRange config.LongPosition.EntryRange) prices j = true := by
      by_contra hcon
      rw [if_neg hcon] at hs2
      exact hsj hs2
    unfold entersBand at hei hej
    rw [List.getElem?_eq_getElem hilt] at hei
    rw [List.getElem?_eq_getElem hjlt] at hej
    have hj1 : j - 1 < prices.length := by omega
    rw [List.getElem?_eq_getElem hj1] at hej
    simp only [Bool.and_eq_true, Bool.or_eq_true, beq_iff_eq, Bool.not_eq_true'] at hei hej
    have hprev : inEntryRange config.LongPosition.EntryRange prices[j - 1] = false := by
      rcases hej.2 with h0 | h
      · omega
      · exact h
    refine ⟨j - 1, prices[j - 1], ?_, by omega, List.getElem?_eq_getElem hj1, hprev⟩
    have hne : i ≠ j - 1 := by
      intro h
      subst h
      rw [hei.1] at hprev
      exact Bool.noConfusion hprev
    omega
  · intro hsen hsfl k p hk
    obtain ⟨sigs, hrun, hsig⟩ := rangeEntryRun_side config symbol "ShortPosition"
      (inEntryRange config.ShortPosition.EntryRange) EntryFlags.lastShortEntry
      (fun p => { Symbol := symbol, Strategy := "ShortPosition", Action := "sell", Price := p,
                  Amount := (config.ShortPosition.PositionSize : ℚ) })
      (fun fl p => rangeEntryTick_short config symbol fl p hsen) prices flags k p hk
    rw [hcond _ _ k p hsfl hk] at hsig
    exact ⟨sigs, hrun, hsig⟩

/-- C10 at the example: band `[30000,30100]`, prices 30050, 30050, 29900,
30050; the fourth tick sends the long-entry buy again. -/
theorem rangeEntry_hysteresis_witness :
    ∃ sigs : List Signal,
      (rangeEntryRun rangeExampleConfig "BTC-USDT-SWAP"
        { lastLongEntry := false, lastShortEntry := false }
        [30050, 30050, 29900, 30050])[3]? = some sigs ∧
      signalsOf "LongPosition" sigs =
        if entersBand (inEntryRange rangeExampleConfig.LongPosition.EntryRange)
            [30050, 30050, 29900, 30050] 3 = true
        then [{ Symbol := "BTC-USDT-SWAP", Strategy := "LongPosition", Action := "buy",
                Price := 30050,
                Amount := (rangeExampleConfig.LongPosition.PositionSize : ℚ) }]
        else [] :=
  (rangeEntry_hysteresis rangeExampleConfig "BTC-USDT-SWAP"
    { lastLongEntry := false, lastShortEntry := false } [30050, 30050, 29900, 30050]
    rfl rfl).1 3 30050 (by decide!)

/-! ## Retry policy -/

/-- The state after `i+1` invocations is the state after `i` invocations
from the state after the first. -/
theorem stateAfter_succ_first {σ α : Type} (operation : σ → α × σ) (s : σ) (i : Nat) :
    stateAfter operation s (i + 1) = stateAfter operation (operation s).2 i := by
  induction i with
  | zero => rfl
  | succ j ih =>
    show (operation (stateAfter operation s (j + 1))).2 = _
    rw [ih]
    rfl

/-- Invocation `i+1` from a state is invocation `i` from the state after the
first invocation. -/
theorem errorAt_succ_first {σ : Type} (operation : σ → Option String × σ) (s : σ) (i : Nat) :
    errorAt operation s (i + 1) = errorAt operation (operation s).2 i := by
  unfold errorAt
  rw [stateAfter_succ_first]

/-- A temporary error is an error. -/
theorem isSome_of_IsTemporaryError (err : Option String)
    (h : api.IsTemporaryError err = true) : ∃ msg : String, err = some msg := by
  cases err with
  | none => exact absurd h (by simp [api.IsTemporaryError])
  | some msg => exact ⟨msg, rfl⟩

/-- One turn of the loop of `api.RetryOperation` on a counted operation whose
invocation fails with a temporary error: the loop goes on from the next state,
with that error as the last one. -/
theorem api_loop_step_temporary {σ : Type} (operation : σ → Option String × σ)
    (config : RetryConfig) (fuel : Nat) (lastErr : Option String) (s : σ) (c : Nat)
    (h : api.IsTemporaryError (errorAt operation s 0) = true) :
    api.RetryOperation.loop (counting operation) config (fuel + 1) lastErr (s, c) =
      api.RetryOperation.loop (counting operation) config fuel (errorAt operation s 0)
        ((operation s).2, c + 1) := by
  obtain ⟨msg, hmsg⟩ := isSome_of_IsTemporaryError _ h
  have hop : (operation s).1 = some msg := hmsg
  have hcount : counting operation (s, c) = (some msg, ((operation s).2, c + 1)) := by
    simp [counting, hop]
  have ht : api.IsTemporaryError (some msg) = true := by rw [← hmsg]; exact h
  rw [api.RetryOperation.loop, hcount]
  simp only [ht, Bool.not_true, Bool.false_eq_true, if_false, hmsg]

/-- The loop of `api.RetryOperation` on a counted operation that fails with
temporary errors `k` times and then succeeds, with more than `k` iterations
left: the result is `nil` after `k+1` further invocations. -/
theorem api_loop_success {σ : Type} (operation : σ → Option String × σ)
    (config : RetryConfig) :
    ∀ (k fuel : Nat) (lastErr : Option String) (s : σ) (c : Nat), k < fuel →
      (∀ i : Nat, i < k → api.IsTemporaryError (errorAt operation s i) = true) →
      errorAt operation s k = none →
      api.RetryOperation.loop (counting operation) config fuel lastErr (s, c) =
        (none, (stateAfter operation s (k + 1), c + (k + 1))) := by
  intro k
  induction k with
  | zero =>
    intro fuel lastErr s c hk _ hok
    obtain ⟨f, rfl⟩ : ∃ f, fuel = f + 1 := ⟨fuel - 1, by omega⟩
    have hop : (operation s).1 = none := hok
    have hcount : counting operation (s, c) = (none, ((operation s).2, c + 1)) := by
      simp [counting, hop]
    rw [api.RetryOperation.loop, hcount]
    rfl
  | succ k ih =>
    intro fuel lastErr s c hk htemp hok
    obtain ⟨f, rfl⟩ : ∃ f, fuel = f + 1 := ⟨fuel - 1, by omega⟩
    rw [api_loop_step_temporary operation config f lastErr s c (htemp 0 (by omega)),
      ih f _ (operation s).2 (c + 1) (by omega)
        (fun i hi => by rw [← errorAt_succ_first]; exact htemp (i + 1) (by omega))
        (by rw [← errorAt_succ_first]; exact hok),
      ← stateAfter_succ_first]
    congr 2
    omega

/-- The loop of `api.RetryOperation` on a counted operation all of whose
remaining invocations fail with temporary errors: every iteration invokes the
operation and the last error is wrapped. -/
theorem api_loop_exhausted {σ : Type} (operation : σ → Option String × σ)
    (config : RetryConfig) :
    ∀ (fuel : Nat) (lastErr : Option String) (s : σ) (c : Nat),
      (∀ i : Nat, i < fuel → api.IsTemporaryError (errorAt operation s i) = true) →
      api.RetryOperation.loop (counting operation) config fuel lastErr (s, c) =
        (some ("达到最大重试次数 (" ++ toString config.MaxRetries ++ "): " ++
            errorText (if fuel = 0 then lastErr else errorAt operation s (fuel - 1))),
          (stateAfter operation s fuel, c + fuel)) := by
  intro fuel
  induction fuel with
  | zero =>
    intro lastErr s c _
    rfl
  | succ f ih =>
    intro lastErr s c htemp
    rw [api_loop_step_temporary operation config f lastErr s c (htemp 0 (by omega)),
      ih _ (operation s).2 (c + 1)
        (fun i hi => by rw [← errorAt_succ_first]; exact htemp (i + 1) (by omega)),
      ← stateAfter_succ_first]
    have hc : c + 1 + f = c + (f + 1) := by omega
    rw [hc]
    cases f with
    | zero => rfl
    | succ g =>
      simp only [Nat.add_one_ne_zero, if_false, Nat.add_sub_cancel]
      rw [← errorAt_succ_first]

/-- C11: for `api.RetryOperation` with `MaxRetries = n ≥ 1` and an operation
that fails with temporary errors on its first `k < n` invocations and succeeds
on invocation `k+1`, the result is `nil` and the operation is invoked exactly
`k+1` times; two failures with "timeout" followed by a success with
`MaxRetries = 3` return `nil` after three invocations. -/
theorem api_RetryOperation_success_after_temporary {σ : Type}
    (operation : σ → Option String × σ) (config : RetryConfig) (s : σ) (n k : Nat)
    (hn : 1 ≤ n) (hcfg : config.MaxRetries = (n : Int)) (hk : k < n)
    (htemp : ∀ i : Nat, i < k → api.IsTemporaryError (errorAt operation s i) = true)
    (hok : errorAt operation s k = none) :
    api.RetryOperation (counting operation) config (s, 0) =
      (none, (stateAfter operation s (k + 1), k + 1)) ∧
    api.RetryOperation timeoutTwice { MaxRetries := 3, DelayMillis := 1000 } 0 = (none, 3) := by
  constructor
  · unfold api.RetryOperation
    have hfuel : config.MaxRetries.toNat = n := by rw [hcfg]; omega
    rw [hfuel, api_loop_success operation config k n none s 0 hk htemp hok]
    simp
  · decide!

/-- C11 at the script "timeout", "timeout", success with `MaxRetries = 3`. -/
theorem api_RetryOperation_success_after_temporary_witness :
    api.RetryOperation (counting timeoutTwice) { MaxRetries := 3, DelayMillis := 1000 } (0, 0) =
      (none, (stateAfter timeoutTwice 0 (2 + 1), 2 + 1)) :=
  (api_RetryOperation_success_after_temporary timeoutTwice
    { MaxRetries := 3, DelayMillis := 1000 } 0 3 2 (by decide) rfl (by decide)
    (by
      intro i hi
      have h : i = 0 ∨ i = 1 := by omega
      rcases h with rfl | rfl <;> decide!)
    (by decide!)).1

/-- C12: for `api.RetryOperation` with `MaxRetries ≥ 1`, when the first
invocation fails with an error whose lower-cased message contains none of
"upgrading", "try again", "timeout", "too many requests" (so `IsTemporaryError`
is false), that same error is returned and the operation is invoked exactly
once. -/
theorem api_RetryOperation_permanent_error {σ : Type}
    (operation : σ → Option String × σ) (config : RetryConfig) (s : σ) (msg : String)
    (hn : 1 ≤ config.MaxRetries)
    (hfail : errorAt operation s 0 = some msg)
    (h1 : strings.Contains (strings.ToLower msg) "upgrading" = false)
    (h2 : strings.Contains (strings.ToLower msg) "try again" = false)
    (h3 : strings.Contains (strings.ToLower msg) "timeout" = false)
    (h4 : strings.Contains (strings.ToLower msg) "too many requests" = false) :
    api.IsTemporaryError (some msg) = false ∧
    api.RetryOperation (counting operation) config (s, 0) =
      (some msg, (stateAfter operation s 1, 1)) := by
  have hnt : api.IsTemporaryError (some msg) = false := by
    simp [api.IsTemporaryError, h1, h2, h3, h4]
  refine ⟨hnt, ?_⟩
  obtain ⟨f, hf⟩ : ∃ f, config.MaxRetries.toNat = f + 1 :=
    ⟨config.MaxRetries.toNat - 1, by omega⟩
  have hop : (operation s).1 = some msg := hfail
  have hcount : counting operation (s, 0) = (some msg, ((operation s).2, 0 + 1)) := by
    simp [counting, hop]
  unfold api.RetryOperation
  rw [hf, api.RetryOperation.loop, hcount]
  simp only [hnt, Bool.not_false, if_true]
  rfl

/-- C12 at an operation that always fails with "bad request" and `MaxRetries = 3`. -/
theorem api_RetryOperation_permanent_error_witness :
    api.RetryOperation (counting (scripted (fun _ => some "bad request")))
        { MaxRetries := 3, DelayMillis := 1000 } (0, 0) =
      (some "bad request", (stateAfter (scripted (fun _ => some "bad request")) 0 1, 1)) :=
  (api_RetryOperation_permanent_error (scripted (fun _ => some "bad request"))
    { MaxRetries := 3, DelayMillis := 1000 } 0 "bad request" (by decide) rfl
    (by decide!) (by decide!) (by decide!) (by decide!)).2

/-- C13: for `api.RetryOperation` with `MaxRetries = n ≥ 1` and an operation
that fails with a temporary error on every invocation, the operation is
invoked exactly `n` times and the result is a non-nil error whose message is
the retry banner followed by the message of the error of the last
invocation. -/
theorem api_RetryOperation_exhausted {σ : Type}
    (operation : σ → Option String × σ) (config : RetryConfig) (s : σ) (n : Nat)
    (hn : 1 ≤ n) (hcfg : config.MaxRetries = (n : Int))
    (hall : ∀ i : Nat, i < n → api.IsTemporaryError (errorAt operation s i) = true) :
    ∃ last : String, errorAt operation s (n - 1) = some last ∧
      api.RetryOperation (counting operation) config (s, 0) =
        (some ("达到最大重试次数 (" ++ toString (n : Int) ++ "): " ++ last),
          (stateAfter operation s n, n)) := by
  obtain ⟨last, hlast⟩ := isSome_of_IsTemporaryError _ (hall (n - 1) (by omega))
  refine ⟨last, hlast, ?_⟩
  unfold api.RetryOperation
  have hfuel : config.MaxRetries.toNat = n := by rw [hcfg]; omega
  rw [hfuel, api_loop_exhausted operation config n none s 0 hall,
    if_neg (by omega : ¬ n = 0), hlast, hcfg]
  simp [errorText]

/-- C13 at an operation that always fails with "timeout" and `MaxRetries = 3`. -/
theorem api_RetryOperation_exhausted_witness :
    ∃ last : String, errorAt (scripted (fun _ => some "timeout")) 0 (3 - 1) = some last ∧
      api.RetryOperation (counting (scripted (fun _ => some "timeout")))
          { MaxRetries := 3, DelayMillis := 1000 } (0, 0) =
        (some ("达到最大重试次数 (" ++ toString ((3 : Nat) : Int) ++ "): " ++ last),
          (stateAfter (scripted (fun _ => some "timeout")) 0 3, 3)) :=
  api_RetryOperation_exhausted (scripted (fun _ => some "timeout"))
    { MaxRetries := 3, DelayMillis := 1000 } 0 3 (by decide) rfl
    (fun i _ => by
      have h : errorAt (scripted (fun _ => some "timeout")) 0 i = some "timeout" := rfl
      rw [h]
      decide!)

/-- Three failed attempts, whatever their errors: `sendRequest` makes all three
and returns the error of the third; the classification of the errors plays no
part. -/
theorem sendRequest_three_attempts {σ : Type} (doRequest : Attempt σ) (s : σ)
    (m0 m1 m2 : String)
    (h0 : (doRequest s).1 = Except.error m0)
    (h1 : (doRequest (doRequest s).2).1 = Except.error m1)
    (h2 : (doRequest (doRequest (doRequest s).2).2).1 = Except.error m2) :
    OKXClient.sendRequest (counting doRequest) (s, 0) =
      ((none, some m2), ((doRequest (doRequest (doRequest s).2).2).2, 3)) := by
  have hfuel : utils.DefaultRetryConfig.MaxRetries.toNat = 3 := rfl
  unfold OKXClient.sendRequest OKXClient.sendRequestWithRetry utils.RetryOperation
  simp only [hfuel, utils.RetryOperation.loop, counting, h0, h1, h2]

/-- After a failed first attempt, whatever its error, `sendRequest` makes a
second attempt; when that one succeeds its response is returned. -/
theorem sendRequest_second_attempt {σ : Type} (doRequest : Attempt σ) (s : σ)
    (m0 body : String)
    (h0 : (doRequest s).1 = Except.error m0)
    (h1 : (doRequest (doRequest s).2).1 = Except.ok body) :
    OKXClient.sendRequest (counting doRequest) (s, 0) =
      ((some body, none), ((doRequest (doRequest s).2).2, 2)) := by
  have hfuel : utils.DefaultRetryConfig.MaxRetries.toNat = 3 := rfl
  unfold OKXClient.sendRequest OKXClient.sendRequestWithRetry utils.RetryOperation
  simp only [hfuel, utils.RetryOperation.loop, counting, h0, h1]

/-- C14 fails on the code: a request whose attempts fail with "dial tcp:
connection refused", an error that `IsTemporaryError` classifies as not
temporary, is attempted three times by `sendRequest` before the error is
returned. -/
theorem sendRequest_retries_permanent_failure :
    api.IsTemporaryError (some "dial tcp: connection refused") = false ∧
    OKXClient.sendRequest (counting refusedAttempt) ((), 0) =
      ((none, some "dial tcp: connection refused"), ((), 3)) := by
  decide!

/-! ## Balance check -/

/-- The result of `checkBalance` in terms of what was fetched: the world is
the one after the fetch, and the error is decided by the fetched balances, the
reserve and the required amount. -/
theorem checkBalance_eq {σ : Type} (e : Engine σ) (required : ℚ) (w : World σ) :
    e.checkBalance required w =
      ((match (e.api.GetBalances w.state).1 with
        | Except.error err => some ("获取余额失败: " ++ err)
        | Except.ok balances =>
          match (match firstUSDT balances with
                 | none => Except.ok 0
                 | some balance => e.lib.ParseFloat balance.Available) with
          | Except.error err => some ("解析USDT余额失败: " ++ err)
          | Except.ok usdtBalance =>
            if usdtBalance - e.config.ReserveBalance < required then
              some ("可用USDT余额不足: 需要 " ++ e.lib.FormatFloat required 2 ++
                " USDT, 实际可用 " ++
                e.lib.FormatFloat (usdtBalance - e.config.ReserveBalance) 2 ++
                " USDT (总余额: " ++ e.lib.FormatFloat usdtBalance 2 ++
                " USDT, 预留: " ++ e.lib.FormatFloat e.config.ReserveBalance 2 ++ " USDT)")
            else none),
       (e.callGetBalances w).2) := by
  unfold Engine.checkBalance Engine.callGetBalances
  cases hf : (e.api.GetBalances w.state).1 with
  | error err => rfl
  | ok balances =>
    dsimp only
    cases hu : firstUSDT balances with
    | none =>
      dsimp only
      split_ifs <;> rfl
    | some balance =>
      dsimp only
      cases hp : e.lib.ParseFloat balance.Available with
      | error err => rfl
      | ok a =>
        dsimp only
        split_ifs <;> rfl

/-- C20: `checkBalance(required)` fails when the balance fetch fails and when
the available amount of the first USDT entry does not parse; otherwise, with
`a` the available amount of the first USDT entry (0 without a USDT entry), it
succeeds if and only if `a - reserve ≥ required`.  Its only effect is the
fetch, and its result is the same for any two calls that fetch the same
balances with the same reserve and required amount. -/
theorem checkBalance_spec {σ : Type} (e : Engine σ) (required : ℚ) (w : World σ) :
    (∀ err : String, (e.api.GetBalances w.state).1 = Except.error err →
      (e.checkBalance required w).1 = some ("获取余额失败: " ++ err)) ∧
    (∀ (balances : List Balance) (balance : Balance) (err : String),
      (e.api.GetBalances w.state).1 = Except.ok balances →
      firstUSDT balances = some balance →
      e.lib.ParseFloat balance.Available = Except.error err →
      (e.checkBalance required w).1 = some ("解析USDT余额失败: " ++ err)) ∧
    (∀ (balances : List Balance) (balance : Balance) (a : ℚ),
      (e.api.GetBalances w.state).1 = Except.ok balances →
      firstUSDT balances = some balance →
      e.lib.ParseFloat balance.Available = Except.ok a →
      ((e.checkBalance required w).1 = none ↔ a - e.config.ReserveBalance ≥ required)) ∧
    (∀ balances : List Balance,
      (e.api.GetBalances w.state).1 = Except.ok balances →
      firstUSDT balances = none →
      ((e.checkBalance required w).1 = none ↔ 0 - e.config.ReserveBalance ≥ required)) ∧
    (e.checkBalance required w).2 = (e.callGetBalances w).2 ∧
    (∀ (e2 : Engine σ) (w2 : World σ),
      (e2.api.GetBalances w2.state).1 = (e.api.GetBalances w.state).1 →
      e2.config.ReserveBalance = e.config.ReserveBalance →
      e2.lib.ParseFloat = e.lib.ParseFloat → e2.lib.FormatFloat = e.lib.FormatFloat →
      (e2.checkBalance required w2).1 = (e.checkBalance required w).1) := by
  refine ⟨?_, ?_, ?_, ?_, ?_, ?_⟩
  · intro err hf
    rw [checkBalance_eq, hf]
  · intro balances balance err hf hu hp
    rw [checkBalance_eq, hf]
    simp only [hu, hp]
  · intro balances balance a hf hu hp
    rw [checkBalance_eq, hf]
    simp only [hu, hp]
    split_ifs with h
    · exact ⟨fun hcon => hcon.elim, fun hge => absurd h (not_lt.mpr hge)⟩
    · exact ⟨fun _ => not_lt.mp h, fun _ => rfl⟩
  · intro balances hf hu
    rw [checkBalance_eq, hf]
    simp only [hu]
    split_ifs with h
    · exact ⟨fun hcon => hcon.elim, fun hge => absurd h (not_lt.mpr hge)⟩
    · exact ⟨fun _ => not_lt.mp h, fun _ => rfl⟩
  · rw [checkBalance_eq]
  · intro e2 w2 hf hr hp hfm
    rw [checkBalance_eq, checkBalance_eq, hf, hr, hp, hfm]

/-- C20 at a USDT balance of 150 with reserve 100: a requirement of 50 is met. -/
theorem checkBalance_spec_witness :
    ((exampleEngine [] [usdtBalance "150"] none).checkBalance 50 emptyWorld).1 = none ↔
      (150 : ℚ) - (exampleEngine [] [usdtBalance "150"] none).config.ReserveBalance ≥ 50 :=
  (checkBalance_spec (exampleEngine [] [usdtBalance "150"] none) 50 emptyWorld).2.2.1
    [usdtBalance "150"] (usdtBalance "150") 150 rfl (by decide!) (by rfl)

/-! ## Signal execution: the balance checks -/

/-- The first balance check of `executeSignal` in futures mode, when the
balances are fetched and the first USDT entry parses to `a`: it passes exactly
when `a` is at least `Amount*Price/Leverage`; the reserve is not subtracted. -/
theorem executeSignal_precheck_iff {σ : Type} (e : Engine σ) (signal : Signal) (w : World σ)
    (balances : List Balance) (balance : Balance) (a : ℚ)
    (hfut : e.config.TradeType = "futures")
    (hf : (e.api.GetBalances (e.callGetPositions signal.Symbol w).2.state).1
      = Except.ok balances)
    (hu : firstUSDT balances = some balance)
    (hp : e.lib.ParseFloat balance.Available = Except.ok a) :
    ((Engine.executeSignal.precheck e signal w).1 = none ↔
      signal.Amount * signal.Price / (e.config.Leverage : ℚ) ≤ a) := by
  unfold Engine.executeSignal.precheck
  rw [if_pos hfut]
  unfold Engine.callGetBalances
  rw [hf]
  simp only [hu, hp]
  split_ifs with h
  · exact ⟨fun hcon => by simp at hcon, fun hge => absurd h (not_lt.mpr hge)⟩
  · exact ⟨fun _ => not_lt.mp h, fun _ => rfl⟩

/-- C19 fails on the code: in futures mode with leverage 10, reserve 100 and
150 USDT available, a buy of amount 1 at price 1000 needs 100 while
`150 - 100 = 50` is left after the reserve.  The first check passes (it
compares 150 with 100), `SetLeverage` is called, and only `checkBalance`
rejects the signal. -/
theorem executeSignal_reserve_checked_late :
    ((150 : ℚ) - engineExampleConfig.ReserveBalance
      < 1 * 1000 / (engineExampleConfig.Leverage : ℚ)) ∧
    (Engine.executeSignal.precheck (exampleEngine [] [usdtBalance "150"] none)
      { Symbol := "BTC-USDT-SWAP", Strategy := "LongPosition", Action := "buy",
        Price := 1000, Amount := 1 } emptyWorld).1 = none ∧
    (exampleEngine [] [usdtBalance "150"] none).executeSignal
      { Symbol := "BTC-USDT-SWAP", Strategy := "LongPosition", Action := "buy",
        Price := 1000, Amount := 1 } emptyWorld =
      some (some ("可用USDT余额不足: 需要 100.00 USDT, 实际可用 50.00 USDT " ++
                  "(总余额: 150.00 USDT, 预留: 100.00 USDT)"),
            { state := (),
              calls := [Call.GetPositions "BTC-USDT-SWAP", Call.GetBalances,
                        Call.SetLeverage "BTC-USDT-SWAP" "10" "cross" "long",
                        Call.GetBalances] }) := by
  decide!

/-! ## Position monitor -/

/-- The conversion `int(x)` of a non-negative number below `2^63` is its floor. -/
theorem floatToInt_of_nonneg (x : ℚ) (hx : 0 ≤ x) (hb : x < 9223372036854775808) :
    floatToInt x = ⌊x⌋ := by
  have ht : Int.tdiv x.num (x.den : Int) = ⌊x⌋ := by
    rw [Rat.floor_def, Int.tdiv_eq_ediv (Rat.num_nonneg.mpr hx) (by positivity)]
  have h0 : (0 : Int) ≤ ⌊x⌋ := Int.floor_nonneg.mpr hx
  have h1 : ⌊x⌋ < (9223372036854775808 : Int) := by
    rw [Int.floor_lt]
    exact_mod_cast hb
  unfold floatToInt
  dsimp only
  rw [ht, if_pos ⟨by omega, h1⟩]

/-- The conversion `int(x)` of a number of `2^63` or more is the least `int`. -/
theorem floatToInt_of_large (x : ℚ) (hb : 9223372036854775808 ≤ x) :
    floatToInt x = -9223372036854775808 := by
  have hx : 0 ≤ x := le_trans (by norm_num) hb
  have ht : Int.tdiv x.num (x.den : Int) = ⌊x⌋ := by
    rw [Rat.floor_def, Int.tdiv_eq_ediv (Rat.num_nonneg.mpr hx) (by positivity)]
  have h1 : (9223372036854775808 : Int) ≤ ⌊x⌋ := by
    rw [Int.le_floor]
    exact_mod_cast hb
  unfold floatToInt
  dsimp only
  rw [ht, if_neg (by omega)]

/-- The size of a closing order for a quantity of magnitude below `2^63` is the
integer part of the absolute quantity, and at least 200. -/
theorem closeSize_eq_max (pos : Position) (hb : |pos.Position| < 9223372036854775808) :
    closeSize pos = max ⌊|pos.Position|⌋ 200 := by
  unfold closeSize
  rw [floatToInt_of_nonneg _ (abs_nonneg _) hb]
  dsimp only
  split_ifs with h
  · exact (max_eq_right h.le).symm
  · exact (max_eq_left (not_lt.mp h)).symm

/-- The size of a closing order for a quantity of magnitude `2^63` or more is
200: the conversion gives the least `int`, which is below 200. -/
theorem closeSize_of_large (pos : Position) (hb : 9223372036854775808 ≤ |pos.Position|) :
    closeSize pos = 200 := by
  unfold closeSize
  rw [floatToInt_of_large _ hb]
  rfl

/-- The world after `closeLongPosition` is the world after its one `PlaceOrder` call. -/
theorem closeLongPosition_world {σ : Type} (e : Engine σ) (symbol : String) (pos : Position)
    (w : World σ) :
    (e.closeLongPosition symbol pos w).2 =
      (e.callPlaceOrder
        { InstId := symbol, TdMode := e.config.MarginMode, Side := "sell", PosSide := "long",
          OrdType := "market", Sz := toString (closeSize pos), Px := "", Lever := "",
          ClOrdId := e.closeOrderId w } w).2 := by
  unfold Engine.closeLongPosition
  dsimp only
  cases (e.callPlaceOrder
        { InstId := symbol, TdMode := e.config.MarginMode, Side := "sell", PosSide := "long",
          OrdType := "market", Sz := toString (closeSize pos), Px := "", Lever := "",
          ClOrdId := e.closeOrderId w } w) with
  | mk r w1 => cases r <;> rfl

/-- The world after `closeShortPosition` is the world after its one `PlaceOrder` call. -/
theorem closeShortPosition_world {σ : Type} (e : Engine σ) (symbol : String) (pos : Position)
    (w : World σ) :
    (e.closeShortPosition symbol pos w).2 =
      (e.callPlaceOrder
        { InstId := symbol, TdMode := e.config.MarginMode, Side := "buy", PosSide := "short",
          OrdType := "market", Sz := toString (closeSize pos), Px := "", Lever := "",
          ClOrdId := e.closeOrderId w } w).2 := by
  unfold Engine.closeShortPosition
  dsimp only
  cases (e.callPlaceOrder
        { InstId := symbol, TdMode := e.config.MarginMode, Side := "buy", PosSide := "short",
          OrdType := "market", Sz := toString (closeSize pos), Px := "", Lever := "",
          ClOrdId := e.closeOrderId w } w) with
  | mk r w1 => cases r <;> rfl

/-- C18, as the code has it: for a position whose quantity is of magnitude
below `2^63`, the range of `int`, the closing order of a long position is a
market sell with position side long, that of a short position a market buy with
position side short, and its size is `max(⌊|quantity|⌋, 200)`, the integer part
of the absolute quantity raised to the minimum lot 200; for a whole quantity
`n` that is `max(|n|, 200)`. -/
theorem closePosition_order {σ : Type} (e : Engine σ) (symbol : String) (pos : Position)
    (w : World σ) (hb : |pos.Position| < 9223372036854775808) :
    (e.closeLongPosition symbol pos w).2.calls = w.calls ++
      [Call.PlaceOrder
        { InstId := symbol, TdMode := e.config.MarginMode, Side := "sell", PosSide := "long",
          OrdType := "market", Sz := toString (max ⌊|pos.Position|⌋ 200), Px := "",
          Lever := "", ClOrdId := e.closeOrderId w }] ∧
    (e.closeShortPosition symbol pos w).2.calls = w.calls ++
      [Call.PlaceOrder
        { InstId := symbol, TdMode := e.config.MarginMode, Side := "buy", PosSide := "short",
          OrdType := "market", Sz := toString (max ⌊|pos.Position|⌋ 200), Px := "",
          Lever := "", ClOrdId := e.closeOrderId w }] ∧
    (∀ n : Int, pos.Position = (n : ℚ) → max ⌊|pos.Position|⌋ 200 = max |n| 200) := by
  refine ⟨?_, ?_, ?_⟩
  · rw [closeLongPosition_world, closeSize_eq_max pos hb]
    rfl
  · rw [closeShortPosition_world, closeSize_eq_max pos hb]
    rfl
  · intro n hn
    rw [hn]
    have h : |(n : ℚ)| = ((|n| : Int) : ℚ) := by push_cast; rfl
    rw [h, Int.floor_intCast]

/-- C18 as amended, at a short position of quantity 300.75: the closing order
is a market buy of size 300. -/
theorem closePosition_order_witness :
    ((exampleEngine [] [] none).closeShortPosition "BTC-USDT-SWAP"
        (examplePosition "short" (1203 / 4) (1 / 2) (2 / 25)) emptyWorld).2.calls =
      [Call.PlaceOrder
        { InstId := "BTC-USDT-SWAP", TdMode := "cross", Side := "buy", PosSide := "short",
          OrdType := "market", Sz := "300", Px := "", Lever := "", ClOrdId := "close0" }] :=
  (closePosition_order (exampleEngine [] [] none) "BTC-USDT-SWAP"
    (examplePosition "short" (1203 / 4) (1 / 2) (2 / 25)) emptyWorld (by decide!)).2.1.trans
    (by decide!)

/-- A quantity outside the range of `int`: a long position of quantity `10^19`
is closed with an order of size 200. -/
theorem closeLongPosition_out_of_range :
    ((exampleEngine [] [] none).closeLongPosition "BTC-USDT-SWAP"
        (examplePosition "long" 10000000000000000000 (1 / 2) (2 / 25)) emptyWorld).2.calls =
      [Call.PlaceOrder
        { InstId := "BTC-USDT-SWAP", TdMode := "cross", Side := "sell", PosSide := "long",
          OrdType := "market", Sz := "200", Px := "", Lever := "", ClOrdId := "close0" }] := by
  decide!

/-- C18 as stated fails: a long position of quantity 250.5 is closed with an
order of size 250, while `max(|250.5|, 200)` is 250.5. -/
theorem closeLongPosition_truncates :
    ((exampleEngine [] [] none).closeLongPosition "BTC-USDT-SWAP"
        (examplePosition "long" (501 / 2) (1 / 2) (2 / 25)) emptyWorld).2.calls =
      [Call.PlaceOrder
        { InstId := "BTC-USDT-SWAP", TdMode := "cross", Side := "sell", PosSide := "long",
          OrdType := "market", Sz := "250", Px := "", Lever := "", ClOrdId := "close0" }] ∧
    max |(501 / 2 : ℚ)| 200 = 501 / 2 ∧ (250 : ℚ) ≠ 501 / 2 := by
  decide!

/-- C17, as the code has it: when the fetched list is a single position with
side long or short and a positive quantity, `checkPositionPnL` places a closing
order, through `closeLongPosition` or `closeShortPosition`, if and only if the
profit ratio is at least the side's take-profit or at most minus the side's
stop-loss; otherwise it places no order and returns `nil`. -/
theorem checkPositionPnL_single {σ : Type} (e : Engine σ) (symbol : String) (pos : Position)
    (w : World σ)
    (hf : (e.api.GetPositions symbol w.state).1 = Except.ok [pos])
    (hside : pos.PosSide = "long" ∨ pos.PosSide = "short")
    (hq : pos.Position > 0) :
    ((pos.PnLRatio ≥ (e.sideConfig pos).TakeProfit ∨
        pos.PnLRatio ≤ -(e.sideConfig pos).StopLoss) →
      e.checkPositionPnL symbol w =
        (if pos.PosSide = "long"
         then e.closeLongPosition symbol pos (e.callGetPositions symbol w).2
         else e.closeShortPosition symbol pos (e.callGetPositions symbol w).2) ∧
      ∃ req : PlaceOrderRequest, (e.checkPositionPnL symbol w).2.calls =
        w.calls ++ [Call.GetPositions symbol, Call.PlaceOrder req]) ∧
    (¬ (pos.PnLRatio ≥ (e.sideConfig pos).TakeProfit ∨
        pos.PnLRatio ≤ -(e.sideConfig pos).StopLoss) →
      e.checkPositionPnL symbol w = (none, (e.callGetPositions symbol w).2) ∧
      (e.checkPositionPnL symbol w).2.calls = w.calls ++ [Call.GetPositions symbol]) := by
  have hcall : e.callGetPositions symbol w =
      (Except.ok [pos], (e.callGetPositions symbol w).2) := by
    unfold Engine.callGetPositions
    rw [hf]
  have hcalls : (e.callGetPositions symbol w).2.calls = w.calls ++ [Call.GetPositions symbol] :=
    rfl
  have hrun : e.checkPositionPnL symbol w =
      Engine.checkPositionPnL.loop e symbol [pos] (e.callGetPositions symbol w).2 := by
    unfold Engine.checkPositionPnL
    rw [hcall]
    simp
  rcases hside with hl | hs
  · have hcfg : e.sideConfig pos = e.config.LongPosition := by
      unfold Engine.sideConfig; rw [if_pos hl]
    have hns : ¬ (pos.PosSide = "short" ∧ pos.Position > 0) := by
      rw [hl]; intro h; exact absurd h.1 (by decide)
    rw [hcfg]
    constructor
    · intro hb
      have heq : e.checkPositionPnL symbol w =
          e.closeLongPosition symbol pos (e.callGetPositions symbol w).2 := by
        rw [hrun]
        unfold Engine.checkPositionPnL.loop
        simp only [hl, hq, and_self, if_true]
        by_cases htp : pos.PnLRatio ≥ e.config.LongPosition.TakeProfit
        · rw [if_pos htp]
        · rw [if_neg htp, if_pos (hb.resolve_left htp)]
      refine ⟨by rw [heq, if_pos hl],
        ⟨{ InstId := symbol, TdMode := e.config.MarginMode, Side := "sell", PosSide := "long",
           OrdType := "market", Sz := toString (closeSize pos), Px := "", Lever := "",
           ClOrdId := e.closeOrderId (e.callGetPositions symbol w).2 }, ?_⟩⟩
      rw [heq, closeLongPosition_world]
      show (e.callGetPositions symbol w).2.calls ++ _ = _
      rw [hcalls, List.append_assoc]
      rfl
    · intro hnb
      rw [not_or] at hnb
      have heq : e.checkPositionPnL symbol w = (none, (e.callGetPositions symbol w).2) := by
        rw [hrun]
        unfold Engine.checkPositionPnL.loop
        simp only [hl, hq, and_self, if_true, hnb.1, hnb.2, if_false]
        unfold Engine.checkPositionPnL.loop
        simp
      exact ⟨heq, by rw [heq]; exact hcalls⟩
  · have hnl : ¬ pos.PosSide = "long" := by rw [hs]; decide
    have hsl : ¬ ("short" : String) = "long" := by decide
    have hcfg : e.sideConfig pos = e.config.ShortPosition := by
      unfold Engine.sideConfig; rw [if_neg hnl]
    rw [hcfg]
    constructor
    · intro hb
      have heq : e.checkPositionPnL symbol w =
          e.closeShortPosition symbol pos (e.callGetPositions symbol w).2 := by
        rw [hrun]
        unfold Engine.checkPositionPnL.loop
        simp only [hs, hsl, false_and, if_false, hq, and_self, if_true]
        by_cases htp : pos.PnLRatio ≥ e.config.ShortPosition.TakeProfit
        · rw [if_pos htp]
        · rw [if_neg htp, if_pos (hb.resolve_left htp)]
      refine ⟨by rw [heq, if_neg hnl],
        ⟨{ InstId := symbol, TdMode := e.config.MarginMode, Side := "buy", PosSide := "short",
           OrdType := "market", Sz := toString (closeSize pos), Px := "", Lever := "",
           ClOrdId := e.closeOrderId (e.callGetPositions symbol w).2 }, ?_⟩⟩
      rw [heq, closeShortPosition_world]
      show (e.callGetPositions symbol w).2.calls ++ _ = _
      rw [hcalls, List.append_assoc]
      rfl
    · intro hnb
      rw [not_or] at hnb
      have heq : e.checkPositionPnL symbol w = (none, (e.callGetPositions symbol w).2) := by
        rw [hrun]
        unfold Engine.checkPositionPnL.loop
        simp only [hs, hsl, false_and, if_false, hq, and_self, if_true, hnb.1, hnb.2]
        unfold Engine.checkPositionPnL.loop
        simp
      exact ⟨heq, by rw [heq]; exact hcalls⟩

/-- C17 as amended, at a long position of quantity 5 with profit ratio 0.5,
above the take-profit 0.1: the position is closed. -/
theorem checkPositionPnL_single_witness :
    ∃ req : PlaceOrderRequest,
      ((exampleEngine [examplePosition "long" 5 (1 / 2) (2 / 25)] [] none).checkPositionPnL
        "BTC-USDT-SWAP" emptyWorld).2.calls =
      emptyWorld.calls ++ [Call.GetPositions "BTC-USDT-SWAP", Call.PlaceOrder req] :=
  ((checkPositionPnL_single
    (exampleEngine [examplePosition "long" 5 (1 / 2) (2 / 25)] [] none) "BTC-USDT-SWAP"
    (examplePosition "long" 5 (1 / 2) (2 / 25)) emptyWorld rfl (Or.inl rfl)
    (by decide!)).1 (Or.inl (by decide!))).2

/-- C17 as stated fails: a single long position of quantity -5, which is not
zero, with profit ratio 0.5 above the take-profit 0.1 is not closed; the only
call is the fetch of the positions. -/
theorem checkPositionPnL_negative_quantity :
    (examplePosition "long" (-5) (1 / 2) (2 / 25)).Position ≠ 0 ∧
    (examplePosition "long" (-5) (1 / 2) (2 / 25)).PnLRatio
      ≥ engineExampleConfig.LongPosition.TakeProfit ∧
    (exampleEngine [examplePosition "long" (-5) (1 / 2) (2 / 25)] [] none).checkPositionPnL
        "BTC-USDT-SWAP" emptyWorld =
      (none, { state := (), calls := [Call.GetPositions "BTC-USDT-SWAP"] }) := by
  decide!

/-! ## Margin monitor -/

/-- One turn of the loop of `checkAndAdjustMargin` for a position that is
below its threshold while auto-margin is on: the top-up is made with the
side's `MarginAmount`; its failure ends the loop, its success goes on. -/
theorem marginLoop_topUp {σ : Type} (e : Engine σ) (symbol : String) (pos : Position)
    (rest : List Position) (w : World σ)
    (hbelow : pos.MarginRatio * 100 < e.configRatio symbol pos)
    (hauto : (e.sideConfig pos).AutoMargin = true) :
    Engine.checkAndAdjustMargin.loop e symbol (pos :: rest) w =
      match e.addMargin symbol pos.PosSide (e.sideConfig pos).MarginAmount w with
      | (some err, w1) => (some ("追加保证金失败: " ++ err), w1)
      | (none, w1) => Engine.checkAndAdjustMargin.loop e symbol rest w1 := by
  rw [Engine.checkAndAdjustMargin.loop]
  simp only [hbelow, if_true, hauto, Bool.not_true, Bool.false_eq_true, if_false]

/-- One turn of the loop of `checkAndAdjustMargin` for a position that is not
below its threshold, or for which auto-margin is off: the loop goes on in the
same world, no call is made. -/
theorem marginLoop_skip {σ : Type} (e : Engine σ) (symbol : String) (pos : Position)
    (rest : List Position) (w : World σ)
    (h : ¬ (pos.MarginRatio * 100 < e.configRatio symbol pos ∧
      (e.sideConfig pos).AutoMargin = true)) :
    Engine.checkAndAdjustMargin.loop e symbol (pos :: rest) w =
      Engine.checkAndAdjustMargin.loop e symbol rest w := by
  rw [Engine.checkAndAdjustMargin.loop]
  by_cases hb : pos.MarginRatio * 100 < e.configRatio symbol pos
  · have ha : (e.sideConfig pos).AutoMargin = false := by
      cases hauto : (e.sideConfig pos).AutoMargin with
      | false => rfl
      | true => exact absurd ⟨hb, hauto⟩ h
    simp only [hb, if_true, ha, Bool.not_false]
  · simp only [hb, if_false]

/-- The loop of `checkAndAdjustMargin` over a list in two parts: an error in
the first part is the result; otherwise the second part is run from the world
the first part left. -/
theorem marginLoop_append {σ : Type} (e : Engine σ) (symbol : String) (l2 : List Position) :
    ∀ (l1 : List Position) (w : World σ),
      Engine.checkAndAdjustMargin.loop e symbol (l1 ++ l2) w =
        match Engine.checkAndAdjustMargin.loop e symbol l1 w with
        | (some err, w1) => (some err, w1)
        | (none, w1) => Engine.checkAndAdjustMargin.loop e symbol l2 w1 := by
  intro l1
  induction l1 with
  | nil =>
    intro w
    rfl
  | cons pos rest ih =>
    intro w
    by_cases h : pos.MarginRatio * 100 < e.configRatio symbol pos ∧
        (e.sideConfig pos).AutoMargin = true
    · rw [List.cons_append, marginLoop_topUp e symbol pos _ w h.1 h.2,
        marginLoop_topUp e symbol pos _ w h.1 h.2]
      cases hadd : e.addMargin symbol pos.PosSide (e.sideConfig pos).MarginAmount w with
      | mk r w1 =>
        cases r with
        | none => exact ih w1
        | some err => rfl
    · rw [List.cons_append, marginLoop_skip e symbol pos _ w h,
        marginLoop_skip e symbol pos _ w h]
      exact ih w

/-- The calls of a margin top-up: the balance fetch and, when the balance
check passes, the `AddMargin` call for the symbol and side with the amount
rendered with 4 decimals and the type "add". -/
theorem addMargin_calls {σ : Type} (e : Engine σ) (symbol posSide : String) (amount : ℚ)
    (w : World σ) :
    ((e.checkBalance amount w).1 ≠ none →
      e.addMargin symbol posSide amount w = e.checkBalance amount w ∧
      (e.addMargin symbol posSide amount w).2.calls = w.calls ++ [Call.GetBalances]) ∧
    ((e.checkBalance amount w).1 = none →
      (e.addMargin symbol posSide amount w).2.calls = w.calls ++
        [Call.GetBalances,
         Call.AddMargin [("instId", symbol), ("posSide", posSide),
                         ("amt", e.lib.FormatFloat amount 4), ("type", "add")]]) := by
  have hw : (e.checkBalance amount w).2.calls = w.calls ++ [Call.GetBalances] := by
    rw [checkBalance_eq]
    rfl
  constructor
  · intro hne
    have heq : e.addMargin symbol posSide amount w = e.checkBalance amount w := by
      unfold Engine.addMargin
      cases hcb : e.checkBalance amount w with
      | mk r w1 =>
        cases r with
        | none => rw [hcb] at hne; exact absurd rfl hne
        | some err => rfl
    exact ⟨heq, by rw [heq]; exact hw⟩
  · intro hnone
    unfold Engine.addMargin
    cases hcb : e.checkBalance amount w with
    | mk r w1 =>
      rw [hcb] at hnone hw
      cases r with
      | some err => exact Option.noConfusion hnone
      | none =>
        show (e.callAddMargin _ w1).2.calls = _
        unfold Engine.callAddMargin
        show w1.calls ++ _ = _
        rw [hw, List.append_assoc]
        rfl

/-- C15, as the code has it: for a position that the loop of
`checkAndAdjustMargin` reaches (every earlier position of the fetched list was
handled without a failed top-up), the margin ratio times 100 is compared with
the threshold times 100, the threshold being the per-symbol entry of the side
when there is one and the side's `MarginRatio` otherwise.  Below the threshold
with auto-margin on, the top-up is made with exactly the side's `MarginAmount`;
with auto-margin off, or not below the threshold, no call is made for the
position.  With live ratio 8, threshold 10 and amount 50 the `AddMargin` call
carries the amount 50; with auto-margin off there is no such call. -/
theorem checkAndAdjustMargin_rule {σ : Type} (e : Engine σ) (symbol : String)
    (pre : List Position) (pos : Position) (rest : List Position) (w w1 : World σ)
    (hf : (e.api.GetPositions symbol w.state).1 = Except.ok (pre ++ pos :: rest))
    (hreach : Engine.checkAndAdjustMargin.loop e symbol pre (e.callGetPositions symbol w).2
      = (none, w1)) :
    ((pos.PosSide = "long" → e.sideConfig pos = e.config.LongPosition) ∧
     (pos.PosSide ≠ "long" → e.sideConfig pos = e.config.ShortPosition)) ∧
    ((∀ ratio : ℚ, (e.sideConfig pos).SymbolMarginRatios.lookup symbol = some ratio →
        e.configRatio symbol pos = ratio * 100) ∧
     ((e.sideConfig pos).SymbolMarginRatios.lookup symbol = none →
        e.configRatio symbol pos = (e.sideConfig pos).MarginRatio * 100)) ∧
    (pos.MarginRatio * 100 < e.configRatio symbol pos →
      (e.sideConfig pos).AutoMargin = true →
      e.checkAndAdjustMargin symbol w =
        match e.addMargin symbol pos.PosSide (e.sideConfig pos).MarginAmount w1 with
        | (some err, w2) => (some ("追加保证金失败: " ++ err), w2)
        | (none, w2) => Engine.checkAndAdjustMargin.loop e symbol rest w2) ∧
    (¬ (pos.MarginRatio * 100 < e.configRatio symbol pos ∧
        (e.sideConfig pos).AutoMargin = true) →
      e.checkAndAdjustMargin symbol w = Engine.checkAndAdjustMargin.loop e symbol rest w1) ∧
    (exampleEngine [examplePosition "long" 5 0 (2 / 25)] [usdtBalance "1000"]
        none).checkAndAdjustMargin "BTC-USDT-SWAP" emptyWorld =
      (none, { state := (),
               calls := [Call.GetPositions "BTC-USDT-SWAP", Call.GetBalances,
                         Call.AddMargin [("instId", "BTC-USDT-SWAP"), ("posSide", "long"),
                                         ("amt", "50.0000"), ("type", "add")]] }) ∧
    (exampleEngineManual [examplePosition "long" 5 0 (2 / 25)]
        [usdtBalance "1000"]).checkAndAdjustMargin "BTC-USDT-SWAP" emptyWorld =
      (none, { state := (), calls := [Call.GetPositions "BTC-USDT-SWAP"] }) := by
  have hrun : e.checkAndAdjustMargin symbol w =
      Engine.checkAndAdjustMargin.loop e symbol (pos :: rest) w1 := by
    have hcall : e.callGetPositions symbol w =
        (Except.ok (pre ++ pos :: rest), (e.callGetPositions symbol w).2) := by
      unfold Engine.callGetPositions
      rw [hf]
    unfold Engine.checkAndAdjustMargin
    rw [hcall]
    dsimp only
    rw [marginLoop_append, hreach]
  refine ⟨⟨?_, ?_⟩, ⟨?_, ?_⟩, ?_, ?_, by decide!, by decide!⟩
  · intro h
    unfold Engine.sideConfig
    rw [if_pos h]
  · intro h
    unfold Engine.sideConfig
    rw [if_neg h]
  · intro ratio h
    unfold Engine.configRatio
    rw [h]
  · intro h
    unfold Engine.configRatio
    rw [h]
  · intro hbelow hauto
    rw [hrun, marginLoop_topUp e symbol pos rest w1 hbelow hauto]
  · intro h
    rw [hrun, marginLoop_skip e symbol pos rest w1 h]

/-- C15 as amended, at a long position with margin ratio 0.08 against the
threshold 0.1 and auto-margin on: the rule applies and the top-up is made with
the amount 50. -/
theorem checkAndAdjustMargin_rule_witness :
    (exampleEngine [examplePosition "long" 5 0 (2 / 25)] [usdtBalance "1000"]
        none).checkAndAdjustMargin "BTC-USDT-SWAP" emptyWorld =
      (none, { state := (),
               calls := [Call.GetPositions "BTC-USDT-SWAP", Call.GetBalances,
                         Call.AddMargin [("instId", "BTC-USDT-SWAP"), ("posSide", "long"),
                                         ("amt", "50.0000"), ("type", "add")]] }) :=
  ((checkAndAdjustMargin_rule
    (exampleEngine [examplePosition "long" 5 0 (2 / 25)] [usdtBalance "1000"] none)
    "BTC-USDT-SWAP" [] (examplePosition "long" 5 0 (2 / 25)) [] emptyWorld
    { state := (), calls := [Call.GetPositions "BTC-USDT-SWAP"] } rfl rfl).2.2.1
    (by decide!) rfl).trans (by decide!)

/-- C15 as stated fails: of two fetched positions that are both below the
threshold with auto-margin on, only the first is compared; its top-up fails
the balance check (120 available, reserve 100, amount 50) and the second one
gets neither a balance check nor a top-up. -/
theorem checkAndAdjustMargin_second_position_skipped :
    (examplePosition "short" 5 0 (2 / 25)).MarginRatio * 100 <
      (exampleEngine [examplePosition "long" 5 0 (2 / 25), examplePosition "short" 5 0 (2 / 25)]
        [usdtBalance "120"] none).configRatio "BTC-USDT-SWAP"
        (examplePosition "short" 5 0 (2 / 25)) ∧
    engineExampleConfig.ShortPosition.AutoMargin = true ∧
    ((exampleEngine [examplePosition "long" 5 0 (2 / 25), examplePosition "short" 5 0 (2 / 25)]
        [usdtBalance "120"] none).checkAndAdjustMargin "BTC-USDT-SWAP" emptyWorld).2.calls =
      [Call.GetPositions "BTC-USDT-SWAP", Call.GetBalances] ∧
    ((exampleEngine [examplePosition "long" 5 0 (2 / 25), examplePosition "short" 5 0 (2 / 25)]
        [usdtBalance "120"] none).checkAndAdjustMargin "BTC-USDT-SWAP" emptyWorld).1 ≠ none := by
  decide!

/-- The symbols fetched in two runs of calls, one after the other. -/
theorem auditedSymbols_append (l1 l2 : List Call) :
    auditedSymbols (l1 ++ l2) = auditedSymbols l1 ++ auditedSymbols l2 := by
  unfold auditedSymbols
  rw [List.filterMap_append]

/-- A margin top-up fetches no positions. -/
theorem auditedSymbols_addMargin {σ : Type} (e : Engine σ) (symbol posSide : String)
    (amount : ℚ) (w : World σ) :
    auditedSymbols (e.addMargin symbol posSide amount w).2.calls = auditedSymbols w.calls := by
  cases h : (e.checkBalance amount w).1 with
  | none =>
    rw [(addMargin_calls e symbol posSide amount w).2 h, auditedSymbols_append]
    simp [auditedSymbols]
  | some err =>
    rw [((addMargin_calls e symbol posSide amount w).1 (by rw [h]; simp)).2,
      auditedSymbols_append]
    simp [auditedSymbols]

/-- The loop of `checkAndAdjustMargin` fetches no positions. -/
theorem auditedSymbols_marginLoop {σ : Type} (e : Engine σ) (symbol : String) :
    ∀ (l : List Position) (w : World σ),
      auditedSymbols (Engine.checkAndAdjustMargin.loop e symbol l w).2.calls
        = auditedSymbols w.calls := by
  intro l
  induction l with
  | nil => intro w; rfl
  | cons pos rest ih =>
    intro w
    by_cases h : pos.MarginRatio * 100 < e.configRatio symbol pos ∧
        (e.sideConfig pos).AutoMargin = true
    · rw [marginLoop_topUp e symbol pos rest w h.1 h.2]
      have hadd := auditedSymbols_addMargin e symbol pos.PosSide
        (e.sideConfig pos).MarginAmount w
      cases hres : e.addMargin symbol pos.PosSide (e.sideConfig pos).MarginAmount w with
      | mk r w1 =>
        rw [hres] at hadd
        cases r with
        | none => exact (ih w1).trans hadd
        | some err => exact hadd
    · rw [marginLoop_skip e symbol pos rest w h]
      exact ih w

/-- An audit of a symbol fetches the positions of that symbol, once. -/
theorem auditedSymbols_checkAndAdjustMargin {σ : Type} (e : Engine σ) (symbol : String)
    (w : World σ) :
    auditedSymbols (e.checkAndAdjustMargin symbol w).2.calls
      = auditedSymbols w.calls ++ [symbol] := by
  have hcalls : auditedSymbols (e.callGetPositions symbol w).2.calls
      = auditedSymbols w.calls ++ [symbol] := by
    show auditedSymbols (w.calls ++ [Call.GetPositions symbol]) = _
    rw [auditedSymbols_append]
    rfl
  unfold Engine.checkAndAdjustMargin
  cases hres : e.callGetPositions symbol w with
  | mk r w1 =>
    rw [hres] at hcalls
    cases r with
    | error err => exact hcalls
    | ok positions => exact (auditedSymbols_marginLoop e symbol positions w1).trans hcalls

/-- C16, as the code has it: a failed top-up for a position ends the audit of
its symbol at once (the error is returned, wrapped, from the world the failed
top-up left, so the remaining positions of that symbol are not examined), and
the margin monitor audits every symbol of its list, in order, whatever the
audits return. -/
theorem marginAudit_on_failure {σ : Type} (e : Engine σ) (symbol : String) (pos : Position)
    (rest : List Position) (w w1 : World σ) (err : String)
    (hbelow : pos.MarginRatio * 100 < e.configRatio symbol pos)
    (hauto : (e.sideConfig pos).AutoMargin = true)
    (hfail : e.addMargin symbol pos.PosSide (e.sideConfig pos).MarginAmount w = (some err, w1)) :
    Engine.checkAndAdjustMargin.loop e symbol (pos :: rest) w
      = (some ("追加保证金失败: " ++ err), w1) ∧
    (∀ (symbols : List String) (w0 : World σ),
      (e.marginMonitorTick symbols w0).1.length = symbols.length ∧
      auditedSymbols (e.marginMonitorTick symbols w0).2.calls
        = auditedSymbols w0.calls ++ symbols) := by
  constructor
  · rw [marginLoop_topUp e symbol pos rest w hbelow hauto, hfail]
  · intro symbols
    induction symbols with
    | nil =>
      intro w0
      exact ⟨rfl, by simp [Engine.marginMonitorTick]⟩
    | cons s ss ih =>
      intro w0
      obtain ⟨hlen, haud⟩ := ih (e.checkAndAdjustMargin s w0).2
      constructor
      · simp only [Engine.marginMonitorTick, List.length_cons, hlen]
      · simp only [Engine.marginMonitorTick]
        rw [haud, auditedSymbols_checkAndAdjustMargin, List.append_assoc]
        rfl

/-- C16 as amended, at a long position below its threshold whose top-up the
exchange rejects: the audit returns the wrapped error whatever follows. -/
theorem marginAudit_on_failure_witness :
    Engine.checkAndAdjustMargin.loop
        (exampleEngine [] [usdtBalance "1000"] (some "margin rejected")) "BTC-USDT-SWAP"
        (examplePosition "long" 5 0 (2 / 25) :: [examplePosition "short" 5 0 (2 / 25)])
        emptyWorld
      = (some ("追加保证金失败: " ++ "margin rejected"),
         { state := (),
           calls := [Call.GetBalances,
                     Call.AddMargin [("instId", "BTC-USDT-SWAP"), ("posSide", "long"),
                                     ("amt", "50.0000"), ("type", "add")]] }) :=
  (marginAudit_on_failure (exampleEngine [] [usdtBalance "1000"] (some "margin rejected"))
    "BTC-USDT-SWAP" (examplePosition "long" 5 0 (2 / 25))
    [examplePosition "short" 5 0 (2 / 25)] emptyWorld
    { state := (),
      calls := [Call.GetBalances,
                Call.AddMargin [("instId", "BTC-USDT-SWAP"), ("posSide", "long"),
                                ("amt", "50.0000"), ("type", "add")]] }
    "margin rejected" (by decide!) rfl (by decide!)).1

/-- C16 as stated fails: with two positions below their thresholds and
auto-margin on, the exchange rejects the top-up of the first; the audit
returns the error and the second position is neither examined nor topped up
(one balance fetch and one `AddMargin` call, for the long side, are all that
follows the fetch of the positions). -/
theorem checkAndAdjustMargin_halts_on_failure :
    (examplePosition "short" 5 0 (2 / 25)).MarginRatio * 100 <
      (exampleEngine [examplePosition "long" 5 0 (2 / 25), examplePosition "short" 5 0 (2 / 25)]
        [usdtBalance "1000"] (some "margin rejected")).configRatio "BTC-USDT-SWAP"
        (examplePosition "short" 5 0 (2 / 25)) ∧
    (exampleEngine [examplePosition "long" 5 0 (2 / 25), examplePosition "short" 5 0 (2 / 25)]
        [usdtBalance "1000"] (some "margin rejected")).checkAndAdjustMargin "BTC-USDT-SWAP"
        emptyWorld =
      (some "追加保证金失败: margin rejected",
       { state := (),
         calls := [Call.GetPositions "BTC-USDT-SWAP", Call.GetBalances,
                   Call.AddMargin [("instId", "BTC-USDT-SWAP"), ("posSide", "long"),
                                   ("amt", "50.0000"), ("type", "add")]] }) := by
  decide!

/-! ## Signal execution: the trade record -/

/-- C21: when the checks pass and the order placement succeeds with the
response `resp`, `executeSignal` returns `nil` whatever `SaveTrade` returns;
the one call after the placement is `SaveTrade` (no cancelling order follows a
failed save), and the record carries the signal's symbol, its action as side,
its price, amount and strategy name, the status "filled", the order id of the
response and the configured trade type. -/
theorem executeSignal_saves_trade {σ : Type} (e : Engine σ) (signal : Signal)
    (w w2 w3 w4 w5 : World σ) (resp : OrderResponse)
    (hpre : Engine.executeSignal.precheck e signal w = (none, w2))
    (hlev : e.callSetLeverage signal.Symbol (toString e.config.Leverage) e.config.MarginMode
      (if signal.Action = "sell" then "short" else "long") w2 = (none, w3))
    (hbal : e.checkBalance (signal.Price * signal.Amount / (e.config.Leverage : ℚ)) w3
      = (none, w4))
    (hord : api.RetryOperation
      (e.placeOrderOperation
        { InstId := signal.Symbol, TdMode := e.config.MarginMode, Side := signal.Action,
          PosSide := if e.config.TradeType = "futures"
            then (if signal.Action = "sell" then "short" else "long") else "",
          OrdType := "market", Sz := "200", Px := "",
          Lever := if e.config.TradeType = "futures" then toString e.config.Leverage else "",
          ClOrdId := "" })
      { MaxRetries := 3, DelayMillis := 1000 } (w4, none) = (none, (w5, some resp))) :
    e.executeSignal signal w =
      some (none,
        { state := (e.db.SaveTrade
            { ID := 0, Symbol := signal.Symbol, Side := signal.Action, Price := signal.Price,
              Amount := signal.Amount, Strategy := signal.Strategy, Status := "filled",
              OrderID := resp.OrderId, TradeType := e.config.TradeType } w5.state).2,
          calls := w5.calls ++ [Call.SaveTrade
            { ID := 0, Symbol := signal.Symbol, Side := signal.Action, Price := signal.Price,
              Amount := signal.Amount, Strategy := signal.Strategy, Status := "filled",
              OrderID := resp.OrderId, TradeType := e.config.TradeType }] }) := by
  unfold Engine.executeSignal
  simp only [hpre, hlev, hbal, hord]
  rfl

/-- C21 at a store that rejects the record with "database is locked": with 250
USDT available a buy of amount 1 at price 1000 is placed, the save is
attempted, and `executeSignal` returns `nil`. -/
theorem executeSignal_saves_trade_witness :
    (failingDatabase "database is locked").SaveTrade
      { ID := 0, Symbol := "BTC-USDT-SWAP", Side := "buy", Price := 1000, Amount := 1,
        Strategy := "LongPosition", Status := "filled", OrderID := "1",
        TradeType := "futures" } () = (some "database is locked", ()) ∧
    (exampleEngineFailingStore [usdtBalance "250"]).executeSignal exampleBuySignal emptyWorld =
      some (none,
        { state := (),
          calls := [Call.GetPositions "BTC-USDT-SWAP", Call.GetBalances,
                    Call.SetLeverage "BTC-USDT-SWAP" "10" "cross" "long",
                    Call.GetBalances,
                    Call.PlaceOrder
                      { InstId := "BTC-USDT-SWAP", TdMode := "cross", Side := "buy",
                        PosSide := "long", OrdType := "market", Sz := "200", Px := "",
                        Lever := "10", ClOrdId := "" },
                    Call.SaveTrade
                      { ID := 0, Symbol := "BTC-USDT-SWAP", Side := "buy", Price := 1000,
                        Amount := 1, Strategy := "LongPosition", Status := "filled",
                        OrderID := "1", TradeType := "futures" }] }) :=
  ⟨rfl,
   (executeSignal_saves_trade (exampleEngineFailingStore [usdtBalance "250"]) exampleBuySignal
      emptyWorld
      { state := (), calls := [Call.GetPositions "BTC-USDT-SWAP", Call.GetBalances] }
      { state := (), calls := [Call.GetPositions "BTC-USDT-SWAP", Call.GetBalances,
                               Call.SetLeverage "BTC-USDT-SWAP" "10" "cross" "long"] }
      { state := (), calls := [Call.GetPositions "BTC-USDT-SWAP", Call.GetBalances,
                               Call.SetLeverage "BTC-USDT-SWAP" "10" "cross" "long",
                               Call.GetBalances] }
      { state := (), calls := [Call.GetPositions "BTC-USDT-SWAP", Call.GetBalances,
                               Call.SetLeverage "BTC-USDT-SWAP" "10" "cross" "long",
                               Call.GetBalances,
                               Call.PlaceOrder
                                 { InstId := "BTC-USDT-SWAP", TdMode := "cross", Side := "buy",
                                   PosSide := "long", OrdType := "market", Sz := "200",
                                   Px := "", Lever := "10", ClOrdId := "" }] }
      { OrderId := "1", ClOrdId := "", Tag := "", SCode := "0", SMsg := "" }
      (by decide!) (by decide!) (by decide!) (by decide!)).trans (by decide!)⟩

/-! ## Position monitor: one closing order per cycle -/

/-- A position that meets no guard is passed over by the loop of `checkPositionPnL`. -/
theorem pnlLoop_skip {σ : Type} (e : Engine σ) (symbol : String) (pos : Position)
    (rest : List Position) (w : World σ) (h : e.breaches pos = false) :
    Engine.checkPositionPnL.loop e symbol (pos :: rest) w =
      Engine.checkPositionPnL.loop e symbol rest w := by
  unfold Engine.breaches at h
  simp only [Bool.or_eq_false_iff, Bool.and_eq_false_iff, decide_eq_false_iff_not,
    Bool.or_eq_false_iff] at h
  rw [Engine.checkPositionPnL.loop]
  obtain ⟨hl, hs⟩ := h
  have hshort : (if pos.PosSide = "short" ∧ pos.Position > 0 then
        if pos.PnLRatio ≥ e.config.ShortPosition.TakeProfit then
          e.closeShortPosition symbol pos w
        else if pos.PnLRatio ≤ -e.config.ShortPosition.StopLoss then
          e.closeShortPosition symbol pos w
        else Engine.checkPositionPnL.loop e symbol rest w
      else Engine.checkPositionPnL.loop e symbol rest w) =
      Engine.checkPositionPnL.loop e symbol rest w := by
    rcases hs with hs | hs
    · rw [if_neg hs]
    · split_ifs <;> first | rfl | exact absurd ‹_› hs.1 | exact absurd ‹_› hs.2
  rw [hshort]
  rcases hl with hl | hl
  · rw [if_neg hl]
  · split_ifs <;> first | rfl | exact absurd ‹_› hl.1 | exact absurd ‹_› hl.2

/-- The loop of `checkPositionPnL` over positions none of which has a positive
quantity closes nothing. -/
theorem pnlLoop_nonpositive {σ : Type} (e : Engine σ) (symbol : String)
    (positions : List Position) (w : World σ)
    (h : ∀ pos ∈ positions, pos.Position ≤ 0) :
    Engine.checkPositionPnL.loop e symbol positions w = (none, w) := by
  induction positions with
  | nil => rfl
  | cons pos rest ih =>
    have hpos : ¬ pos.Position > 0 := not_lt.mpr (h pos (List.mem_cons_self pos rest))
    have hb : e.breaches pos = false := by
      simp [Engine.breaches, hpos]
    rw [pnlLoop_skip e symbol pos rest w hb]
    exact ih (fun p hp => h p (List.mem_cons_of_mem pos hp))

/-- Positions of negative or zero quantity are never closed: when none of the
fetched positions has a positive quantity, `checkPositionPnL` places no order
and returns `nil`, whatever the profit ratios are. -/
theorem checkPositionPnL_nonpositive {σ : Type} (e : Engine σ) (symbol : String)
    (positions : List Position) (w : World σ)
    (hf : (e.api.GetPositions symbol w.state).1 = Except.ok positions)
    (h : ∀ pos ∈ positions, pos.Position ≤ 0) :
    e.checkPositionPnL symbol w = (none, (e.callGetPositions symbol w).2) ∧
    (e.checkPositionPnL symbol w).2.calls = w.calls ++ [Call.GetPositions symbol] := by
  have hcall : e.callGetPositions symbol w =
      (Except.ok positions, (e.callGetPositions symbol w).2) := by
    unfold Engine.callGetPositions
    rw [hf]
  have hmain : e.checkPositionPnL symbol w = (none, (e.callGetPositions symbol w).2) := by
    unfold Engine.checkPositionPnL
    rw [hcall]
    dsimp only
    split_ifs
    · rfl
    · exact pnlLoop_nonpositive e symbol positions _ h
  refine ⟨hmain, ?_⟩
  rw [hmain]
  rfl

/-- A position that meets a guard ends the loop of `checkPositionPnL`: the
result is that of its closing, whatever positions follow. -/
theorem pnlLoop_close {σ : Type} (e : Engine σ) (symbol : String) (pos : Position)
    (rest : List Position) (w : World σ) (h : e.breaches pos = true) :
    Engine.checkPositionPnL.loop e symbol (pos :: rest) w = e.closePosition symbol pos w := by
  unfold Engine.breaches at h
  simp only [Bool.or_eq_true, Bool.and_eq_true, decide_eq_true_eq] at h
  rw [Engine.checkPositionPnL.loop]
  unfold Engine.closePosition
  rcases h with ⟨hg, hb⟩ | ⟨hg, hb⟩
  · rw [if_pos hg, if_pos hg.1]
    by_cases htp : pos.PnLRatio ≥ e.config.LongPosition.TakeProfit
    · rw [if_pos htp]
    · rw [if_neg htp, if_pos (hb.resolve_left htp)]
  · have hnl : ¬ pos.PosSide = "long" := by rw [hg.1]; decide
    have hng : ¬ (pos.PosSide = "long" ∧ pos.Position > 0) := fun hc => hnl hc.1
    rw [if_neg hng, if_pos hg, if_neg hnl]
    by_cases htp : pos.PnLRatio ≥ e.config.ShortPosition.TakeProfit
    · rw [if_pos htp]
    · rw [if_neg htp, if_pos (hb.resolve_left htp)]

/-- A closing makes exactly one call, a `PlaceOrder`. -/
theorem closePosition_calls {σ : Type} (e : Engine σ) (symbol : String) (pos : Position)
    (w : World σ) :
    ∃ req : PlaceOrderRequest,
      (e.closePosition symbol pos w).2.calls = w.calls ++ [Call.PlaceOrder req] := by
  unfold Engine.closePosition
  split_ifs
  · exact ⟨_, by rw [closeLongPosition_world]; rfl⟩
  · exact ⟨_, by rw [closeShortPosition_world]; rfl⟩

/-- Counting the `PlaceOrder` calls of a record extended by one such call. -/
theorem placeOrderCount_append_placeOrder (calls : List Call) (req : PlaceOrderRequest) :
    placeOrderCount (calls ++ [Call.PlaceOrder req]) = placeOrderCount calls + 1 := by
  unfold placeOrderCount
  simp [List.filter_append]

/-- The loop of `checkPositionPnL` adds at most one `PlaceOrder` call. -/
theorem pnlLoop_count {σ : Type} (e : Engine σ) (symbol : String) (positions : List Position)
    (w : World σ) :
    placeOrderCount (Engine.checkPositionPnL.loop e symbol positions w).2.calls
      ≤ placeOrderCount w.calls + 1 := by
  induction positions with
  | nil =>
    rw [Engine.checkPositionPnL.loop]
    exact Nat.le_succ _
  | cons pos rest ih =>
    cases hb : e.breaches pos with
    | false => rw [pnlLoop_skip e symbol pos rest w hb]; exact ih
    | true =>
      rw [pnlLoop_close e symbol pos rest w hb]
      obtain ⟨req, hreq⟩ := closePosition_calls e symbol pos w
      rw [hreq, placeOrderCount_append_placeOrder]

/-- The loop of `checkPositionPnL` over positions of which the first that meets
a guard is `pos`: the positions before it are passed over and the result is that
of closing `pos`. -/
theorem pnlLoop_first_breach {σ : Type} (e : Engine σ) (symbol : String)
    (pre : List Position) (pos : Position) (rest : List Position) (w : World σ)
    (hpre : ∀ p ∈ pre, e.breaches p = false) (hpos : e.breaches pos = true) :
    Engine.checkPositionPnL.loop e symbol (pre ++ pos :: rest) w =
      e.closePosition symbol pos w := by
  induction pre with
  | nil => exact pnlLoop_close e symbol pos rest w hpos
  | cons p ps ih =>
    rw [List.cons_append, pnlLoop_skip e symbol p _ w (hpre p (List.mem_cons_self _ _))]
    exact ih (fun q hq => hpre q (List.mem_cons_of_mem _ hq))

/-- C28: one invocation of `checkPositionPnL` adds at most one `PlaceOrder`
call to the record, for every fetched list.  When `pos` is the first fetched
position that meets a take-profit or stop-loss guard, the result is the result
of closing `pos` (`nil` when the order is accepted, the wrapped error when it
is not), the calls made are the fetch and that one order, and neither depends
on the positions after `pos`, whether they meet a guard or not. -/
theorem checkPositionPnL_one_close_per_cycle {σ : Type} (e : Engine σ) (symbol : String)
    (w : World σ) :
    placeOrderCount (e.checkPositionPnL symbol w).2.calls ≤ placeOrderCount w.calls + 1 ∧
    ∀ (pre : List Position) (pos : Position) (rest : List Position),
      (e.api.GetPositions symbol w.state).1 = Except.ok (pre ++ pos :: rest) →
      (∀ p ∈ pre, e.breaches p = false) → e.breaches pos = true →
      e.checkPositionPnL symbol w =
        e.closePosition symbol pos (e.callGetPositions symbol w).2 ∧
      ∃ req : PlaceOrderRequest, (e.checkPositionPnL symbol w).2.calls =
        w.calls ++ [Call.GetPositions symbol, Call.PlaceOrder req] := by
  have hcalls : (e.callGetPositions symbol w).2.calls = w.calls ++ [Call.GetPositions symbol] :=
    rfl
  have hcount : placeOrderCount (e.callGetPositions symbol w).2.calls
      = placeOrderCount w.calls := by
    rw [hcalls]
    unfold placeOrderCount
    simp [List.filter_append]
  constructor
  · unfold Engine.checkPositionPnL
    cases hf : (e.callGetPositions symbol w) with
    | mk r w1 =>
      have hw1 : w1 = (e.callGetPositions symbol w).2 := by rw [hf]
      cases r with
      | error err =>
        dsimp only
        rw [hw1, hcount]
        exact Nat.le_succ _
      | ok positions =>
        dsimp only
        split_ifs
        · rw [hw1, hcount]
          exact Nat.le_succ _
        · have := pnlLoop_count e symbol positions w1
          rw [hw1, hcount] at this
          rw [hw1]
          exact this
  · intro pre pos rest hf hpre hpos
    have hcall : e.callGetPositions symbol w =
        (Except.ok (pre ++ pos :: rest), (e.callGetPositions symbol w).2) := by
      unfold Engine.callGetPositions
      rw [hf]
    have hrun : e.checkPositionPnL symbol w =
        e.closePosition symbol pos (e.callGetPositions symbol w).2 := by
      unfold Engine.checkPositionPnL
      rw [hcall]
      have hlen : ¬ (pre ++ pos :: rest).length = 0 := by simp
      simp only [hlen, if_false]
      exact pnlLoop_first_breach e symbol pre pos rest _ hpre hpos
    refine ⟨hrun, ?_⟩
    obtain ⟨req, hreq⟩ := closePosition_calls e symbol pos (e.callGetPositions symbol w).2
    exact ⟨req, by rw [hrun, hreq, hcalls, List.append_assoc]; rfl⟩

/-- C28 at two long positions that are both above the take-profit 0.1 (profit
ratios 0.5 and 0.6): the cycle closes the first one only. -/
theorem checkPositionPnL_one_close_per_cycle_witness :
    (exampleEngine [examplePosition "long" 5 (1 / 2) (2 / 25),
                    examplePosition "long" 7 (3 / 5) (2 / 25)] [] none).breaches
      (examplePosition "long" 7 (3 / 5) (2 / 25)) = true ∧
    (exampleEngine [examplePosition "long" 5 (1 / 2) (2 / 25),
                    examplePosition "long" 7 (3 / 5) (2 / 25)] [] none).checkPositionPnL
        "BTC-USDT-SWAP" emptyWorld =
      (exampleEngine [examplePosition "long" 5 (1 / 2) (2 / 25),
                      examplePosition "long" 7 (3 / 5) (2 / 25)] [] none).closePosition
        "BTC-USDT-SWAP" (examplePosition "long" 5 (1 / 2) (2 / 25))
        ((exampleEngine [examplePosition "long" 5 (1 / 2) (2 / 25),
                         examplePosition "long" 7 (3 / 5) (2 / 25)] [] none).callGetPositions
          "BTC-USDT-SWAP" emptyWorld).2 :=
  ⟨by decide!,
   ((checkPositionPnL_one_close_per_cycle
      (exampleEngine [examplePosition "long" 5 (1 / 2) (2 / 25),
                      examplePosition "long" 7 (3 / 5) (2 / 25)] [] none)
      "BTC-USDT-SWAP" emptyWorld).2 []
      (examplePosition "long" 5 (1 / 2) (2 / 25))
      [examplePosition "long" 7 (3 / 5) (2 / 25)] rfl
      (fun p hp => absurd hp (List.not_mem_nil p)) (by decide!)).1⟩

/-! ## RSI debounce: one counter for both zones -/

/-- A call in the overbought or oversold zone whose RSI change is below
`MinChange` returns nothing and leaves the counter as it was. -/
theorem ProcessTick_of_quiet (s : RSIStrategy) (tick : Tick) (h : s.quiet tick = true) :
    ∃ s1 : RSIStrategy, s.ProcessTick tick = some (none, s1) ∧
      s1.signalCount = s.signalCount ∧ s1.config = s.config ∧ s1.symbol = s.symbol := by
  unfold RSIStrategy.quiet at h
  cases hr : s.computedRSI tick with
  | none => rw [hr] at h; exact absurd h (by simp)
  | some r =>
    rw [hr] at h
    simp only [Bool.and_eq_true, Bool.or_eq_true, decide_eq_true_eq] at h
    obtain ⟨hlen, hcalc⟩ := computedRSI_eq_some s tick r hr
    have hc := pushPrice_config s tick.Price
    have hsy := pushPrice_symbol s tick.Price
    have hl := pushPrice_lastRSI s tick.Price
    have hn := pushPrice_signalCount s tick.Price
    have hmc : ¬ |r - (s.pushPrice tick.Price).lastRSI|
        ≥ (s.pushPrice tick.Price).config.MinChange := by
      rw [hc, hl]; exact not_le.mpr h.2
    refine ⟨{ s.pushPrice tick.Price with lastRSI := r }, ?_, hn, hc, hsy⟩
    unfold RSIStrategy.ProcessTick
    by_cases hob : r ≥ (s.pushPrice tick.Price).config.OverboughtThreshold
    · simp only [hlen, if_false, hcalc, hob, if_true, hmc]
    · have hos : r ≤ (s.pushPrice tick.Price).config.OversoldThreshold := by
        rw [hc] at hob ⊢
        exact h.1.resolve_left hob
      simp only [hlen, if_false, hcalc, hob, hos, if_true, hmc]

/-- C30: the debounce counter is shared by the two zones, and a tick in either
zone whose RSI change is below `MinChange` leaves it unchanged.  With
`SignalConfirmation = 2` and the counter at 0: a qualifying overbought tick
followed directly by a qualifying oversold tick returns nothing on the first
and a buy on the second; a qualifying overbought tick, a tick in a zone that
does not qualify, and a second qualifying overbought tick return nothing,
nothing and a sell. -/
theorem RSIStrategy_shared_counter (s : RSIStrategy) :
    (∀ tick : Tick, s.quiet tick = true →
      ∃ s1 : RSIStrategy, s.ProcessTick tick = some (none, s1) ∧
        s1.signalCount = s.signalCount) ∧
    (s.config.SignalConfirmation = 2 → s.signalCount = 0 →
      ∀ (t1 t2 : Tick) (o1 : Option Signal) (s1 : RSIStrategy),
        s.sellQualifies t1 = true → s.ProcessTick t1 = some (o1, s1) →
        s1.buyQualifies t2 = true → s1.belowOverbought t2 = true →
        o1 = none ∧ s1.signalCount = 1 ∧
        ∃ s2 : RSIStrategy,
          s1.ProcessTick t2 = some (some { Symbol := s.symbol, Strategy := "RSI",
                                           Action := "buy", Price := t2.Price,
                                           Amount := 1 }, s2) ∧
          s2.signalCount = 0) ∧
    (s.config.SignalConfirmation = 2 → s.signalCount = 0 →
      ∀ (t1 t2 t3 : Tick) (o1 o2 : Option Signal) (s1 s2 : RSIStrategy),
        s.sellQualifies t1 = true → s.ProcessTick t1 = some (o1, s1) →
        s1.quiet t2 = true → s1.ProcessTick t2 = some (o2, s2) →
        s2.sellQualifies t3 = true →
        o1 = none ∧ o2 = none ∧ s2.signalCount = 1 ∧
        ∃ s3 : RSIStrategy,
          s2.ProcessTick t3 = some (some { Symbol := s.symbol, Strategy := "RSI",
                                           Action := "sell", Price := t3.Price,
                                           Amount := 1 }, s3) ∧
          s3.signalCount = 0) := by
  have hfirst : s.config.SignalConfirmation = 2 → s.signalCount = 0 →
      ∀ (t1 : Tick) (o1 : Option Signal) (s1 : RSIStrategy),
        s.sellQualifies t1 = true → s.ProcessTick t1 = some (o1, s1) →
        o1 = none ∧ s1.signalCount = 1 ∧ s1.config = s.config ∧ s1.symbol = s.symbol := by
    intro hconf hcount t1 o1 s1 hq hp
    obtain ⟨s1', hc, hsy, hcase⟩ := ProcessTick_of_sellQualifies s t1 hq
    rcases hcase with ⟨hle, _, _⟩ | ⟨_, hrun, hcnt⟩
    · rw [hconf, hcount] at hle
      exact absurd hle (by decide)
    · rw [hp] at hrun
      have hpair := Option.some.inj hrun
      have ho : o1 = none := congrArg Prod.fst hpair
      have hs : s1 = s1' := congrArg Prod.snd hpair
      rw [hs]
      exact ⟨ho, by rw [hcnt, hcount]; rfl, hc, hsy⟩
  refine ⟨?_, ?_, ?_⟩
  · intro tick hq
    obtain ⟨s1, hrun, hcnt, _, _⟩ := ProcessTick_of_quiet s tick hq
    exact ⟨s1, hrun, hcnt⟩
  · intro hconf hcount t1 t2 o1 s1 hq1 hp1 hq2 hb2
    obtain ⟨ho, hcnt1, hc1, hsy1⟩ := hfirst hconf hcount t1 o1 s1 hq1 hp1
    refine ⟨ho, hcnt1, ?_⟩
    obtain ⟨s2, _, _, hcase⟩ := ProcessTick_of_buyQualifies s1 t2 hq2 hb2
    rcases hcase with ⟨_, hrun, hcnt⟩ | ⟨hlt, _, _⟩
    · rw [hsy1] at hrun
      exact ⟨s2, hrun, hcnt⟩
    · rw [hc1, hconf, hcnt1] at hlt
      exact absurd hlt (by decide)
  · intro hconf hcount t1 t2 t3 o1 o2 s1 s2 hq1 hp1 hq2 hp2 hq3
    obtain ⟨ho, hcnt1, hc1, hsy1⟩ := hfirst hconf hcount t1 o1 s1 hq1 hp1
    obtain ⟨s2', hrun2, hcnt2, hc2, hsy2⟩ := ProcessTick_of_quiet s1 t2 hq2
    rw [hp2] at hrun2
    have hpair := Option.some.inj hrun2
    have ho2 : o2 = none := congrArg Prod.fst hpair
    have hs2 : s2 = s2' := congrArg Prod.snd hpair
    have hcnt2' : s2.signalCount = 1 := by rw [hs2, hcnt2, hcnt1]
    have hc2' : s2.config = s.config := by rw [hs2, hc2, hc1]
    have hsy2' : s2.symbol = s.symbol := by rw [hs2, hsy2, hsy1]
    refine ⟨ho, ho2, hcnt2', ?_⟩
    obtain ⟨s3, _, _, hcase⟩ := ProcessTick_of_sellQualifies s2 t3 hq3
    rcases hcase with ⟨_, hrun, hcnt⟩ | ⟨hlt, _, _⟩
    · rw [hsy2'] at hrun
      exact ⟨s3, hrun, hcnt⟩
    · rw [hc2', hconf, hcnt2'] at hlt
      exact absurd hlt (by decide)

/-- C30 at period 2, thresholds 70 and 30, confirmation 2, minimum change 5 and
the buffer 10, 20.  The ticks 30 and 1 give the RSI values 100 and 1000/39: a
buy on the second tick.  The ticks 30, 40 and 39 give 100, 100 and 1000/11:
the second tick does not qualify, and the third returns a sell. -/
theorem RSIStrategy_shared_counter_witness :
    (∃ s2 : RSIStrategy,
      ({ rsiSharedCounterExample with prices := [10, 20, 30], lastRSI := 100,
                                      signalCount := 1 } : RSIStrategy).ProcessTick (tickAt 1) =
        some (some { Symbol := "BTC-USDT-SWAP", Strategy := "RSI", Action := "buy",
                     Price := 1, Amount := 1 }, s2) ∧
      s2.signalCount = 0) ∧
    (∃ s3 : RSIStrategy,
      ({ rsiSharedCounterExample with prices := [10, 20, 30, 40], lastRSI := 100,
                                      signalCount := 1 } : RSIStrategy).ProcessTick (tickAt 39) =
        some (some { Symbol := "BTC-USDT-SWAP", Strategy := "RSI", Action := "sell",
                     Price := 39, Amount := 1 }, s3) ∧
      s3.signalCount = 0) :=
  ⟨((RSIStrategy_shared_counter rsiSharedCounterExample).2.1 rfl rfl (tickAt 30) (tickAt 1) none
      { rsiSharedCounterExample with prices := [10, 20, 30], lastRSI := 100, signalCount := 1 }
      (by decide!) (by decide!) (by decide!) (by decide!)).2.2,
   ((RSIStrategy_shared_counter rsiSharedCounterExample).2.2 rfl rfl (tickAt 30) (tickAt 40)
      (tickAt 39) none none
      { rsiSharedCounterExample with prices := [10, 20, 30], lastRSI := 100, signalCount := 1 }
      { rsiSharedCounterExample with prices := [10, 20, 30, 40], lastRSI := 100,
                                     signalCount := 1 }
      (by decide!) (by decide!) (by decide!) (by decide!) (by decide!)).2.2.2⟩

/-! ## Stop of the strategies -/

/-- C24: `Stop` does not clear the state the claim names.  The grid strategy
initialised over 100 to 110 with 5 buckets keeps its six levels through `Stop`,
and the tick 100.1 that follows returns a buy with no `Initialize` in between;
for every grid strategy `Stop` changes nothing.  The RSI strategy with period 1
and the buffer 99 computes the RSI 100 on the tick 100, and after `Stop` its
`lastRSI` is still 100; for every RSI strategy `Stop` empties the buffer, sets
the counter to 0 and leaves `lastRSI` as it was. -/
theorem Stop_keeps_lastRSI_and_levels :
    (NewGridStrategy "BTC-USDT-SWAP"
        { Enabled := true, UpperPrice := 110, LowerPrice := 100,
          GridNumber := 5, TotalAmount := 0 }).Initialize.map
        (fun g => (g.Stop.gridLevels, g.Stop.ProcessTick (tickAt (1001 / 10))))
      = some ([100, 102, 104, 106, 108, 110],
              some { Symbol := "BTC-USDT-SWAP", Strategy := "Grid", Action := "buy",
                     Price := 1001 / 10, Amount := 1 }) ∧
    (rsiDebounceExample.ProcessTick (tickAt 100)).map (fun r => (r.2.lastRSI, r.2.Stop.lastRSI))
      = some (100, 100) ∧
    (∀ g : GridStrategy, g.Stop = g) ∧
    (∀ s : RSIStrategy, s.Stop.prices = [] ∧ s.Stop.signalCount = 0 ∧
      s.Stop.lastRSI = s.lastRSI) :=
  ⟨by decide!, by decide!, fun _ => rfl, fun _ => ⟨rfl, rfl, rfl⟩⟩

/-! ## Engine shutdown -/

/-- C23, as the code has it: on an engine whose stop channel is open, `Stop`
closes the channel and stops every strategy; a second `Stop` then panics at
the `close` of the closed channel. -/
theorem Engine_Stop_once (st : EngineState) (h : st.stopChanClosed = false) :
    ∃ st1 : EngineState, Engine.Stop st = some st1 ∧ st1.stopChanClosed = true ∧
      st1.strategies = st.strategies.map Strategy.Stop ∧ Engine.Stop st1 = none := by
  refine ⟨{ strategies := st.strategies.map Strategy.Stop, stopChanClosed := true }, ?_, rfl,
    rfl, rfl⟩
  unfold Engine.Stop
  rw [h]
  rfl

/-- C23 as amended, at the engine built from the example configuration. -/
theorem Engine_Stop_once_witness :
    ∃ st1 : EngineState, Engine.Stop (NewEngine strategyExampleConfig) = some st1 ∧
      st1.stopChanClosed = true ∧
      st1.strategies = (NewEngine strategyExampleConfig).strategies.map Strategy.Stop ∧
      Engine.Stop st1 = none :=
  Engine_Stop_once (NewEngine strategyExampleConfig) rfl

/-- C23 as stated fails: on the engine built from the example configuration
the first `Stop` completes, and the second `Stop`, on the stopped engine,
panics instead of completing. -/
theorem Engine_Stop_twice_panics :
    (Engine.Stop (NewEngine strategyExampleConfig)).isSome = true ∧
    (Engine.Stop (NewEngine strategyExampleConfig)).bind Engine.Stop = none := by
  decide!

/-! ## RSI strategies built by the engine -/

/-- `ProcessTick` keeps the configuration. -/
theorem RSIStrategy_ProcessTick_config (s : RSIStrategy) (tick : Tick) (o : Option Signal)
    (s1 : RSIStrategy) (h : s.ProcessTick tick = some (o, s1)) : s1.config = s.config := by
  have hc := pushPrice_config s tick.Price
  unfold RSIStrategy.ProcessTick at h
  dsimp only at h
  by_cases hlen : ((s.pushPrice tick.Price).prices.length : Int)
      < (s.pushPrice tick.Price).config.Period
  · rw [if_pos hlen] at h
    obtain ⟨_, rfl⟩ := Prod.mk.inj (Option.some.inj h)
    exact hc
  · rw [if_neg hlen] at h
    cases hcalc : (s.pushPrice tick.Price).calculateRSI with
    | none => rw [hcalc] at h; exact Option.noConfusion h
    | some r =>
      rw [hcalc] at h
      dsimp only at h
      split_ifs at h
      all_goals
        obtain ⟨_, rfl⟩ := Prod.mk.inj (Option.some.inj h)
        exact hc

/-- With `SignalConfirmation = 0`, `MinChange = 0` and the counter at 0, the
counter is 0 again after `ProcessTick`. -/
theorem RSIStrategy_ProcessTick_counter_zero (s : RSIStrategy) (tick : Tick)
    (hconf : s.config.SignalConfirmation = 0) (hcount : s.signalCount = 0)
    (o : Option Signal) (s1 : RSIStrategy) (h : s.ProcessTick tick = some (o, s1)) :
    s1.signalCount = 0 := by
  have hc := pushPrice_config s tick.Price
  have hn := pushPrice_signalCount s tick.Price
  unfold RSIStrategy.ProcessTick at h
  dsimp only at h
  by_cases hlen : ((s.pushPrice tick.Price).prices.length : Int)
      < (s.pushPrice tick.Price).config.Period
  · rw [if_pos hlen] at h
    obtain ⟨_, rfl⟩ := Prod.mk.inj (Option.some.inj h)
    rw [hn, hcount]
  · rw [if_neg hlen] at h
    cases hcalc : (s.pushPrice tick.Price).calculateRSI with
    | none => rw [hcalc] at h; exact Option.noConfusion h
    | some r =>
      rw [hcalc] at h
      dsimp only at h
      have hge : (s.pushPrice tick.Price).signalCount + 1
          ≥ (s.pushPrice tick.Price).config.SignalConfirmation := by
        rw [hc, hn, hconf, hcount]; decide
      simp only [hge, if_true] at h
      split_ifs at h
      all_goals
        obtain ⟨_, rfl⟩ := Prod.mk.inj (Option.some.inj h)
        first
        | rfl
        | (show (s.pushPrice tick.Price).signalCount = 0
           rw [hn, hcount])

/-- `Initialize` keeps the configuration and the counter. -/
theorem RSIStrategy_Initialize_keeps (s : RSIStrategy) (klines : Except String (List String))
    (ParseFloat : String → Except String ℚ) (err : Option String) (s1 : RSIStrategy)
    (h : s.Initialize klines ParseFloat = some (err, s1)) :
    s1.config = s.config ∧ s1.signalCount = s.signalCount := by
  unfold RSIStrategy.Initialize at h
  cases klines with
  | error e =>
    dsimp only at h
    obtain ⟨_, rfl⟩ := Prod.mk.inj (Option.some.inj h)
    exact ⟨rfl, rfl⟩
  | ok closes =>
    dsimp only at h
    split_ifs at h
    · split at h
      · exact Option.noConfusion h
      · obtain ⟨_, rfl⟩ := Prod.mk.inj (Option.some.inj h)
        exact ⟨rfl, rfl⟩
    · obtain ⟨_, rfl⟩ := Prod.mk.inj (Option.some.inj h)
      exact ⟨rfl, rfl⟩

/-- C26: every RSI strategy that `NewEngine` builds has `SignalConfirmation = 0`
and `MinChange = 0` (and the period and thresholds of the configuration, and the
counter at 0).  For a strategy with these two settings and the counter at 0,
`ProcessTick`, `Stop` and `Initialize` keep the settings and leave the counter
at 0, and every `ProcessTick` call that computes an RSI (the buffer holds at
least `Period` prices) returns a sell when the RSI is at least the overbought
threshold and a buy when it is below the overbought and at most the oversold
threshold: neither the debounce nor the minimum change holds a signal back. -/
theorem NewEngine_rsi_no_debounce (config : Config) :
    (∀ s : RSIStrategy, Strategy.rsi s ∈ (NewEngine config).strategies →
      s.config.SignalConfirmation = 0 ∧ s.config.MinChange = 0 ∧ s.signalCount = 0 ∧
      s.config.Period = config.RSI.Period ∧
      s.config.OverboughtThreshold = config.RSI.OverboughtThreshold ∧
      s.config.OversoldThreshold = config.RSI.OversoldThreshold) ∧
    (∀ (s : RSIStrategy) (tick : Tick),
      s.config.SignalConfirmation = 0 → s.config.MinChange = 0 → s.signalCount = 0 →
      (∀ (o : Option Signal) (s1 : RSIStrategy), s.ProcessTick tick = some (o, s1) →
        s1.config = s.config ∧ s1.signalCount = 0) ∧
      (s.Stop.config = s.config ∧ s.Stop.signalCount = 0) ∧
      (∀ (klines : Except String (List String)) (ParseFloat : String → Except String ℚ)
        (err : Option String) (s1 : RSIStrategy),
        s.Initialize klines ParseFloat = some (err, s1) →
        s1.config = s.config ∧ s1.signalCount = 0) ∧
      (∀ r : ℚ, s.computedRSI tick = some r → r ≥ s.config.OverboughtThreshold →
        ∃ s1 : RSIStrategy,
          s.ProcessTick tick = some (some { Symbol := s.symbol, Strategy := "RSI",
                                            Action := "sell", Price := tick.Price,
                                            Amount := 1 }, s1)) ∧
      (∀ r : ℚ, s.computedRSI tick = some r → r < s.config.OverboughtThreshold →
        r ≤ s.config.OversoldThreshold →
        ∃ s1 : RSIStrategy,
          s.ProcessTick tick = some (some { Symbol := s.symbol, Strategy := "RSI",
                                            Action := "buy", Price := tick.Price,
                                            Amount := 1 }, s1))) := by
  constructor
  · intro s hs
    unfold NewEngine at hs
    dsimp only at hs
    rw [List.mem_append] at hs
    rcases hs with hg | hr
    · split_ifs at hg
      · rw [List.mem_map] at hg
        obtain ⟨_, _, heq⟩ := hg
        exact Strategy.noConfusion heq
      · exact absurd hg (List.not_mem_nil _)
    · split_ifs at hr
      · rw [List.mem_map] at hr
        obtain ⟨symbol, _, heq⟩ := hr
        have hs : NewRSIStrategy symbol
            { Enabled := config.RSI.Enabled, Period := config.RSI.Period,
              OverboughtThreshold := config.RSI.OverboughtThreshold,
              OversoldThreshold := config.RSI.OversoldThreshold,
              SignalConfirmation := 0, MinChange := 0 } = s := Strategy.rsi.inj heq
        rw [← hs]
        exact ⟨rfl, rfl, rfl, rfl, rfl, rfl⟩
      · exact absurd hr (List.not_mem_nil _)
  · intro s tick hconf hmin hcount
    refine ⟨?_, ⟨rfl, rfl⟩, ?_, ?_, ?_⟩
    · intro o s1 h
      exact ⟨RSIStrategy_ProcessTick_config s tick o s1 h,
        RSIStrategy_ProcessTick_counter_zero s tick hconf hcount o s1 h⟩
    · intro klines ParseFloat err s1 h
      obtain ⟨h1, h2⟩ := RSIStrategy_Initialize_keeps s klines ParseFloat err s1 h
      exact ⟨h1, by rw [h2, hcount]⟩
    · intro r hr hob
      have hq : s.sellQualifies tick = true := by
        unfold RSIStrategy.sellQualifies
        rw [hr]
        simp only [Bool.and_eq_true, decide_eq_true_eq]
        exact ⟨hob, by rw [hmin]; exact abs_nonneg _⟩
      obtain ⟨s1, _, _, hcase⟩ := ProcessTick_of_sellQualifies s tick hq
      rcases hcase with ⟨_, hrun, _⟩ | ⟨hlt, _, _⟩
      · exact ⟨s1, hrun⟩
      · rw [hconf, hcount] at hlt
        exact absurd hlt (by decide)
    · intro r hr hob hos
      have hq : s.buyQualifies tick = true := by
        unfold RSIStrategy.buyQualifies
        rw [hr]
        simp only [Bool.and_eq_true, decide_eq_true_eq]
        exact ⟨hos, by rw [hmin]; exact abs_nonneg _⟩
      have hb : s.belowOverbought tick = true := by
        unfold RSIStrategy.belowOverbought
        rw [hr]
        simp only [decide_eq_true_eq]
        exact hob
      obtain ⟨s1, _, _, hcase⟩ := ProcessTick_of_buyQualifies s tick hq hb
      rcases hcase with ⟨_, hrun, _⟩ | ⟨hlt, _, _⟩
      · exact ⟨s1, hrun⟩
      · rw [hconf, hcount] at hlt
        exact absurd hlt (by decide)

/-- C26 at the configuration with the RSI enabled (period 1, thresholds 70 and
30): the strategy built for "BTC-USDT-SWAP" has confirmation 0 and minimum
change 0, and with the price 99 buffered the tick 100, whose RSI is 100,
returns a sell at once. -/
theorem NewEngine_rsi_no_debounce_witness :
    (rsiEngineExample.config.SignalConfirmation = 0 ∧ rsiEngineExample.config.MinChange = 0 ∧
      rsiEngineExample.signalCount = 0 ∧
      rsiEngineExample.config.Period = strategyExampleConfig.RSI.Period ∧
      rsiEngineExample.config.OverboughtThreshold
        = strategyExampleConfig.RSI.OverboughtThreshold ∧
      rsiEngineExample.config.OversoldThreshold
        = strategyExampleConfig.RSI.OversoldThreshold) ∧
    ∃ s1 : RSIStrategy,
      ({ rsiEngineExample with prices := [99] } : RSIStrategy).ProcessTick (tickAt 100) =
        some (some { Symbol := "BTC-USDT-SWAP", Strategy := "RSI", Action := "sell",
                     Price := 100, Amount := 1 }, s1) :=
  ⟨(NewEngine_rsi_no_debounce strategyExampleConfig).1 rsiEngineExample (by decide!),
   ((NewEngine_rsi_no_debounce strategyExampleConfig).2
      { rsiEngineExample with prices := [99] } (tickAt 100) rfl rfl rfl).2.2.2.1 100
      (by decide!) (by decide!)⟩

/-! ## Ticks of other symbols -/

/-- The loop of `checkGridSignal` returns signals that carry the strategy's
symbol and the price it was given. -/
theorem checkGridSignalLoop_signal (g : GridStrategy) (price : ℚ) (idx : List Nat)
    (sig : Signal) (h : g.checkGridSignalLoop price idx = some sig) :
    sig.Symbol = g.symbol ∧ sig.Price = price := by
  induction idx with
  | nil => exact absurd h (by simp [GridStrategy.checkGridSignalLoop])
  | cons i rest ih =>
    unfold GridStrategy.checkGridSignalLoop at h
    dsimp only at h
    split_ifs at h
    · cases Option.some.inj h
      exact ⟨rfl, rfl⟩
    · cases Option.some.inj h
      exact ⟨rfl, rfl⟩
    · exact ih h
    · exact ih h

/-- A signal returned by `GridStrategy.ProcessTick` carries the strategy's
symbol and the price of the tick. -/
theorem GridStrategy_ProcessTick_signal (g : GridStrategy) (tick : Tick) (sig : Signal)
    (h : g.ProcessTick tick = some sig) :
    sig.Symbol = g.symbol ∧ sig.Price = tick.Price := by
  unfold GridStrategy.ProcessTick at h
  dsimp only at h
  split_ifs at h
  split at h
  · exact absurd h (by simp)
  · exact checkGridSignalLoop_signal g tick.Price _ sig h

/-- A signal returned by `RSIStrategy.ProcessTick` carries the strategy's
symbol and the price of the tick. -/
theorem RSIStrategy_ProcessTick_signal (s : RSIStrategy) (tick : Tick) (sig : Signal)
    (s1 : RSIStrategy) (h : s.ProcessTick tick = some (some sig, s1)) :
    sig.Symbol = s.symbol ∧ sig.Price = tick.Price := by
  have hsy := pushPrice_symbol s tick.Price
  unfold RSIStrategy.ProcessTick at h
  dsimp only at h
  by_cases hlen : ((s.pushPrice tick.Price).prices.length : Int)
      < (s.pushPrice tick.Price).config.Period
  · rw [if_pos hlen] at h
    exact Option.noConfusion (congrArg Prod.fst (Option.some.inj h))
  · rw [if_neg hlen] at h
    cases hcalc : (s.pushPrice tick.Price).calculateRSI with
    | none => rw [hcalc] at h; exact Option.noConfusion h
    | some r =>
      rw [hcalc] at h
      dsimp only at h
      split_ifs at h
      all_goals
        have hfst := congrArg Prod.fst (Option.some.inj h)
        first
        | exact Option.noConfusion hfst
        | (have hsig := Option.some.inj hfst
           rw [← hsig]
           exact ⟨hsy, rfl⟩)

/-- `GridStrategy.ProcessTick` uses the price of the tick only. -/
theorem GridStrategy_ProcessTick_price_only (g : GridStrategy) (t1 t2 : Tick)
    (h : t1.Price = t2.Price) : g.ProcessTick t1 = g.ProcessTick t2 := by
  unfold GridStrategy.ProcessTick
  rw [h]

/-- `RSIStrategy.ProcessTick` uses the price of the tick only. -/
theorem RSIStrategy_ProcessTick_price_only (s : RSIStrategy) (t1 t2 : Tick)
    (h : t1.Price = t2.Price) : s.ProcessTick t1 = s.ProcessTick t2 := by
  unfold RSIStrategy.ProcessTick RSIStrategy.sellSignal RSIStrategy.buySignal
  rw [h]

/-- `Strategy.ProcessTick` uses the price of the tick only. -/
theorem Strategy_ProcessTick_price_only (strategy : Strategy) (t1 t2 : Tick)
    (h : t1.Price = t2.Price) : strategy.ProcessTick t1 = strategy.ProcessTick t2 := by
  cases strategy with
  | grid g =>
    show some (g.ProcessTick t1, Strategy.grid g) = some (g.ProcessTick t2, Strategy.grid g)
    rw [GridStrategy_ProcessTick_price_only g t1 t2 h]
  | rsi s =>
    simp only [Strategy.ProcessTick, RSIStrategy_ProcessTick_price_only s t1 t2 h]

/-- A signal returned through the interface carries the symbol of the strategy
and the price of the tick. -/
theorem Strategy_ProcessTick_signal (strategy : Strategy) (tick : Tick) (sig : Signal)
    (strategy1 : Strategy) (h : strategy.ProcessTick tick = some (some sig, strategy1)) :
    sig.Symbol = strategy.symbol ∧ sig.Price = tick.Price := by
  cases strategy with
  | grid g =>
    unfold Strategy.ProcessTick at h
    have hsig : g.ProcessTick tick = some sig := congrArg Prod.fst (Option.some.inj h)
    exact GridStrategy_ProcessTick_signal g tick sig hsig
  | rsi s =>
    cases hp : s.ProcessTick tick with
    | none =>
      simp only [Strategy.ProcessTick, hp] at h
      exact Option.noConfusion h
    | some r =>
      obtain ⟨o, s1⟩ := r
      simp only [Strategy.ProcessTick, hp] at h
      have ho : o = some sig := congrArg Prod.fst (Option.some.inj h)
      rw [ho] at hp
      exact RSIStrategy_ProcessTick_signal s tick sig s1 hp

/-- The strategy loop of a polling task does not depend on the task's symbol
or on the clock. -/
theorem strategyLoop_symbol_free (symbol symbol2 : String) (price : ℚ) (now now2 : Int)
    (strategies : List Strategy) :
    Engine.updateMarketData.strategyLoop symbol price now strategies =
      Engine.updateMarketData.strategyLoop symbol2 price now2 strategies := by
  induction strategies with
  | nil => rfl
  | cons strategy rest ih =>
    unfold Engine.updateMarketData.strategyLoop
    rw [ih, Strategy_ProcessTick_price_only strategy
      { Symbol := symbol, Price := price, Volume := 0, Timestamp := now }
      { Symbol := symbol2, Price := price, Volume := 0, Timestamp := now2 } rfl]

/-- Every signal the strategy loop sends carries the loop's price and the
symbol of one of the registered strategies. -/
theorem strategyLoop_signals (symbol : String) (price : ℚ) (now : Int)
    (strategies : List Strategy) :
    ∀ (signals : List Signal) (after : List Strategy),
      Engine.updateMarketData.strategyLoop symbol price now strategies = some (signals, after) →
      ∀ sig ∈ signals, sig.Price = price ∧ ∃ strategy ∈ strategies, sig.Symbol = strategy.symbol := by
  induction strategies with
  | nil =>
    intro signals after h sig hsig
    unfold Engine.updateMarketData.strategyLoop at h
    have hs : signals = [] := (congrArg Prod.fst (Option.some.inj h)).symm
    rw [hs] at hsig
    exact absurd hsig (List.not_mem_nil sig)
  | cons strategy rest ih =>
    intro signals after h sig hsig
    unfold Engine.updateMarketData.strategyLoop at h
    cases hp : strategy.ProcessTick { Symbol := symbol, Price := price, Volume := 0,
                                      Timestamp := now } with
    | none => rw [hp] at h; exact absurd h (by simp)
    | some r =>
      obtain ⟨o, strategy1⟩ := r
      cases hl : Engine.updateMarketData.strategyLoop symbol price now rest with
      | none => rw [hp, hl] at h; exact absurd h (by simp)
      | some r2 =>
        obtain ⟨signals2, rest1⟩ := r2
        rw [hp, hl] at h
        have hs : o.toList ++ signals2 = signals := congrArg Prod.fst (Option.some.inj h)
        rw [← hs, List.mem_append] at hsig
        rcases hsig with hhead | htail
        · cases o with
          | none => exact absurd hhead (List.not_mem_nil sig)
          | some sig0 =>
            have hsig0 : sig = sig0 := by simpa using hhead
            rw [hsig0]
            obtain ⟨h1, h2⟩ := Strategy_ProcessTick_signal strategy _ sig0 strategy1 hp
            exact ⟨h2, strategy, List.mem_cons_self _ _, h1⟩
        · obtain ⟨h1, strategy2, hmem, h2⟩ := ih signals2 rest1 hl sig htail
          exact ⟨h1, strategy2, List.mem_cons_of_mem _ hmem, h2⟩

/-- C29: `GridStrategy.ProcessTick` and `RSIStrategy.ProcessTick` give the same
signal and the same new state on two ticks of equal price, whatever their
symbols; a signal they return carries the strategy's own symbol and the price
of the tick.  The strategy loop of a polling task gives the same signals and
strategy states whatever the task's symbol, and every signal it sends carries
the fetched price and the symbol of a registered strategy: a strategy created
for one symbol sends signals for that symbol at the prices of another symbol. -/
theorem ProcessTick_ignores_tick_symbol :
    (∀ (g : GridStrategy) (t1 t2 : Tick), t1.Price = t2.Price →
      g.ProcessTick t1 = g.ProcessTick t2) ∧
    (∀ (s : RSIStrategy) (t1 t2 : Tick), t1.Price = t2.Price →
      s.ProcessTick t1 = s.ProcessTick t2) ∧
    (∀ (g : GridStrategy) (tick : Tick) (sig : Signal), g.ProcessTick tick = some sig →
      sig.Symbol = g.symbol ∧ sig.Price = tick.Price) ∧
    (∀ (s : RSIStrategy) (tick : Tick) (sig : Signal) (s1 : RSIStrategy),
      s.ProcessTick tick = some (some sig, s1) →
      sig.Symbol = s.symbol ∧ sig.Price = tick.Price) ∧
    (∀ (symbol symbol2 : String) (price : ℚ) (now now2 : Int) (strategies : List Strategy),
      Engine.updateMarketData.strategyLoop symbol price now strategies =
        Engine.updateMarketData.strategyLoop symbol2 price now2 strategies) ∧
    (∀ (symbol : String) (price : ℚ) (now : Int) (strategies : List Strategy)
      (signals : List Signal) (after : List Strategy),
      Engine.updateMarketData.strategyLoop symbol price now strategies = some (signals, after) →
      ∀ sig ∈ signals, sig.Price = price ∧
        ∃ strategy ∈ strategies, sig.Symbol = strategy.symbol) := by
  exact ⟨GridStrategy_ProcessTick_price_only, RSIStrategy_ProcessTick_price_only,
    GridStrategy_ProcessTick_signal, RSIStrategy_ProcessTick_signal,
    strategyLoop_symbol_free, strategyLoop_signals⟩

/-- C29 at the grid strategy created for "BTC-USDT-SWAP" over 100 to 110: the
polling task of "ETH-USDT-SWAP" fetches the price 100.1, and the loop sends a
buy for "BTC-USDT-SWAP" at 100.1. -/
theorem ProcessTick_ignores_tick_symbol_witness :
    Engine.updateMarketData.strategyLoop "ETH-USDT-SWAP" (1001 / 10) 0
        [Strategy.grid gridExample, Strategy.rsi rsiDebounceExample] =
      some ([{ Symbol := "BTC-USDT-SWAP", Strategy := "Grid", Action := "buy",
               Price := 1001 / 10, Amount := 1 }],
            [Strategy.grid gridExample,
             Strategy.rsi { rsiDebounceExample with prices := [99, 1001 / 10], lastRSI := 100,
                                                    signalCount := 1 }]) ∧
    (gridExample.ProcessTick
        { Symbol := "ETH-USDT-SWAP", Price := 1001 / 10, Volume := 0, Timestamp := 0 } =
      gridExample.ProcessTick (tickAt (1001 / 10))) ∧
    (∀ sig ∈ [({ Symbol := "BTC-USDT-SWAP", Strategy := "Grid", Action := "buy",
                 Price := 1001 / 10, Amount := 1 } : Signal)],
      sig.Price = 1001 / 10 ∧
        ∃ strategy ∈ [Strategy.grid gridExample, Strategy.rsi rsiDebounceExample],
          sig.Symbol = strategy.symbol) :=
  ⟨by decide!,
   ProcessTick_ignores_tick_symbol.1 gridExample
     { Symbol := "ETH-USDT-SWAP", Price := 1001 / 10, Volume := 0, Timestamp := 0 }
     (tickAt (1001 / 10)) rfl,
   ProcessTick_ignores_tick_symbol.2.2.2.2.2 "ETH-USDT-SWAP" (1001 / 10) 0
     [Strategy.grid gridExample, Strategy.rsi rsiDebounceExample]
     [{ Symbol := "BTC-USDT-SWAP", Strategy := "Grid", Action := "buy", Price := 1001 / 10,
        Amount := 1 }]
     [Strategy.grid gridExample,
      Strategy.rsi { rsiDebounceExample with prices := [99, 1001 / 10], lastRSI := 100,
                                             signalCount := 1 }] (by decide!)⟩

/-! ## Orders and the tasks that place them -/

/-- The orders among the calls of a record extended by a fetch and one order. -/
theorem ordersOf_fetch_order (task : Task) (calls : List Call) (symbol : String)
    (req : PlaceOrderRequest) :
    ordersOf task ((calls ++ [Call.GetPositions symbol, Call.PlaceOrder req]).drop calls.length)
      = [(task, req)] := by
  rw [List.drop_left]
  rfl

/-- C25, as the code has it.  The profit-and-loss case of a polling task sends
nothing to the signal queue, and when the first fetched position that meets a
guard is `pos`, the closing order is placed by that polling task itself.  The
consumer of the queue takes the signal at the head of the queue, executes it and
leaves the rest of the queue: it serializes the orders of signals only. -/
theorem orders_by_task {σ : Type} (e : Engine σ) (signals : List Signal) (w : World σ) :
    (∀ symbol : String,
      Engine.updateMarketData.pnlCase e symbol signals w =
        (signals, (e.checkPositionPnL symbol w).2)) ∧
    (∀ (symbol : String) (pre : List Position) (pos : Position) (rest : List Position),
      (e.api.GetPositions symbol w.state).1 = Except.ok (pre ++ pos :: rest) →
      (∀ p ∈ pre, e.breaches p = false) → e.breaches pos = true →
      ∃ req : PlaceOrderRequest,
        e.runTasks [Task.updateMarketData symbol] signals w =
          some ([(Task.updateMarketData symbol, req)], signals,
                (e.checkPositionPnL symbol w).2)) ∧
    (∀ (signal : Signal) (rest : List Signal),
      e.runTask Task.processSignals (signal :: rest) w =
        (e.executeSignal signal w).map (fun r => (rest, r.2))) := by
  refine ⟨fun _ => rfl, ?_, ?_⟩
  · intro symbol pre pos rest hf hpre hpos
    have hcall : e.callGetPositions symbol w =
        (Except.ok (pre ++ pos :: rest), (e.callGetPositions symbol w).2) := by
      unfold Engine.callGetPositions
      rw [hf]
    have hrun : e.checkPositionPnL symbol w =
        e.closePosition symbol pos (e.callGetPositions symbol w).2 := by
      unfold Engine.checkPositionPnL
      rw [hcall]
      have hlen : ¬ (pre ++ pos :: rest).length = 0 := by simp
      simp only [hlen, if_false]
      exact pnlLoop_first_breach e symbol pre pos rest _ hpre hpos
    obtain ⟨req, hreq⟩ := closePosition_calls e symbol pos (e.callGetPositions symbol w).2
    have hcalls : (e.checkPositionPnL symbol w).2.calls =
        w.calls ++ [Call.GetPositions symbol, Call.PlaceOrder req] := by
      rw [hrun, hreq]
      show (w.calls ++ [Call.GetPositions symbol]) ++ _ = _
      rw [List.append_assoc]
      rfl
    refine ⟨req, ?_⟩
    simp only [Engine.runTasks, Engine.runTask, Engine.updateMarketData.pnlCase, hcalls,
      ordersOf_fetch_order, List.append_nil]
  · intro signal rest
    simp only [Engine.runTask, Engine.processSignals.signalCase]
    cases e.executeSignal signal w with
    | none => rfl
    | some r => rfl

/-- C25 as amended, at a long position above its take-profit and an empty
signal queue: the polling task of "BTC-USDT-SWAP" places the closing order. -/
theorem orders_by_task_witness :
    ∃ req : PlaceOrderRequest,
      (exampleEngine [examplePosition "long" 5 (1 / 2) (2 / 25)] [] none).runTasks
          [Task.updateMarketData "BTC-USDT-SWAP"] [] emptyWorld =
        some ([(Task.updateMarketData "BTC-USDT-SWAP", req)], [],
              ((exampleEngine [examplePosition "long" 5 (1 / 2) (2 / 25)] [] none).checkPositionPnL
                "BTC-USDT-SWAP" emptyWorld).2) :=
  (orders_by_task (exampleEngine [examplePosition "long" 5 (1 / 2) (2 / 25)] [] none) []
    emptyWorld).2.1 "BTC-USDT-SWAP" [] (examplePosition "long" 5 (1 / 2) (2 / 25)) [] rfl
    (fun p hp => absurd hp (List.not_mem_nil p)) (by decide!)

/-- C25 as stated fails: not all orders go through the consumer of the signal
queue.  With a long position above its take-profit, 250 USDT available and one
buy signal in the queue, a turn of the polling task of "BTC-USDT-SWAP", a turn
of the polling task of "ETH-USDT-SWAP" and a turn of the consumer place three
orders; the two closing orders are placed by the polling tasks while the signal
is still waiting in the queue, and only the third order is placed by the
consumer. -/
theorem closing_orders_bypass_queue :
    ((exampleEngine [examplePosition "long" 5 (1 / 2) (2 / 25)] [usdtBalance "250"] none).runTasks
        [Task.updateMarketData "BTC-USDT-SWAP", Task.updateMarketData "ETH-USDT-SWAP",
         Task.processSignals] [exampleBuySignal] emptyWorld).map (fun r => (r.1, r.2.1)) =
      some ([(Task.updateMarketData "BTC-USDT-SWAP",
              { InstId := "BTC-USDT-SWAP", TdMode := "cross", Side := "sell", PosSide := "long",
                OrdType := "market", Sz := "200", Px := "", Lever := "", ClOrdId := "close0" }),
             (Task.updateMarketData "ETH-USDT-SWAP",
              { InstId := "ETH-USDT-SWAP", TdMode := "cross", Side := "sell", PosSide := "long",
                OrdType := "market", Sz := "200", Px := "", Lever := "", ClOrdId := "close0" }),
             (Task.processSignals,
              { InstId := "BTC-USDT-SWAP", TdMode := "cross", Side := "buy", PosSide := "long",
                OrdType := "market", Sz := "200", Px := "", Lever := "10", ClOrdId := "" })],
            []) ∧
    ((exampleEngine [examplePosition "long" 5 (1 / 2) (2 / 25)] [usdtBalance "250"] none).runTasks
        [Task.updateMarketData "BTC-USDT-SWAP", Task.updateMarketData "ETH-USDT-SWAP"]
        [exampleBuySignal] emptyWorld).map (fun r => (r.1.length, r.2.1)) =
      some (2, [exampleBuySignal]) := by
  decide!

/-! ## The throttle of `doRequest` -/

/-- C22 fails on the code.  A call leaves the throttle at the later of the
instant it took the lock and `lastRequest` plus the spacing, but the instant
stored in `lastRequest` is the clock before the sleep, not the instant the
call left.  On ten calls made one after the other, each 50 ms after the call
before it left the throttle, every second call leaves only 50 ms after the
call before it, and 9 calls leave within the second that starts at 1 s, while
the spacing is 166666666 ns and the limit stated in the source is 6 per
second. -/
theorem doRequest_throttle_spacing_fails :
    (∀ (t : Throttle) (arrival : Int),
      (OKXClient.doRequest.throttle t arrival).1 =
        max (max arrival t.freeAt) (t.lastRequest + throttleInterval) ∧
      (OKXClient.doRequest.throttle t arrival).2.lastRequest = max arrival t.freeAt ∧
      (OKXClient.doRequest.throttle t arrival).2.freeAt =
        (OKXClient.doRequest.throttle t arrival).1) ∧
    throttleInterval = 166666666 ∧
    OKXClient.doRequest.releases (NewOKXClient 0) backToBackArrivals =
      [1000000000, 1166666666, 1216666666, 1383333332, 1433333332, 1599999998, 1649999998,
       1816666664, 1866666664, 2033333330] ∧
    gaps (OKXClient.doRequest.releases (NewOKXClient 0) backToBackArrivals) =
      [166666666, 50000000, 166666666, 50000000, 166666666, 50000000, 166666666, 50000000,
       166666666] ∧
    backToBackArrivals.tail =
      ((OKXClient.doRequest.releases (NewOKXClient 0) backToBackArrivals).take 9).map
        (fun release => release + 50000000) ∧
    releasedIn (OKXClient.doRequest.releases (NewOKXClient 0) backToBackArrivals) 1000000000
      = 9 := by
  refine ⟨?_, by decide, by decide!, by decide!, by decide!, by decide!⟩
  intro t arrival
  refine ⟨?_, rfl, rfl⟩
  unfold OKXClient.doRequest.throttle
  dsimp only
  split_ifs with h
  · have h2 : max arrival t.freeAt ≤ t.lastRequest + throttleInterval := by omega
    rw [max_eq_right h2]
    ring
  · have h2 : t.lastRequest + throttleInterval ≤ max arrival t.freeAt := by omega
    rw [max_eq_left h2]

/-! ## Nested retries of an order -/

/-- The loop of `utils.RetryOperation` on an operation that always fails and
adds one to a count each time: with `k+1` iterations left it returns the error
of the last invocation after `k+1` invocations.  `P` is a property of every
error and `inv` one of every state the operation leaves. -/
theorem utils_loop_all_fail {τ : Type} (op : τ → Option String × τ) (count : τ → Nat)
    (P : String → Prop) (inv : τ → Prop)
    (hop : ∀ st : τ, ∃ msg : String, (op st).1 = some msg ∧ P msg ∧
      count (op st).2 = count st + 1 ∧ inv (op st).2) :
    ∀ (k : Nat) (lastErr : Option String) (st : τ),
      ∃ msg : String, (utils.RetryOperation.loop op (k + 1) lastErr st).1 = some msg ∧ P msg ∧
        count (utils.RetryOperation.loop op (k + 1) lastErr st).2 = count st + (k + 1) ∧
        inv (utils.RetryOperation.loop op (k + 1) lastErr st).2 := by
  intro k
  induction k with
  | zero =>
    intro lastErr st
    obtain ⟨msg, hmsg, hP, hcount, hinv⟩ := hop st
    have hpair : op st = (some msg, (op st).2) := Prod.ext hmsg rfl
    have hrun : utils.RetryOperation.loop op (0 + 1) lastErr st = (some msg, (op st).2) := by
      rw [utils.RetryOperation.loop, hpair]
      rfl
    rw [hrun]
    exact ⟨msg, rfl, hP, hcount, hinv⟩
  | succ k ih =>
    intro lastErr st
    obtain ⟨msg, hmsg, _, hcount, _⟩ := hop st
    have hpair : op st = (some msg, (op st).2) := Prod.ext hmsg rfl
    have hrun : utils.RetryOperation.loop op (k + 1 + 1) lastErr st =
        utils.RetryOperation.loop op (k + 1) (some msg) (op st).2 := by
      rw [utils.RetryOperation.loop, hpair]
    rw [hrun]
    obtain ⟨msg2, h1, h2, h3, h4⟩ := ih (some msg) (op st).2
    exact ⟨msg2, h1, h2, by rw [h3, hcount]; omega, h4⟩

/-- The gateway call on counted attempts that all fail with temporary errors:
it makes as many attempts as `MaxRetries` says and, with at least one attempt,
returns a temporary error and no response; without an attempt it returns
neither. -/
theorem sendRequestWithRetry_all_fail {σ : Type} (doRequest : Attempt σ)
    (hfail : ∀ s : σ, ∃ msg : String, (doRequest s).1 = Except.error msg ∧
      api.IsTemporaryError (some msg) = true)
    (inner : RetryConfig) (s : σ) (c : Nat) :
    (OKXClient.sendRequestWithRetry (counting doRequest) inner (s, c)).2.2
      = c + inner.MaxRetries.toNat ∧
    (1 ≤ inner.MaxRetries → ∃ msg : String, api.IsTemporaryError (some msg) = true ∧
      (OKXClient.sendRequestWithRetry (counting doRequest) inner (s, c)).1
        = (none, some msg)) ∧
    (inner.MaxRetries.toNat = 0 →
      (OKXClient.sendRequestWithRetry (counting doRequest) inner (s, c)).1 = (none, none)) := by
  have hchar : ∃ operation :
      (σ × Nat) × Option String → Option String × ((σ × Nat) × Option String),
      (∀ (st : (σ × Nat) × Option String) (msg : String),
        (doRequest st.1.1).1 = Except.error msg →
        operation st = (some msg, (((doRequest st.1.1).2, st.1.2 + 1), none))) ∧
      OKXClient.sendRequestWithRetry (counting doRequest) inner (s, c) =
        (((utils.RetryOperation.loop operation inner.MaxRetries.toNat none ((s, c), none)).2.2,
          (utils.RetryOperation.loop operation inner.MaxRetries.toNat none ((s, c), none)).1),
         (utils.RetryOperation.loop operation inner.MaxRetries.toNat none ((s, c), none)).2.1) := by
    refine ⟨_, ?_, rfl⟩
    intro st msg h
    simp only [counting, h]
  obtain ⟨operation, hoper, hsend⟩ := hchar
  rw [hsend]
  cases hk : inner.MaxRetries.toNat with
  | zero =>
    refine ⟨rfl, ?_, fun _ => rfl⟩
    intro h1
    omega
  | succ k =>
    have hop : ∀ st : (σ × Nat) × Option String, ∃ msg : String,
        (operation st).1 = some msg ∧ api.IsTemporaryError (some msg) = true ∧
        (operation st).2.1.2 = st.1.2 + 1 ∧ (operation st).2.2 = none := by
      intro st
      obtain ⟨msg, hmsg, hP⟩ := hfail st.1.1
      rw [hoper st msg hmsg]
      exact ⟨msg, rfl, hP, rfl, rfl⟩
    obtain ⟨msg, h1, h2, h3, h4⟩ := utils_loop_all_fail operation (fun st => st.1.2)
      (fun msg => api.IsTemporaryError (some msg) = true) (fun st => st.2 = none) hop k none
      ((s, c), none)
    exact ⟨h3, fun _ => ⟨msg, h2, Prod.ext h4 h1⟩, fun h => absurd h (Nat.succ_ne_zero k)⟩

/-- The loop of `api.RetryOperation` on an operation that always fails with a
temporary error and adds `m` to a count each time: `n` iterations add `n*m`,
and the result is the wrapped last error. -/
theorem api_loop_all_temporary {τ : Type} (op : τ → Option String × τ) (config : RetryConfig)
    (count : τ → Nat) (m : Nat)
    (hop : ∀ st : τ, ∃ msg : String, (op st).1 = some msg ∧
      api.IsTemporaryError (some msg) = true ∧ count (op st).2 = count st + m) :
    ∀ (n : Nat) (lastErr : Option String) (st : τ),
      count (api.RetryOperation.loop op config n lastErr st).2 = count st + n * m ∧
      ∃ text : String, (api.RetryOperation.loop op config n lastErr st).1 =
        some ("达到最大重试次数 (" ++ toString config.MaxRetries ++ "): " ++ text) ∧
        (0 < n → api.IsTemporaryError (some text) = true) := by
  intro n
  induction n with
  | zero =>
    intro lastErr st
    refine ⟨by simp [api.RetryOperation.loop], errorText lastErr, rfl, fun h => absurd h (by omega)⟩
  | succ n ih =>
    intro lastErr st
    obtain ⟨msg, hmsg, htemp, hcount⟩ := hop st
    have hstep : api.RetryOperation.loop op config (n + 1) lastErr st =
        api.RetryOperation.loop op config n (some msg) (op st).2 := by
      rw [api.RetryOperation.loop]
      have hpair : op st = (some msg, (op st).2) := Prod.ext hmsg rfl
      rw [hpair]
      simp only [htemp, Bool.not_true, Bool.false_eq_true, if_false]
    rw [hstep]
    obtain ⟨hc, text, htext, htt⟩ := ih (some msg) (op st).2
    refine ⟨by rw [hc, hcount]; ring, ?_⟩
    cases n with
    | zero => exact ⟨msg, rfl, fun _ => htemp⟩
    | succ k => exact ⟨text, htext, fun _ => htt (by omega)⟩

/-- `PlaceOrder` of okx.go over counted attempts that all fail with temporary
errors: three attempts are made and a temporary error is returned. -/
theorem PlaceOrder_all_fail {σ : Type} (doRequest : String → String → PlaceOrderRequest → Attempt σ)
    (Unmarshal : String → Except String OrderResult) (lib : GoLibrary (σ × Nat))
    (hfail : ∀ (method path : String) (req : PlaceOrderRequest) (s : σ), ∃ msg : String,
      (doRequest method path req s).1 = Except.error msg ∧
      api.IsTemporaryError (some msg) = true)
    (req : PlaceOrderRequest) (s : σ) (c : Nat) :
    ∃ msg : String, api.IsTemporaryError (some msg) = true ∧
      (api.OKXClient.PlaceOrder
        { doRequest := fun method path body => counting (doRequest method path body),
          Unmarshal := Unmarshal } lib req (s, c)).1.1 = Except.error msg ∧
      (api.OKXClient.PlaceOrder
        { doRequest := fun method path body => counting (doRequest method path body),
          Unmarshal := Unmarshal } lib req (s, c)).2.2 = c + 3 := by
  unfold api.OKXClient.PlaceOrder OKXClient.sendRequest
  dsimp only
  generalize hreq : (match lib.ParseFloat
      (if (if req.ClOrdId = "" then
            ({ req with ClOrdId := sprintf012d (Int.tmod (lib.UnixNano (s, c)) 1000000000000) }
              : PlaceOrderRequest)
          else req).TdMode = "" then
        ({ (if req.ClOrdId = "" then
            ({ req with ClOrdId := sprintf012d (Int.tmod (lib.UnixNano (s, c)) 1000000000000) }
              : PlaceOrderRequest)
          else req) with TdMode := "isolated" } : PlaceOrderRequest)
      else (if req.ClOrdId = "" then
            ({ req with ClOrdId := sprintf012d (Int.tmod (lib.UnixNano (s, c)) 1000000000000) }
              : PlaceOrderRequest)
          else req)).Sz with
    | Except.ok sz => _
    | Except.error _ => _) = req3
  obtain ⟨hcount, hres, _⟩ := sendRequestWithRetry_all_fail
    (doRequest "POST" "/api/v5/trade/order" req3)
    (hfail "POST" "/api/v5/trade/order" req3) utils.DefaultRetryConfig s c
  obtain ⟨msg, htemp, hmsg⟩ := hres (by decide)
  refine ⟨msg, htemp, ?_⟩
  have hpair : OKXClient.sendRequestWithRetry
      (counting (doRequest "POST" "/api/v5/trade/order" req3)) utils.DefaultRetryConfig (s, c) =
      ((none, some msg),
        ((OKXClient.sendRequestWithRetry
          (counting (doRequest "POST" "/api/v5/trade/order" req3))
          utils.DefaultRetryConfig (s, c)).2.1, c + 3)) := by
    refine Prod.ext hmsg (Prod.ext rfl ?_)
    exact hcount
  rw [hpair]
  exact ⟨rfl, rfl⟩

/-- The closure of `executeSignal` around `PlaceOrder` of okx.go over counted
attempts that all fail with temporary errors: each invocation fails with a
temporary error, makes three attempts and one `PlaceOrder` call. -/
theorem placeOrderOperation_all_fail {σ : Type} (e : Engine (σ × Nat))
    (doRequest : String → String → PlaceOrderRequest → Attempt σ)
    (Unmarshal : String → Except String OrderResult)
    (hapi : e.api.PlaceOrder = fun req s =>
      ((api.OKXClient.PlaceOrder
          { doRequest := fun method path body => counting (doRequest method path body),
            Unmarshal := Unmarshal } e.lib req s).1.1,
       (api.OKXClient.PlaceOrder
          { doRequest := fun method path body => counting (doRequest method path body),
            Unmarshal := Unmarshal } e.lib req s).2))
    (hfail : ∀ (method path : String) (req : PlaceOrderRequest) (s : σ), ∃ msg : String,
      (doRequest method path req s).1 = Except.error msg ∧
      api.IsTemporaryError (some msg) = true)
    (orderReq : PlaceOrderRequest) (st : World (σ × Nat) × Option OrderResponse) :
    ∃ msg : String, (e.placeOrderOperation orderReq st).1 = some msg ∧
      api.IsTemporaryError (some msg) = true ∧
      (e.placeOrderOperation orderReq st).2.1.state.2 = st.1.state.2 + 3 ∧
      placeOrderCount (e.placeOrderOperation orderReq st).2.1.calls
        = placeOrderCount st.1.calls + 1 := by
  obtain ⟨msg, htemp, herr, hcount⟩ := PlaceOrder_all_fail doRequest Unmarshal e.lib hfail
    orderReq st.1.state.1 st.1.state.2
  have hcall : e.callPlaceOrder orderReq st.1 =
      (Except.error msg,
        { state := (e.api.PlaceOrder orderReq st.1.state).2,
          calls := st.1.calls ++ [Call.PlaceOrder orderReq] }) := by
    unfold Engine.callPlaceOrder
    refine Prod.ext ?_ rfl
    rw [hapi]
    exact herr
  refine ⟨msg, ?_, htemp, ?_, ?_⟩
  · unfold Engine.placeOrderOperation
    simp only [hcall]
  · unfold Engine.placeOrderOperation
    simp only [hcall]
    rw [hapi]
    exact hcount
  · unfold Engine.placeOrderOperation
    simp only [hcall]
    exact placeOrderCount_append_placeOrder _ _

/-- The number of attempts of a gateway call with `inner` retries under an
outer `api.RetryOperation` with `outer` retries, when every attempt fails with
a temporary error: the product of the two `MaxRetries`. -/
theorem nested_retry_attempts {σ : Type} (attempt : Attempt σ)
    (hfail : ∀ s : σ, ∃ msg : String, (attempt s).1 = Except.error msg ∧
      api.IsTemporaryError (some msg) = true)
    (outer inner : RetryConfig) (s : σ) :
    (api.RetryOperation (OKXClient.sendOperation (counting attempt) inner) outer (s, 0)).2.2
      = outer.MaxRetries.toNat * inner.MaxRetries.toNat := by
  unfold api.RetryOperation
  by_cases hin : 1 ≤ inner.MaxRetries
  · have hop : ∀ st : σ × Nat, ∃ msg : String,
        (OKXClient.sendOperation (counting attempt) inner st).1 = some msg ∧
        api.IsTemporaryError (some msg) = true ∧
        (OKXClient.sendOperation (counting attempt) inner st).2.2
          = st.2 + inner.MaxRetries.toNat := by
      intro st
      obtain ⟨hcount, hres, _⟩ := sendRequestWithRetry_all_fail attempt hfail inner st.1 st.2
      obtain ⟨msg, htemp, hmsg⟩ := hres hin
      exact ⟨msg, congrArg Prod.snd hmsg, htemp, hcount⟩
    have h := (api_loop_all_temporary (OKXClient.sendOperation (counting attempt) inner) outer
      (fun st => st.2) inner.MaxRetries.toNat hop outer.MaxRetries.toNat none (s, 0)).1
    simpa using h
  · have hzero : inner.MaxRetries.toNat = 0 := by omega
    rw [hzero, Nat.mul_zero]
    have hop : ∀ st : σ × Nat,
        (OKXClient.sendOperation (counting attempt) inner st).1 = none ∧
        (OKXClient.sendOperation (counting attempt) inner st).2.2 = st.2 := by
      intro st
      obtain ⟨hcount, _, hres⟩ := sendRequestWithRetry_all_fail attempt hfail inner st.1 st.2
      exact ⟨congrArg Prod.snd (hres hzero), by rw [hzero] at hcount; exact hcount⟩
    cases outer.MaxRetries.toNat with
    | zero => rfl
    | succ n =>
      rw [api.RetryOperation.loop]
      have hpair : OKXClient.sendOperation (counting attempt) inner (s, 0) =
          (none, (OKXClient.sendOperation (counting attempt) inner (s, 0)).2) :=
        Prod.ext (hop (s, 0)).1 rfl
      rw [hpair]
      exact (hop (s, 0)).2

/-- C27: when `executeSignal` reaches the order placement and every HTTP
attempt of the order fails with a temporary error, `executeSignal` returns the
error "达到最大重试次数 (3): ..." after exactly 9 attempts, made in 3
`PlaceOrder` calls of 3 attempts each.  In general a gateway call with `inner`
retries under `api.RetryOperation` with `outer` retries makes
`outer.MaxRetries * inner.MaxRetries` attempts. -/
theorem executeSignal_nine_attempts {σ : Type} (e : Engine (σ × Nat))
    (doRequest : String → String → PlaceOrderRequest → Attempt σ)
    (Unmarshal : String → Except String OrderResult)
    (hapi : e.api.PlaceOrder = fun req s =>
      ((api.OKXClient.PlaceOrder
          { doRequest := fun method path body => counting (doRequest method path body),
            Unmarshal := Unmarshal } e.lib req s).1.1,
       (api.OKXClient.PlaceOrder
          { doRequest := fun method path body => counting (doRequest method path body),
            Unmarshal := Unmarshal } e.lib req s).2))
    (hfail : ∀ (method path : String) (req : PlaceOrderRequest) (s : σ), ∃ msg : String,
      (doRequest method path req s).1 = Except.error msg ∧
      api.IsTemporaryError (some msg) = true)
    (signal : Signal) (w w2 w3 w4 : World (σ × Nat))
    (hpre : Engine.executeSignal.precheck e signal w = (none, w2))
    (hlev : e.callSetLeverage signal.Symbol (toString e.config.Leverage) e.config.MarginMode
      (if signal.Action = "sell" then "short" else "long") w2 = (none, w3))
    (hbal : e.checkBalance (signal.Price * signal.Amount / (e.config.Leverage : ℚ)) w3
      = (none, w4)) :
    (∃ (text : String) (w5 : World (σ × Nat)),
      api.IsTemporaryError (some text) = true ∧
      e.executeSignal signal w = some (some ("达到最大重试次数 (3): " ++ text), w5) ∧
      w5.state.2 = w4.state.2 + 9 ∧
      placeOrderCount w5.calls = placeOrderCount w4.calls + 3) ∧
    (∀ (attempt : Attempt σ) (outer inner : RetryConfig) (s : σ),
      (∀ s : σ, ∃ msg : String, (attempt s).1 = Except.error msg ∧
        api.IsTemporaryError (some msg) = true) →
      (api.RetryOperation (OKXClient.sendOperation (counting attempt) inner) outer (s, 0)).2.2
        = outer.MaxRetries.toNat * inner.MaxRetries.toNat) := by
  refine ⟨?_, fun attempt outer inner s h => nested_retry_attempts attempt h outer inner s⟩
  have hgen : ∀ orderReq : PlaceOrderRequest, ∃ (text : String)
      (st5 : World (σ × Nat) × Option OrderResponse),
      api.IsTemporaryError (some text) = true ∧
      api.RetryOperation (e.placeOrderOperation orderReq)
        { MaxRetries := 3, DelayMillis := 1000 } (w4, none) =
        (some ("达到最大重试次数 (3): " ++ text), st5) ∧
      st5.1.state.2 = w4.state.2 + 9 ∧
      placeOrderCount st5.1.calls = placeOrderCount w4.calls + 3 := by
    intro orderReq
    have hop := placeOrderOperation_all_fail e doRequest Unmarshal hapi hfail orderReq
    obtain ⟨hc1, text, htext, htt⟩ := api_loop_all_temporary (e.placeOrderOperation orderReq)
      { MaxRetries := 3, DelayMillis := 1000 } (fun st => st.1.state.2) 3
      (fun st => by
        obtain ⟨msg, h1, h2, h3, _⟩ := hop st
        exact ⟨msg, h1, h2, h3⟩) 3 none (w4, none)
    obtain ⟨hc2, _⟩ := api_loop_all_temporary (e.placeOrderOperation orderReq)
      { MaxRetries := 3, DelayMillis := 1000 } (fun st => placeOrderCount st.1.calls) 1
      (fun st => by
        obtain ⟨msg, h1, h2, _, h4⟩ := hop st
        exact ⟨msg, h1, h2, h4⟩) 3 none (w4, none)
    exact ⟨text, _, htt (by decide), Prod.ext htext rfl, hc1, hc2⟩
  obtain ⟨text, st5, htemp, hrun, hc1, hc2⟩ := hgen
    { InstId := signal.Symbol, TdMode := e.config.MarginMode, Side := signal.Action,
      PosSide := if e.config.TradeType = "futures"
        then (if signal.Action = "sell" then "short" else "long") else "",
      OrdType := "market", Sz := "200", Px := "",
      Lever := if e.config.TradeType = "futures" then toString e.config.Leverage else "",
      ClOrdId := "" }
  refine ⟨text, st5.1, htemp, ?_, hc1, hc2⟩
  unfold Engine.executeSignal
  simp only [hpre, hlev, hbal, hrun]

/-- C27 at the engine whose transport always answers "request timeout", with
250 USDT available and a buy of amount 1 at price 1000: `executeSignal` gives
up after 9 attempts. -/
theorem executeSignal_nine_attempts_witness :
    ∃ (text : String) (w5 : World (Unit × Nat)),
      api.IsTemporaryError (some text) = true ∧
      (timeoutEngine [usdtBalance "250"]).executeSignal exampleBuySignal
          { state := ((), 0), calls := [] } =
        some (some ("达到最大重试次数 (3): " ++ text), w5) ∧
      w5.state.2 = 0 + 9 ∧
      placeOrderCount w5.calls = 0 + 3 :=
  (executeSignal_nine_attempts (timeoutEngine [usdtBalance "250"])
    (fun _ _ _ _ => (Except.error "request timeout", ()))
    (fun _ => Except.error "unexpected end of JSON input") rfl
    (fun _ _ _ _ => ⟨"request timeout", rfl, by decide!⟩)
    exampleBuySignal { state := ((), 0), calls := [] }
    { state := ((), 0), calls := [Call.GetPositions "BTC-USDT-SWAP", Call.GetBalances] }
    { state := ((), 0), calls := [Call.GetPositions "BTC-USDT-SWAP", Call.GetBalances,
                                  Call.SetLeverage "BTC-USDT-SWAP" "10" "cross" "long"] }
    { state := ((), 0), calls := [Call.GetPositions "BTC-USDT-SWAP", Call.GetBalances,
                                  Call.SetLeverage "BTC-USDT-SWAP" "10" "cross" "long",
                                  Call.GetBalances] }
    (by decide!) (by decide!) (by decide!)).1

end Okxauto
